import Mathlib

/-!
# Complexity analyzer: line classifier, scan state machine and estimator

A shallow embedding of `src/analyzer/complexity_analyzer.c`.

* A C string is the list of its characters before the terminating NUL
  (`CStr`); a pointer into a string is the offset of the character it
  points at, and a `NULL` result is `none`.
* An `int` is an unbounded `Int`: the counters only ever grow by one per
  line read, and signed overflow is undefined in C.  The `int`s that the
  program only ever sets to the constants 0 and 1 and tests for being
  non-zero (`in_function`, `is_recursive`, `has_recursion`) are `Bool`s.
* `analysis->functions` is a map from the index to the `FunctionInfo`
  stored there.  The C array has `MAX_FUNCTIONS` cells; the map records a
  store at any index, so that a store outside `0 .. MAX_FUNCTIONS - 1` is
  visible in the model instead of being lost.
* `char name[50]` and `char current_function[50]` hold a `CStr` of any
  length; a token of 50 characters or more overruns them in C.
* `printf` calls are recorded in order, each as its format string and its
  integer arguments.
* The loop of `analyze_file` is a left fold of `process_line` over the
  records that `fgets` delivers (`read_lines` cuts a file's contents into
  these records).  A record is used as a C string, so it ends before its
  first NUL byte (`c_string`).
-/

namespace ComplexityAnalyzer

/-- A C string, without its terminating NUL. -/
abbrev CStr := List Char

/-- The macro `MAX_LINE_LENGTH`. -/
def MAX_LINE_LENGTH : Nat := 256

/-- The macro `MAX_FUNCTIONS`. -/
def MAX_FUNCTIONS : Nat := 50

/-- The opening brace character. -/
def LBRACE : Char := Char.ofNat 123

/-- The closing brace character. -/
def RBRACE : Char := Char.ofNat 125

/-- The `isspace` of `<ctype.h>` in the "C" locale: space, `\t`, `\n`, `\v`,
`\f`, `\r`. -/
def isspace (c : Char) : Bool :=
  c == ' ' || c == '\t' || c == '\n' || c == Char.ofNat 11 || c == Char.ofNat 12 || c == '\r'

/-- The `strchr` of `<string.h>`: offset of the first occurrence of `c`. -/
def strchr : CStr → Char → Option Nat
  | [], _ => none
  | x :: xs, c => if x = c then some 0 else (strchr xs c).map (· + 1)

/-- The `strstr` of `<string.h>`: offset of the first occurrence of `needle`. -/
def strstr : CStr → CStr → Option Nat
  | [], needle => if needle.isEmpty then some 0 else none
  | x :: xs, needle =>
    if needle.isPrefixOf (x :: xs) then some 0 else (strstr xs needle).map (· + 1)

/-- The struct `FunctionInfo`. -/
structure FunctionInfo where
  name : CStr
  is_recursive : Bool
  loop_depth : Int
  has_recursion : Bool
deriving DecidableEq, Repr

/-- The struct `CodeAnalysis`. -/
structure CodeAnalysis where
  total_loops : Int
  max_nested_loops : Int
  recursive_functions : Int
  total_functions : Int
  malloc_calls : Int
  array_declarations : Int
  functions : Int → FunctionInfo

/-- The initialiser `CodeAnalysis analysis = {0}` of `main`. -/
def CodeAnalysis.zero : CodeAnalysis :=
  { total_loops := 0, max_nested_loops := 0, recursive_functions := 0, total_functions := 0,
    malloc_calls := 0, array_declarations := 0,
    functions := fun _ => { name := [], is_recursive := false, loop_depth := 0,
                            has_recursion := false } }

/-- The function `is_loop_start`. -/
def is_loop_start (line : CStr) : Bool :=
  (strstr line "for(".toList).isSome || (strstr line "for (".toList).isSome ||
  (strstr line "while(".toList).isSome || (strstr line "while (".toList).isSome ||
  (strstr line ['d', 'o', LBRACE]).isSome || (strstr line ['d', 'o', ' ', LBRACE]).isSome

/-- The function `is_function_start`: the loop runs over the characters
before `open_paren`. -/
def is_function_start (line : CStr) : Bool :=
  match strchr line '(' with
  | none => false
  | some open_paren => (line.take open_paren).any isspace

/-- The function `is_recursive_call`; `func_name` is an array in the caller
and never `NULL`. -/
def is_recursive_call (line func_name : CStr) : Bool :=
  if func_name.length = 0 then false
  else if (strstr line func_name).isSome && (strchr line LBRACE).isSome then false
  else
    match strstr line func_name with
    | none => false
    | some call_pos =>
      let after_name := (line.drop (call_pos + func_name.length)).dropWhile isspace
      after_name.head? == some '('

/-- The function `is_malloc_call`. -/
def is_malloc_call (line : CStr) : Bool :=
  (strstr line "malloc(".toList).isSome || (strstr line "malloc (".toList).isSome

/-- The function `is_array_declaration`: `close_bracket` is searched from
`open_bracket` on, and the loop runs over the characters strictly between
the two. -/
def is_array_declaration (line : CStr) : Bool :=
  match strchr line '[' with
  | none => false
  | some open_bracket =>
    match strchr (line.drop open_bracket) ']' with
    | none => false
    | some close_off =>
      (((line.drop open_bracket).take close_off).drop 1).any (fun c => !isspace c)

/-- The scanner's local variables in `analyze_file`, with the analysis they
update. -/
structure ScanState where
  analysis : CodeAnalysis
  current_function : CStr
  in_function : Bool
  brace_count : Int
  loop_stack_depth : Int

/-- The state in which `analyze_file` enters its loop when `main` calls it. -/
def ScanState.init : ScanState :=
  { analysis := CodeAnalysis.zero, current_function := [], in_function := false,
    brace_count := 0, loop_stack_depth := 0 }

/-- The call `sscanf(trimmed_line, "%*s %s", current_function)`: the second
whitespace-delimited token of the line, when there is one. -/
def sscanf_second_token (line : CStr) : Option CStr :=
  let rest := (line.dropWhile isspace).dropWhile (fun c => !isspace c)
  let tok := (rest.dropWhile isspace).takeWhile (fun c => !isspace c)
  if (line.dropWhile isspace).isEmpty || tok.isEmpty then none else some tok

/-- The call `strtok(current_function, "(")` as it leaves the buffer: the
leading parentheses are skipped, not removed, and the first parenthesis after
the token is overwritten by NUL. -/
def strtok_paren (buf : CStr) : CStr :=
  buf.takeWhile (· == '(') ++ (buf.dropWhile (· == '(')).takeWhile (· != '(')

/-- The value of `current_function` after lines 64-65. -/
def scan_name (trimmed_line current_function : CStr) : CStr :=
  strtok_paren ((sscanf_second_token trimmed_line).getD current_function)

/-- The loop `while (*ptr)` of lines 76-81, started with `brace_count`. -/
def count_braces (brace_count : Int) : CStr → Int
  | [] => brace_count
  | c :: cs =>
    let b1 := if c = LBRACE then brace_count + 1 else brace_count
    let b2 := if c = RBRACE then b1 - 1 else b1
    count_braces b2 cs

/-- Store `f` in `analysis->functions[i]`. -/
def set_function (a : CodeAnalysis) (i : Int) (f : FunctionInfo) : CodeAnalysis :=
  { a with functions := fun j => if j = i then f else a.functions j }

/-- Lines 63-72: the function-start check. -/
def function_start_step (s : ScanState) (trimmed_line : CStr) : ScanState :=
  if !s.in_function && is_function_start trimmed_line then
    let current_function := scan_name trimmed_line s.current_function
    let a := set_function s.analysis s.analysis.total_functions
      { name := current_function, is_recursive := false, loop_depth := 0,
        has_recursion := false }
    { s with
      analysis := { a with total_functions := a.total_functions + 1 }
      current_function := current_function
      in_function := true }
  else s

/-- Lines 75-88: brace tracking and function exit. -/
def brace_step (s : ScanState) (trimmed_line : CStr) : ScanState :=
  if s.in_function then
    let brace_count := count_braces s.brace_count trimmed_line
    if brace_count = 0 then
      { s with brace_count := brace_count, in_function := false, current_function := [],
               loop_stack_depth := 0 }
    else { s with brace_count := brace_count }
  else s

/-- Lines 91-102: the loop-start check. -/
def loop_step (s : ScanState) (trimmed_line : CStr) : ScanState :=
  if s.in_function && is_loop_start trimmed_line then
    let loop_stack_depth := s.loop_stack_depth + 1
    let a0 := { s.analysis with total_loops := s.analysis.total_loops + 1 }
    let a1 := if loop_stack_depth > a0.max_nested_loops then
        { a0 with max_nested_loops := loop_stack_depth } else a0
    let last := a1.total_functions - 1
    let a2 := if loop_stack_depth > (a1.functions last).loop_depth then
        set_function a1 last { a1.functions last with loop_depth := loop_stack_depth } else a1
    { s with analysis := a2, loop_stack_depth := loop_stack_depth }
  else s

/-- Lines 105-107: the loop-end check. -/
def loop_end_step (s : ScanState) (trimmed_line : CStr) : ScanState :=
  if s.in_function && (strstr trimmed_line [RBRACE]).isSome && decide (s.loop_stack_depth > 0) then
    { s with loop_stack_depth := s.loop_stack_depth - 1 }
  else s

/-- Lines 111-119: the recursion check. -/
def recursion_step (s : ScanState) (trimmed_line : CStr) : ScanState :=
  if s.in_function && is_recursive_call trimmed_line s.current_function then
    let last := s.analysis.total_functions - 1
    let a1 := set_function s.analysis last { s.analysis.functions last with has_recursion := true }
    let a2 := if !(a1.functions last).is_recursive then
        set_function { a1 with recursive_functions := a1.recursive_functions + 1 } last
          { a1.functions last with is_recursive := true }
      else a1
    { s with analysis := a2 }
  else s

/-- Lines 122-124: the allocation check. -/
def malloc_step (s : ScanState) (trimmed_line : CStr) : ScanState :=
  if is_malloc_call trimmed_line then
    { s with analysis := { s.analysis with malloc_calls := s.analysis.malloc_calls + 1 } }
  else s

/-- Lines 127-129: the array-declaration check. -/
def array_step (s : ScanState) (trimmed_line : CStr) : ScanState :=
  if is_array_declaration trimmed_line then
    { s with analysis :=
        { s.analysis with array_declarations := s.analysis.array_declarations + 1 } }
  else s

/-- Line 54: `trimmed_line` skips the leading whitespace of `line`. -/
def trim (line : CStr) : CStr := line.dropWhile isspace

/-- Line 57: the test under which the loop body `continue`s. -/
def is_skipped (trimmed_line : CStr) : Bool :=
  trimmed_line.length = 0 || strstr trimmed_line "//".toList == some 0

/-- One iteration of the `while (fgets(...))` loop of `analyze_file`. -/
def process_line (s : ScanState) (line : CStr) : ScanState :=
  let trimmed_line := trim line
  if is_skipped trimmed_line then s
  else
    let s1 := function_start_step s trimmed_line
    let s2 := brace_step s1 trimmed_line
    let s3 := loop_step s2 trimmed_line
    let s4 := loop_end_step s3 trimmed_line
    let s5 := recursion_step s4 trimmed_line
    let s6 := malloc_step s5 trimmed_line
    array_step s6 trimmed_line

/-- The loop of `analyze_file` run from state `s` over the records read. -/
def scan_from (s : ScanState) (lines : List CStr) : ScanState :=
  lines.foldl process_line s

/-- The loop of `analyze_file` as `main` runs it, on a zeroed analysis. -/
def analyze_lines (lines : List CStr) : CodeAnalysis :=
  (scan_from ScanState.init lines).analysis

/-- One call `fgets(line, n, file)` on the unread rest of the file: the record
read (at most `n - 1` characters, ending after the first newline) and what is
left unread. -/
def fgets : Nat → CStr → CStr × CStr
  | 0, rest => ([], rest)
  | _ + 1, [] => ([], [])
  | n + 1, c :: cs =>
    if n = 0 then ([], c :: cs)
    else if c = '\n' then ([c], cs)
    else ((c :: (fgets n cs).1), (fgets n cs).2)

/-- The records that the calls of `fgets` deliver, at most `fuel` of them. -/
def read_lines_fuel : Nat → CStr → List CStr
  | 0, _ => []
  | fuel + 1, content =>
    if content.isEmpty then []
    else (fgets MAX_LINE_LENGTH content).1 :: read_lines_fuel fuel (fgets MAX_LINE_LENGTH content).2

/-- The records of a file: every call of `fgets` on a non-empty rest reads
at least one character, so `content.length` calls are enough. -/
def read_lines (content : CStr) : List CStr :=
  read_lines_fuel content.length content

/-- The C string that a record read by `fgets` holds: the characters before
its first NUL byte, where `strlen`, `strstr`, `strchr`, `sscanf` and the
character loops of the program stop. -/
def c_string (record : CStr) : CStr :=
  record.takeWhile (fun c => c != Char.ofNat 0)

/-- The function `analyze_file` on a file that could be opened. -/
def analyze_file (content : CStr) : CodeAnalysis :=
  analyze_lines ((read_lines content).map c_string)

/-- A call of `printf`: the format string and the `int` arguments. -/
structure Printf where
  format : String
  args : List Int
deriving DecidableEq, Repr

/-- The function `estimate_complexity`: its `printf` calls in order. -/
def estimate_complexity (analysis : CodeAnalysis) : List Printf :=
  [⟨"Estimated Time Complexity:\n", []⟩] ++
  (if analysis.recursive_functions > 0 then
    [⟨"- Exponential (O(2^n)) or worse detected due to recursion\n", []⟩] else []) ++
  (if analysis.max_nested_loops ≥ 3 then
    [⟨"- Polynomial (O(n^%d)) detected due to %d nested loops\n",
      [analysis.max_nested_loops, analysis.max_nested_loops]⟩]
  else if analysis.max_nested_loops = 2 then
    [⟨"- Quadratic (O(n^2)) detected due to nested loops\n", []⟩]
  else if analysis.total_loops > 0 then
    [⟨"- Linear (O(n)) detected due to loops\n", []⟩]
  else
    [⟨"- Constant (O(1)) - no loops found\n", []⟩]) ++
  [⟨"\nEstimated Space Complexity:\n", []⟩] ++
  (if analysis.malloc_calls > 0 ∨ analysis.array_declarations > 0 then
    (if analysis.recursive_functions > 0 then
      [⟨"- O(n) or worse (dynamic allocations and/or recursion)\n", []⟩]
    else
      [⟨"- O(n) (dynamic allocations detected)\n", []⟩])
  else
    [⟨"- O(1) (no significant dynamic allocations)\n", []⟩])

/-! ## Vocabulary of the statements -/

/-- The string `needle` occurs in `line` as a substring. -/
def Contains (line needle : CStr) : Prop := ∃ before after, line = before ++ needle ++ after

/-- The six literal substrings that `is_loop_start` looks for. -/
def loop_start_substrings : List CStr :=
  ["for(".toList, "for (".toList, "while(".toList, "while (".toList,
   ['d', 'o', LBRACE], ['d', 'o', ' ', LBRACE]]

/-- The number of lines that are not skipped by line 57 and pass the test `p`
on the trimmed line. -/
def count_lines (p : CStr → Bool) (lines : List CStr) : Nat :=
  (lines.filter (fun l => !is_skipped (trim l) && p (trim l))).length

/-- The value of `in_function` when the loop check of line 91 runs for `line`,
that is after the function-start check and the brace tracking of that line. -/
def in_function_at_loop_check (s : ScanState) (line : CStr) : Bool :=
  (brace_step (function_start_step s (trim line)) (trim line)).in_function

/-- The number of non-skipped loop-start lines whose loop check runs inside a
function, along the scan that starts in state `s`. -/
def count_loops_inside : ScanState → List CStr → Nat
  | _, [] => 0
  | s, l :: ls =>
    (if !is_skipped (trim l) && in_function_at_loop_check s l && is_loop_start (trim l)
      then 1 else 0) + count_loops_inside (process_line s l) ls

/-- Whether `brace_count`, started at `b`, is non-zero after each of the
non-skipped lines, so that none of them ends the function. -/
def stays_open : Int → List CStr → Bool
  | _, [] => true
  | b, l :: ls =>
    if is_skipped (trim l) then stays_open b ls
    else count_braces b (trim l) != 0 && stays_open (count_braces b (trim l)) ls

/-- The `printf` of line 215. -/
def timeHeader : Printf := ⟨"Estimated Time Complexity:\n", []⟩

/-- The `printf` of line 218, the recursion line. -/
def exponentialLine : Printf :=
  ⟨"- Exponential (O(2^n)) or worse detected due to recursion\n", []⟩

/-- The `printf` of lines 222-223 with both arguments `d`. -/
def polynomialLine (d : Int) : Printf :=
  ⟨"- Polynomial (O(n^%d)) detected due to %d nested loops\n", [d, d]⟩

/-- The `printf` of line 225. -/
def quadraticLine : Printf := ⟨"- Quadratic (O(n^2)) detected due to nested loops\n", []⟩

/-- The `printf` of line 227. -/
def linearLine : Printf := ⟨"- Linear (O(n)) detected due to loops\n", []⟩

/-- The `printf` of line 229. -/
def constantLine : Printf := ⟨"- Constant (O(1)) - no loops found\n", []⟩

/-- The `printf` of line 232. -/
def spaceHeader : Printf := ⟨"\nEstimated Space Complexity:\n", []⟩

/-- The `printf` of line 235. -/
def spaceWorseLine : Printf :=
  ⟨"- O(n) or worse (dynamic allocations and/or recursion)\n", []⟩

/-- The `printf` of line 237. -/
def spaceLinearLine : Printf := ⟨"- O(n) (dynamic allocations detected)\n", []⟩

/-- The `printf` of line 240. -/
def spaceConstantLine : Printf := ⟨"- O(1) (no significant dynamic allocations)\n", []⟩

/-- A loop-based time line: one of the four `printf`s of lines 221-230. -/
def is_loop_line (p : Printf) : Bool :=
  p.format == (polynomialLine 0).format || p == quadraticLine || p == linearLine ||
    p == constantLine

/-- A space line: one of the three `printf`s of lines 233-241. -/
def is_space_line (p : Printf) : Bool :=
  p == spaceWorseLine || p == spaceLinearLine || p == spaceConstantLine

/-- The file of claim C7: the header line of `fact`, body lines `before`, the
self-call line, body lines `after`, and the closing-brace line. -/
def fact_file (before after : List CStr) : List CStr :=
  "int fact(int n) \x7b\n".toList ::
    (before ++ ["return n * fact(n-1);\n".toList] ++ after) ++ ["\x7d\n".toList]

/-- The number of entries among `functions[0 .. n-1]` whose `is_recursive` flag
is set. -/
def count_recursive (functions : Int → FunctionInfo) (n : Nat) : Nat :=
  ((List.range n).filter (fun (i : Nat) => (functions (i : Int)).is_recursive)).length

/-- What holds of the scanner after every processed line of a scan that starts
from a zeroed analysis. -/
structure ScanInv (s : ScanState) : Prop where
  total_functions_nonneg : 0 ≤ s.analysis.total_functions
  total_functions_pos : s.in_function = true → 1 ≤ s.analysis.total_functions
  outside : s.in_function = false →
    s.brace_count = 0 ∧ s.loop_stack_depth = 0 ∧ s.current_function = []
  depth_nonneg : 0 ≤ s.loop_stack_depth
  depth_le : s.loop_stack_depth ≤ s.analysis.total_loops
  max_nonneg : 0 ≤ s.analysis.max_nested_loops
  max_le : s.analysis.max_nested_loops ≤ s.analysis.total_loops
  max_pos : 0 < s.analysis.total_loops → 0 < s.analysis.max_nested_loops
  flags : ∀ i, (s.analysis.functions i).has_recursion = (s.analysis.functions i).is_recursive
  recursive_count : s.analysis.recursive_functions =
    count_recursive s.analysis.functions s.analysis.total_functions.toNat
  loops_need_function : s.analysis.total_functions = 0 → s.analysis.total_loops = 0
  loop_depth_nonneg : ∀ i, 0 ≤ (s.analysis.functions i).loop_depth
  loop_depth_le : ∀ i, (s.analysis.functions i).loop_depth ≤ s.analysis.max_nested_loops
  loop_depth_max : 0 < s.analysis.total_functions →
    ∃ i, 0 ≤ i ∧ i < s.analysis.total_functions ∧
      (s.analysis.functions i).loop_depth = s.analysis.max_nested_loops

/-- Lines 76-81 alone: the braces of the line are counted, the test of line 83
is not made. -/
def brace_count_step (s : ScanState) (trimmed_line : CStr) : ScanState :=
  if s.in_function then { s with brace_count := count_braces s.brace_count trimmed_line }
  else s

/-- Lines 83-87 alone: the function is left when `brace_count` is zero. -/
def exit_step (s : ScanState) : ScanState :=
  if s.in_function && decide (s.brace_count = 0) then
    { s with in_function := false, current_function := [], loop_stack_depth := 0 }
  else s

/-- One line in the order of steps 3 to 7 of the specification: the braces are
counted first, and the function exit is made only after the loop, loop-end,
recursion, allocation and array checks of the line. -/
def spec_process_line (s : ScanState) (line : CStr) : ScanState :=
  let trimmed_line := trim line
  if is_skipped trimmed_line then s
  else
    let s1 := function_start_step s trimmed_line
    let s2 := brace_count_step s1 trimmed_line
    let s3 := loop_step s2 trimmed_line
    let s4 := loop_end_step s3 trimmed_line
    let s5 := recursion_step s4 trimmed_line
    let s6 := malloc_step s5 trimmed_line
    let s7 := array_step s6 trimmed_line
    exit_step s7

/-- The scan with every line processed in the order of the specification. -/
def spec_analyze_lines (lines : List CStr) : CodeAnalysis :=
  (lines.foldl spec_process_line ScanState.init).analysis

/-- The value of `loop_stack_depth` that the loop check of `line` compares with
the maxima in lines 94 and 99. -/
def depth_at_loop_check (s : ScanState) (line : CStr) : Int :=
  (loop_step (brace_step (function_start_step s (trim line)) (trim line))
    (trim line)).loop_stack_depth

/-- A file against claim C6: the name of the function ends in `for`, so the
header line itself holds the substring `for(`; the body is one `for` loop. -/
def wait_for_file : List CStr :=
  ["void wait_for(int n) \x7b\n".toList, "    for (int i = 0; i < n; i++) \x7b\n".toList,
   "        n--;\n".toList, "    \x7d\n".toList, "\x7d\n".toList]

/-- A file against claim C6: the header line of `f` holds, after its opening
brace, a comment with a closing brace; the body is one `for` loop. -/
def commented_header_file : List CStr :=
  ["void f(int n) \x7b // \x7d\n".toList, "    for (int i = 0; i < n; i++) \x7b\n".toList,
   "        n--;\n".toList, "    \x7d\n".toList, "\x7d\n".toList]

/-- A file against claim C7: the self-call of `f` stands on the line that also
holds the closing brace of `f`. -/
def closing_call_file : List CStr :=
  ["int f(int n) \x7b\n".toList, "    return f(n - 1); \x7d\n".toList]

/-- A file against claim C7: the header of `fact` begins with `static`, so the
second word of the line is `int`. -/
def static_fact_file : List CStr :=
  ["static int fact(int n) \x7b\n".toList, "    return n * fact(n-1);\n".toList,
   "\x7d\n".toList]

/-- A file against claim C7: the function `g` prints an opening brace, so its
closing-brace line leaves `brace_count` at 1 and the header of `f` is read
inside `g`. -/
def unclosed_g_file : List CStr :=
  ["void g(void) \x7b\n".toList, "    putchar(\x27\x7b\x27);\n".toList, "\x7d\n".toList,
   "int f(int n) \x7b\n".toList, "    return f(n - 1);\n".toList, "\x7d\n".toList]

/-- A file against claim C20: the opening brace of the function stands on the
line after the header. -/
def next_line_brace_file : List CStr :=
  ["void f(int n)\n".toList, "\x7b\n".toList, "do \x7b\n".toList, "n--;\n".toList,
   "\x7d while (n > 0);\n".toList, "\x7d\n".toList]

/-- A file against claim C20: a string literal with two closing braces brings
`brace_count` to -1 before the do-while loop. -/
def negative_count_file : List CStr :=
  ["void f(int n) \x7b\n".toList, "printf(\x22\x7d\x7d\x22);\n".toList, "do \x7b\n".toList,
   "n--;\n".toList, "\x7d while (n > 0);\n".toList, "\x7d\n".toList]

/-- A file against claim C20: the condition of the do-while loop holds a
closing brace in a character literal. -/
def brace_in_condition_file : List CStr :=
  ["void f(char *s) \x7b\n".toList, "do \x7b\n".toList, "s++;\n".toList,
   "\x7d while (*s != \x27\x7d\x27);\n".toList, "\x7d\n".toList]

/-! ## Strings -/

theorem isPrefixOf_iff_append (needle hay : CStr) :
    needle.isPrefixOf hay = true ↔ ∃ post, hay = needle ++ post := by
  induction needle generalizing hay with
  | nil => simp
  | cons a as ih =>
    cases hay with
    | nil => simp
    | cons b bs =>
      simp only [List.isPrefixOf, Bool.and_eq_true, beq_iff_eq, ih, List.cons_append,
        List.cons.injEq]
      constructor
      · rintro ⟨rfl, post, rfl⟩; exact ⟨post, rfl, rfl⟩
      · rintro ⟨post, rfl, rfl⟩; exact ⟨rfl, post, rfl⟩

theorem strchr_eq_none_iff (l : CStr) (c : Char) : strchr l c = none ↔ c ∉ l := by
  induction l with
  | nil => simp [strchr]
  | cons x xs ih =>
    by_cases h : x = c
    · simp [strchr, h]
    · simp [strchr, h, ih, Ne.symm h]

theorem strchr_append_of_not_mem (pre post : CStr) (c : Char) (h : c ∉ pre) :
    strchr (pre ++ c :: post) c = some pre.length := by
  induction pre with
  | nil => simp [strchr]
  | cons x xs ih =>
    have hx : x ≠ c := fun e => h (by simp [e])
    have hxs : c ∉ xs := fun e => h (by simp [e])
    simp [strchr, hx, ih hxs]

theorem strchr_eq_some (l : CStr) (c : Char) (i : Nat) (h : strchr l c = some i) :
    ∃ pre post, l = pre ++ c :: post ∧ c ∉ pre ∧ pre.length = i := by
  induction l generalizing i with
  | nil => simp [strchr] at h
  | cons x xs ih =>
    by_cases hx : x = c
    · simp [strchr, hx] at h
      exact ⟨[], xs, by simp [hx], by simp, by simp [h]⟩
    · simp only [strchr, hx, if_false, Option.map_eq_some'] at h
      obtain ⟨j, hj, rfl⟩ := h
      obtain ⟨pre, post, rfl, hn, rfl⟩ := ih j hj
      exact ⟨x :: pre, post, by simp, by simp [Ne.symm hx, hn], by simp⟩

theorem strstr_append (pre needle post : CStr)
    (h : ∀ pre1 post1, pre ++ needle ++ post = pre1 ++ needle ++ post1 →
      pre.length ≤ pre1.length) :
    strstr (pre ++ needle ++ post) needle = some pre.length := by
  induction pre with
  | nil =>
    cases needle with
    | nil => cases post <;> simp [strstr]
    | cons a as =>
      simp only [List.nil_append, List.cons_append, strstr, List.length_nil]
      rw [if_pos]
      exact (isPrefixOf_iff_append _ _).2 ⟨post, by simp⟩
  | cons x xs ih =>
    have hnot : needle.isPrefixOf (x :: (xs ++ needle ++ post)) = false := by
      cases hp : needle.isPrefixOf (x :: (xs ++ needle ++ post))
      · rfl
      · obtain ⟨post1, hp1⟩ := (isPrefixOf_iff_append _ _).1 hp
        have := h [] post1 (by simpa using hp1)
        simp at this
    have ih' := ih (fun pre1 post1 e => by
      have := h (x :: pre1) post1 (by simp [e])
      simpa using this)
    show strstr (x :: (xs ++ needle ++ post)) needle = some (xs.length + 1)
    rw [strstr, hnot, ih']
    rfl

theorem strstr_eq_some (hay needle : CStr) (i : Nat) (h : strstr hay needle = some i) :
    ∃ pre post, hay = pre ++ needle ++ post ∧ pre.length = i ∧
      ∀ pre1 post1, hay = pre1 ++ needle ++ post1 → pre.length ≤ pre1.length := by
  induction hay generalizing i with
  | nil =>
    simp only [strstr] at h
    split at h
    · rename_i hn
      simp only [List.isEmpty_iff] at hn
      subst hn
      simp only [Option.some.injEq] at h
      exact ⟨[], [], by simp, by simp [h], by simp⟩
    · cases h
  | cons x xs ih =>
    simp only [strstr] at h
    split at h
    · rename_i hp
      obtain ⟨post, hpost⟩ := (isPrefixOf_iff_append _ _).1 hp
      simp only [Option.some.injEq] at h
      exact ⟨[], post, by simpa using hpost, by simp [h], by simp⟩
    · rename_i hp
      simp only [Option.map_eq_some'] at h
      obtain ⟨j, hj, rfl⟩ := h
      obtain ⟨pre, post, hxs, rfl, hmin⟩ := ih j hj
      refine ⟨x :: pre, post, by simp [hxs], by simp, ?_⟩
      intro pre1 post1 e
      cases pre1 with
      | nil =>
        exact absurd ((isPrefixOf_iff_append _ _).2 ⟨post1, by simpa using e⟩) hp
      | cons y ys =>
        simp only [List.cons_append, List.cons.injEq] at e
        have := hmin ys post1 e.2
        simpa using this

theorem strstr_eq_none (hay needle : CStr) (h : strstr hay needle = none) :
    ¬ ∃ pre post, hay = pre ++ needle ++ post := by
  induction hay with
  | nil =>
    simp only [strstr] at h
    split at h
    · cases h
    · rename_i hn
      rintro ⟨pre, post, e⟩
      have : needle = [] := by
        have := congrArg List.length e
        simp at this
        exact List.length_eq_zero.1 (by omega)
      simp [this] at hn
  | cons x xs ih =>
    simp only [strstr] at h
    split at h
    · cases h
    · rename_i hp
      simp only [Option.map_eq_none'] at h
      rintro ⟨pre, post, e⟩
      cases pre with
      | nil => exact hp ((isPrefixOf_iff_append _ _).2 ⟨post, by simpa using e⟩)
      | cons y ys =>
        simp only [List.cons_append, List.cons.injEq] at e
        exact ih h ⟨ys, post, e.2⟩

theorem strstr_isSome_iff (hay needle : CStr) :
    (strstr hay needle).isSome = true ↔ ∃ pre post, hay = pre ++ needle ++ post := by
  constructor
  · intro h
    obtain ⟨i, hi⟩ := Option.isSome_iff_exists.1 h
    obtain ⟨pre, post, e, _, _⟩ := strstr_eq_some hay needle i hi
    exact ⟨pre, post, e⟩
  · intro h
    cases hs : strstr hay needle with
    | none => exact absurd h (strstr_eq_none hay needle hs)
    | some i => rfl

theorem strstr_singleton_isSome (t : CStr) (c : Char) :
    (strstr t [c]).isSome = true ↔ c ∈ t := by
  rw [strstr_isSome_iff]
  constructor
  · rintro ⟨pre, post, rfl⟩; simp
  · intro h
    obtain ⟨pre, post, rfl⟩ := List.append_of_mem h
    exact ⟨pre, post, by simp⟩

theorem dropWhile_isspace_append (ws rest : CStr) (h : ∀ c ∈ ws, isspace c = true) :
    (ws ++ '(' :: rest).dropWhile isspace = '(' :: rest := by
  induction ws with
  | nil => simp [List.dropWhile, isspace]
  | cons w ws ih =>
    have hw : isspace w = true := h w (by simp)
    simp only [List.cons_append, List.dropWhile, hw]
    exact ih (fun c hc => h c (by simp [hc]))

theorem mem_of_mem_trim (c : Char) (line : CStr) (h : c ∈ trim line) : c ∈ line :=
  (List.dropWhile_sublist isspace).subset h

theorem mem_trim_of_mem (c : Char) (line : CStr) (hc : isspace c = false) (h : c ∈ line) :
    c ∈ trim line := by
  induction line with
  | nil => simp at h
  | cons x xs ih =>
    by_cases hx : isspace x = true
    · have h1 : trim (x :: xs) = trim xs := by simp [trim, List.dropWhile, hx]
      rw [h1]
      rcases List.mem_cons.1 h with e | e
      · subst e; simp [hc] at hx
      · exact ih e
    · have h1 : trim (x :: xs) = x :: xs := by simp [trim, List.dropWhile, hx]
      rw [h1]; exact h

theorem strstr_trim (line needle : CStr) (a : Char) (as : CStr) (hn : needle = a :: as)
    (ha : isspace a = false) :
    (strstr (trim line) needle).isSome = (strstr line needle).isSome := by
  induction line with
  | nil => rfl
  | cons x xs ih =>
    by_cases hx : isspace x = true
    · have h1 : trim (x :: xs) = trim xs := by simp [trim, List.dropWhile, hx]
      have h2 : needle.isPrefixOf (x :: xs) = false := by
        subst hn
        have : (a == x) = false := by
          simp only [beq_eq_false_iff_ne, ne_eq]
          rintro rfl
          simp [ha] at hx
        simp [List.isPrefixOf, this]
      rw [h1, ih]
      simp only [strstr, h2]
      cases strstr xs needle <;> simp
    · have h1 : trim (x :: xs) = x :: xs := by simp [trim, List.dropWhile, hx]
      rw [h1]

/-! ## The line classifier -/

theorem is_function_start_iff (line : CStr) :
    is_function_start line = true ↔
      ∃ pre post, line = pre ++ '(' :: post ∧ '(' ∉ pre ∧ ∃ c ∈ pre, isspace c = true := by
  constructor
  · intro h
    unfold is_function_start at h
    split at h
    · cases h
    · rename_i i hi
      obtain ⟨pre, post, rfl, hn, rfl⟩ := strchr_eq_some _ _ _ hi
      simp only [List.take_left', List.any_eq_true] at h
      exact ⟨pre, post, rfl, hn, h⟩
  · rintro ⟨pre, post, rfl, hn, hc⟩
    unfold is_function_start
    rw [strchr_append_of_not_mem pre post '(' hn]
    simpa using hc

theorem is_function_start_of_no_paren (t : CStr) (h : '(' ∉ t) :
    is_function_start t = false := by
  cases hc : is_function_start t
  · rfl
  · obtain ⟨pre, post, e, _, _⟩ := (is_function_start_iff t).1 hc
    exact absurd (by rw [e]; simp) h

theorem is_recursive_call_iff (line func_name : CStr) :
    is_recursive_call line func_name = true ↔
      func_name ≠ [] ∧
      (∃ pre ws post, line = pre ++ func_name ++ ws ++ '(' :: post ∧
        (∀ c ∈ ws, isspace c = true) ∧
        ∀ pre1 post1, line = pre1 ++ func_name ++ post1 → pre.length ≤ pre1.length) ∧
      LBRACE ∉ line := by
  constructor
  · intro h
    unfold is_recursive_call at h
    split at h
    · cases h
    rename_i hlen
    split at h
    · cases h
    rename_i hb
    split at h
    · cases h
    rename_i i hi
    have hne : func_name ≠ [] := fun e => hlen (by simp [e])
    have hbr : LBRACE ∉ line := by
      rw [hi] at hb
      cases hc : strchr line LBRACE with
      | none => exact (strchr_eq_none_iff _ _).1 hc
      | some j => simp [hc] at hb
    obtain ⟨pre, post0, rfl, rfl, hmin⟩ := strstr_eq_some _ _ _ hi
    refine ⟨hne, ⟨pre, post0.takeWhile isspace, (post0.dropWhile isspace).tail, ?_, ?_, ?_⟩, hbr⟩
    · have hd : (pre ++ func_name ++ post0).drop (pre.length + func_name.length) = post0 := by
        rw [← List.length_append]; exact List.drop_left' rfl
      simp only [hd] at h
      have hh : post0.dropWhile isspace = '(' :: (post0.dropWhile isspace).tail := by
        cases hdw : post0.dropWhile isspace with
        | nil => simp [hdw] at h
        | cons a as =>
          simp only [hdw, List.head?_cons, beq_iff_eq, Option.some.injEq] at h
          simp [h]
      rw [List.append_assoc (pre ++ func_name), ← hh, List.takeWhile_append_dropWhile]
    · intro c hc
      exact (List.mem_takeWhile_imp hc)
    · intro pre1 post1 e
      exact hmin pre1 post1 e
  · rintro ⟨hne, ⟨pre, ws, post, rfl, hws, hmin⟩, hbr⟩
    have hs : strstr (pre ++ func_name ++ ws ++ '(' :: post) func_name = some pre.length := by
      have := strstr_append pre func_name (ws ++ '(' :: post) (fun pre1 post1 e =>
        hmin pre1 post1 (by simpa [List.append_assoc] using e))
      simpa [List.append_assoc] using this
    have hc : strchr (pre ++ func_name ++ ws ++ '(' :: post) LBRACE = none :=
      (strchr_eq_none_iff _ _).2 hbr
    have hlen : ¬ func_name.length = 0 := fun e => hne (List.length_eq_zero.1 e)
    unfold is_recursive_call
    rw [if_neg hlen, hs, hc]
    have hd : (pre ++ func_name ++ ws ++ '(' :: post).drop (pre.length + func_name.length)
        = ws ++ '(' :: post := by
      rw [← List.length_append, List.append_assoc (pre ++ func_name)]
      exact List.drop_left' rfl
    simp only [hd, dropWhile_isspace_append ws post hws]
    simp

theorem is_recursive_call_of_brace (t func_name : CStr) (h : LBRACE ∈ t) :
    is_recursive_call t func_name = false := by
  cases hc : is_recursive_call t func_name
  · rfl
  · exact absurd h ((is_recursive_call_iff t func_name).1 hc).2.2

theorem is_recursive_call_of_no_paren (t func_name : CStr) (h : '(' ∉ t) :
    is_recursive_call t func_name = false := by
  cases hc : is_recursive_call t func_name
  · rfl
  · obtain ⟨_, ⟨pre, ws, post, e, _, _⟩, _⟩ := (is_recursive_call_iff t func_name).1 hc
    exact absurd (by rw [e]; simp) h

theorem is_array_declaration_iff (line : CStr) :
    is_array_declaration line = true ↔
      ∃ pre mid post, line = pre ++ '[' :: mid ++ ']' :: post ∧ '[' ∉ pre ∧ ']' ∉ mid ∧
        ∃ c ∈ mid, isspace c = false := by
  constructor
  · intro h
    unfold is_array_declaration at h
    split at h
    · cases h
    rename_i i hi
    split at h
    · cases h
    rename_i j hj
    obtain ⟨pre, rest, rfl, hn, rfl⟩ := strchr_eq_some _ _ _ hi
    have hd : (pre ++ '[' :: rest).drop pre.length = '[' :: rest := List.drop_left' rfl
    rw [hd] at hj h
    obtain ⟨pre2, post, e2, hn2, rfl⟩ := strchr_eq_some _ _ _ hj
    cases pre2 with
    | nil => simp at e2
    | cons a mid =>
      simp only [List.cons_append, List.cons.injEq] at e2
      obtain ⟨rfl, rfl⟩ := e2
      refine ⟨pre, mid, post, by simp, hn, fun hm => hn2 (by simp [hm]), ?_⟩
      have : (('[' :: (mid ++ ']' :: post)).take (('[' :: mid).length)).drop 1 = mid := by
        simp
      rw [this] at h
      simpa using h
  · rintro ⟨pre, mid, post, rfl, hn, hn2, hc⟩
    unfold is_array_declaration
    have h1 : strchr (pre ++ '[' :: mid ++ ']' :: post) '[' = some pre.length := by
      have := strchr_append_of_not_mem pre (mid ++ ']' :: post) '[' hn
      simpa using this
    have hd : (pre ++ '[' :: mid ++ ']' :: post).drop pre.length = '[' :: (mid ++ ']' :: post) := by
      have : pre ++ '[' :: mid ++ ']' :: post = pre ++ ('[' :: (mid ++ ']' :: post)) := by simp
      rw [this]; exact List.drop_left' rfl
    have h2 : strchr ('[' :: (mid ++ ']' :: post)) ']' = some (mid.length + 1) := by
      have := strchr_append_of_not_mem ('[' :: mid) post ']'
        (by simp only [List.mem_cons, not_or]; exact ⟨by decide, hn2⟩)
      simpa using this
    rw [h1]
    simp only [hd, h2]
    simpa using hc

theorem is_malloc_call_trim (line : CStr) : is_malloc_call (trim line) = is_malloc_call line := by
  unfold is_malloc_call
  rw [strstr_trim line ("malloc(".toList) 'm' "alloc(".toList rfl (by decide),
    strstr_trim line ("malloc (".toList) 'm' "alloc (".toList rfl (by decide)]

theorem is_loop_start_trim (line : CStr) : is_loop_start (trim line) = is_loop_start line := by
  unfold is_loop_start
  rw [strstr_trim line ("for(".toList) 'f' "or(".toList rfl (by decide),
    strstr_trim line ("for (".toList) 'f' "or (".toList rfl (by decide),
    strstr_trim line ("while(".toList) 'w' "hile(".toList rfl (by decide),
    strstr_trim line ("while (".toList) 'w' "hile (".toList rfl (by decide),
    strstr_trim line ['d', 'o', LBRACE] 'd' ['o', LBRACE] rfl (by decide),
    strstr_trim line ['d', 'o', ' ', LBRACE] 'd' ['o', ' ', LBRACE] rfl (by decide)]

theorem is_malloc_call_iff (line : CStr) :
    is_malloc_call line = true ↔
      Contains line "malloc(".toList ∨ Contains line "malloc (".toList := by
  simp only [is_malloc_call, Bool.or_eq_true, strstr_isSome_iff, Contains]

theorem is_skipped_iff (t : CStr) :
    is_skipped t = true ↔ t = [] ∨ ∃ rest, t = '/' :: '/' :: rest := by
  unfold is_skipped
  simp only [Bool.or_eq_true, decide_eq_true_eq, List.length_eq_zero, beq_iff_eq]
  constructor
  · rintro (h | h)
    · exact Or.inl h
    · obtain ⟨pre, post, e, hl, _⟩ := strstr_eq_some _ _ _ h
      have : pre = [] := List.length_eq_zero.1 hl
      subst this
      exact Or.inr ⟨post, by simpa using e⟩
  · rintro (h | ⟨rest, rfl⟩)
    · exact Or.inl h
    · right
      simp [strstr, List.isPrefixOf]

/-! ## Brace counting -/

theorem count_braces_add (b : Int) (t : CStr) : count_braces b t = b + count_braces 0 t := by
  induction t generalizing b with
  | nil => simp [count_braces]
  | cons c cs ih =>
    simp only [count_braces]
    rw [ih, ih (if c = RBRACE then (if c = LBRACE then 0 + 1 else 0) - 1
      else if c = LBRACE then 0 + 1 else 0)]
    split_ifs <;> ring

theorem count_braces_ge (b : Int) (t : CStr) (h : RBRACE ∉ t) : b ≤ count_braces b t := by
  induction t generalizing b with
  | nil => simp [count_braces]
  | cons c cs ih =>
    have hc : c ≠ RBRACE := fun e => h (by simp [e])
    have hcs : RBRACE ∉ cs := fun e => h (by simp [e])
    simp only [count_braces, hc, if_false]
    have := ih (if c = LBRACE then b + 1 else b) hcs
    by_cases hl : c = LBRACE
    · simp only [hl, if_true] at this ⊢; omega
    · simp only [hl, if_false] at this ⊢; omega

theorem count_braces_eq_of_no_brace (b : Int) (t : CStr) (h1 : LBRACE ∉ t) (h2 : RBRACE ∉ t) :
    count_braces b t = b := by
  induction t generalizing b with
  | nil => simp [count_braces]
  | cons c cs ih =>
    have hc1 : c ≠ LBRACE := fun e => h1 (by simp [e])
    have hc2 : c ≠ RBRACE := fun e => h2 (by simp [e])
    simp only [count_braces, hc1, hc2, if_false]
    exact ih b (fun e => h1 (by simp [e])) (fun e => h2 (by simp [e]))

theorem count_braces_gt (b : Int) (t : CStr) (h1 : LBRACE ∈ t) (h2 : RBRACE ∉ t) :
    b < count_braces b t := by
  induction t generalizing b with
  | nil => simp at h1
  | cons c cs ih =>
    have hc : c ≠ RBRACE := fun e => h2 (by simp [e])
    have hcs : RBRACE ∉ cs := fun e => h2 (by simp [e])
    simp only [count_braces, hc, if_false]
    by_cases hl : c = LBRACE
    · simp only [hl, if_true]
      have := count_braces_ge (b + 1) cs hcs
      omega
    · simp only [hl, if_false]
      have hm : LBRACE ∈ cs := by
        rcases List.mem_cons.1 h1 with e | e
        · exact absurd e.symm hl
        · exact e
      exact ih b hm hcs

/-! ## What each step of `process_line` leaves unchanged -/

@[simp] theorem array_step_current_function (s : ScanState) (t : CStr) :
    (array_step s t).current_function = s.current_function := by
  unfold array_step
  split <;> rfl

@[simp] theorem array_step_in_function (s : ScanState) (t : CStr) :
    (array_step s t).in_function = s.in_function := by
  unfold array_step
  split <;> rfl

@[simp] theorem array_step_brace_count (s : ScanState) (t : CStr) :
    (array_step s t).brace_count = s.brace_count := by
  unfold array_step
  split <;> rfl

@[simp] theorem array_step_loop_stack_depth (s : ScanState) (t : CStr) :
    (array_step s t).loop_stack_depth = s.loop_stack_depth := by
  unfold array_step
  split <;> rfl

@[simp] theorem array_step_total_loops (s : ScanState) (t : CStr) :
    (array_step s t).analysis.total_loops = s.analysis.total_loops := by
  unfold array_step
  split <;> rfl

@[simp] theorem array_step_max_nested_loops (s : ScanState) (t : CStr) :
    (array_step s t).analysis.max_nested_loops = s.analysis.max_nested_loops := by
  unfold array_step
  split <;> rfl

@[simp] theorem array_step_recursive_functions (s : ScanState) (t : CStr) :
    (array_step s t).analysis.recursive_functions = s.analysis.recursive_functions := by
  unfold array_step
  split <;> rfl

@[simp] theorem array_step_total_functions (s : ScanState) (t : CStr) :
    (array_step s t).analysis.total_functions = s.analysis.total_functions := by
  unfold array_step
  split <;> rfl

@[simp] theorem array_step_malloc_calls (s : ScanState) (t : CStr) :
    (array_step s t).analysis.malloc_calls = s.analysis.malloc_calls := by
  unfold array_step
  split <;> rfl

@[simp] theorem array_step_functions (s : ScanState) (t : CStr) :
    (array_step s t).analysis.functions = s.analysis.functions := by
  unfold array_step
  split <;> rfl

@[simp] theorem malloc_step_current_function (s : ScanState) (t : CStr) :
    (malloc_step s t).current_function = s.current_function := by
  unfold malloc_step
  split <;> rfl

@[simp] theorem malloc_step_in_function (s : ScanState) (t : CStr) :
    (malloc_step s t).in_function = s.in_function := by
  unfold malloc_step
  split <;> rfl

@[simp] theorem malloc_step_brace_count (s : ScanState) (t : CStr) :
    (malloc_step s t).brace_count = s.brace_count := by
  unfold malloc_step
  split <;> rfl

@[simp] theorem malloc_step_loop_stack_depth (s : ScanState) (t : CStr) :
    (malloc_step s t).loop_stack_depth = s.loop_stack_depth := by
  unfold malloc_step
  split <;> rfl

@[simp] theorem malloc_step_total_loops (s : ScanState) (t : CStr) :
    (malloc_step s t).analysis.total_loops = s.analysis.total_loops := by
  unfold malloc_step
  split <;> rfl

@[simp] theorem malloc_step_max_nested_loops (s : ScanState) (t : CStr) :
    (malloc_step s t).analysis.max_nested_loops = s.analysis.max_nested_loops := by
  unfold malloc_step
  split <;> rfl

@[simp] theorem malloc_step_recursive_functions (s : ScanState) (t : CStr) :
    (malloc_step s t).analysis.recursive_functions = s.analysis.recursive_functions := by
  unfold malloc_step
  split <;> rfl

@[simp] theorem malloc_step_total_functions (s : ScanState) (t : CStr) :
    (malloc_step s t).analysis.total_functions = s.analysis.total_functions := by
  unfold malloc_step
  split <;> rfl

@[simp] theorem malloc_step_array_declarations (s : ScanState) (t : CStr) :
    (malloc_step s t).analysis.array_declarations = s.analysis.array_declarations := by
  unfold malloc_step
  split <;> rfl

@[simp] theorem malloc_step_functions (s : ScanState) (t : CStr) :
    (malloc_step s t).analysis.functions = s.analysis.functions := by
  unfold malloc_step
  split <;> rfl

@[simp] theorem loop_end_step_current_function (s : ScanState) (t : CStr) :
    (loop_end_step s t).current_function = s.current_function := by
  unfold loop_end_step
  split <;> rfl

@[simp] theorem loop_end_step_in_function (s : ScanState) (t : CStr) :
    (loop_end_step s t).in_function = s.in_function := by
  unfold loop_end_step
  split <;> rfl

@[simp] theorem loop_end_step_brace_count (s : ScanState) (t : CStr) :
    (loop_end_step s t).brace_count = s.brace_count := by
  unfold loop_end_step
  split <;> rfl

@[simp] theorem loop_end_step_analysis (s : ScanState) (t : CStr) :
    (loop_end_step s t).analysis = s.analysis := by
  unfold loop_end_step
  split <;> rfl

@[simp] theorem brace_step_analysis (s : ScanState) (t : CStr) :
    (brace_step s t).analysis = s.analysis := by
  unfold brace_step
  by_cases h1 : s.in_function = true
  · by_cases h2 : count_braces s.brace_count t = 0 <;> simp [h1, h2]
  · simp [h1]

@[simp] theorem function_start_step_brace_count (s : ScanState) (t : CStr) :
    (function_start_step s t).brace_count = s.brace_count := by
  unfold function_start_step
  split <;> rfl

@[simp] theorem function_start_step_loop_stack_depth (s : ScanState) (t : CStr) :
    (function_start_step s t).loop_stack_depth = s.loop_stack_depth := by
  unfold function_start_step
  split <;> rfl

@[simp] theorem function_start_step_total_loops (s : ScanState) (t : CStr) :
    (function_start_step s t).analysis.total_loops = s.analysis.total_loops := by
  unfold function_start_step
  split <;> rfl

@[simp] theorem function_start_step_max_nested_loops (s : ScanState) (t : CStr) :
    (function_start_step s t).analysis.max_nested_loops = s.analysis.max_nested_loops := by
  unfold function_start_step
  split <;> rfl

@[simp] theorem function_start_step_recursive_functions (s : ScanState) (t : CStr) :
    (function_start_step s t).analysis.recursive_functions = s.analysis.recursive_functions := by
  unfold function_start_step
  split <;> rfl

@[simp] theorem function_start_step_malloc_calls (s : ScanState) (t : CStr) :
    (function_start_step s t).analysis.malloc_calls = s.analysis.malloc_calls := by
  unfold function_start_step
  split <;> rfl

@[simp] theorem function_start_step_array_declarations (s : ScanState) (t : CStr) :
    (function_start_step s t).analysis.array_declarations = s.analysis.array_declarations := by
  unfold function_start_step
  split <;> rfl

@[simp] theorem recursion_step_current_function (s : ScanState) (t : CStr) :
    (recursion_step s t).current_function = s.current_function := by
  unfold recursion_step
  by_cases h1 : (s.in_function && is_recursive_call t s.current_function) = true
  · by_cases h2 : (s.analysis.functions (s.analysis.total_functions - 1)).is_recursive = true <;>
      simp [h1, h2, set_function]
  · simp [h1]

@[simp] theorem recursion_step_in_function (s : ScanState) (t : CStr) :
    (recursion_step s t).in_function = s.in_function := by
  unfold recursion_step
  by_cases h1 : (s.in_function && is_recursive_call t s.current_function) = true
  · by_cases h2 : (s.analysis.functions (s.analysis.total_functions - 1)).is_recursive = true <;>
      simp [h1, h2, set_function]
  · simp [h1]

@[simp] theorem recursion_step_brace_count (s : ScanState) (t : CStr) :
    (recursion_step s t).brace_count = s.brace_count := by
  unfold recursion_step
  by_cases h1 : (s.in_function && is_recursive_call t s.current_function) = true
  · by_cases h2 : (s.analysis.functions (s.analysis.total_functions - 1)).is_recursive = true <;>
      simp [h1, h2, set_function]
  · simp [h1]

@[simp] theorem recursion_step_loop_stack_depth (s : ScanState) (t : CStr) :
    (recursion_step s t).loop_stack_depth = s.loop_stack_depth := by
  unfold recursion_step
  by_cases h1 : (s.in_function && is_recursive_call t s.current_function) = true
  · by_cases h2 : (s.analysis.functions (s.analysis.total_functions - 1)).is_recursive = true <;>
      simp [h1, h2, set_function]
  · simp [h1]

@[simp] theorem recursion_step_total_loops (s : ScanState) (t : CStr) :
    (recursion_step s t).analysis.total_loops = s.analysis.total_loops := by
  unfold recursion_step
  by_cases h1 : (s.in_function && is_recursive_call t s.current_function) = true
  · by_cases h2 : (s.analysis.functions (s.analysis.total_functions - 1)).is_recursive = true <;>
      simp [h1, h2, set_function]
  · simp [h1]

@[simp] theorem recursion_step_max_nested_loops (s : ScanState) (t : CStr) :
    (recursion_step s t).analysis.max_nested_loops = s.analysis.max_nested_loops := by
  unfold recursion_step
  by_cases h1 : (s.in_function && is_recursive_call t s.current_function) = true
  · by_cases h2 : (s.analysis.functions (s.analysis.total_functions - 1)).is_recursive = true <;>
      simp [h1, h2, set_function]
  · simp [h1]

@[simp] theorem recursion_step_total_functions (s : ScanState) (t : CStr) :
    (recursion_step s t).analysis.total_functions = s.analysis.total_functions := by
  unfold recursion_step
  by_cases h1 : (s.in_function && is_recursive_call t s.current_function) = true
  · by_cases h2 : (s.analysis.functions (s.analysis.total_functions - 1)).is_recursive = true <;>
      simp [h1, h2, set_function]
  · simp [h1]

@[simp] theorem recursion_step_malloc_calls (s : ScanState) (t : CStr) :
    (recursion_step s t).analysis.malloc_calls = s.analysis.malloc_calls := by
  unfold recursion_step
  by_cases h1 : (s.in_function && is_recursive_call t s.current_function) = true
  · by_cases h2 : (s.analysis.functions (s.analysis.total_functions - 1)).is_recursive = true <;>
      simp [h1, h2, set_function]
  · simp [h1]

@[simp] theorem recursion_step_array_declarations (s : ScanState) (t : CStr) :
    (recursion_step s t).analysis.array_declarations = s.analysis.array_declarations := by
  unfold recursion_step
  by_cases h1 : (s.in_function && is_recursive_call t s.current_function) = true
  · by_cases h2 : (s.analysis.functions (s.analysis.total_functions - 1)).is_recursive = true <;>
      simp [h1, h2, set_function]
  · simp [h1]

@[simp] theorem loop_step_current_function (s : ScanState) (t : CStr) :
    (loop_step s t).current_function = s.current_function := by
  unfold loop_step
  by_cases h1 : (s.in_function && is_loop_start t) = true
  · by_cases h2 : s.loop_stack_depth + 1 > s.analysis.max_nested_loops <;>
    by_cases h3 : s.loop_stack_depth + 1 >
        (s.analysis.functions (s.analysis.total_functions - 1)).loop_depth <;>
      simp [h1, h2, h3, set_function]
  · simp [h1]

@[simp] theorem loop_step_in_function (s : ScanState) (t : CStr) :
    (loop_step s t).in_function = s.in_function := by
  unfold loop_step
  by_cases h1 : (s.in_function && is_loop_start t) = true
  · by_cases h2 : s.loop_stack_depth + 1 > s.analysis.max_nested_loops <;>
    by_cases h3 : s.loop_stack_depth + 1 >
        (s.analysis.functions (s.analysis.total_functions - 1)).loop_depth <;>
      simp [h1, h2, h3, set_function]
  · simp [h1]

@[simp] theorem loop_step_brace_count (s : ScanState) (t : CStr) :
    (loop_step s t).brace_count = s.brace_count := by
  unfold loop_step
  by_cases h1 : (s.in_function && is_loop_start t) = true
  · by_cases h2 : s.loop_stack_depth + 1 > s.analysis.max_nested_loops <;>
    by_cases h3 : s.loop_stack_depth + 1 >
        (s.analysis.functions (s.analysis.total_functions - 1)).loop_depth <;>
      simp [h1, h2, h3, set_function]
  · simp [h1]

@[simp] theorem loop_step_recursive_functions (s : ScanState) (t : CStr) :
    (loop_step s t).analysis.recursive_functions = s.analysis.recursive_functions := by
  unfold loop_step
  by_cases h1 : (s.in_function && is_loop_start t) = true
  · by_cases h2 : s.loop_stack_depth + 1 > s.analysis.max_nested_loops <;>
    by_cases h3 : s.loop_stack_depth + 1 >
        (s.analysis.functions (s.analysis.total_functions - 1)).loop_depth <;>
      simp [h1, h2, h3, set_function]
  · simp [h1]

@[simp] theorem loop_step_total_functions (s : ScanState) (t : CStr) :
    (loop_step s t).analysis.total_functions = s.analysis.total_functions := by
  unfold loop_step
  by_cases h1 : (s.in_function && is_loop_start t) = true
  · by_cases h2 : s.loop_stack_depth + 1 > s.analysis.max_nested_loops <;>
    by_cases h3 : s.loop_stack_depth + 1 >
        (s.analysis.functions (s.analysis.total_functions - 1)).loop_depth <;>
      simp [h1, h2, h3, set_function]
  · simp [h1]

@[simp] theorem loop_step_malloc_calls (s : ScanState) (t : CStr) :
    (loop_step s t).analysis.malloc_calls = s.analysis.malloc_calls := by
  unfold loop_step
  by_cases h1 : (s.in_function && is_loop_start t) = true
  · by_cases h2 : s.loop_stack_depth + 1 > s.analysis.max_nested_loops <;>
    by_cases h3 : s.loop_stack_depth + 1 >
        (s.analysis.functions (s.analysis.total_functions - 1)).loop_depth <;>
      simp [h1, h2, h3, set_function]
  · simp [h1]

@[simp] theorem loop_step_array_declarations (s : ScanState) (t : CStr) :
    (loop_step s t).analysis.array_declarations = s.analysis.array_declarations := by
  unfold loop_step
  by_cases h1 : (s.in_function && is_loop_start t) = true
  · by_cases h2 : s.loop_stack_depth + 1 > s.analysis.max_nested_loops <;>
    by_cases h3 : s.loop_stack_depth + 1 >
        (s.analysis.functions (s.analysis.total_functions - 1)).loop_depth <;>
      simp [h1, h2, h3, set_function]
  · simp [h1]

/-! ## The effect of each step -/

theorem function_start_step_of_inside (s : ScanState) (t : CStr) (h : s.in_function = true) :
    function_start_step s t = s := by
  simp [function_start_step, h]

theorem function_start_step_of_not_start (s : ScanState) (t : CStr)
    (h : is_function_start t = false) : function_start_step s t = s := by
  simp [function_start_step, h]

theorem function_start_step_of_start (s : ScanState) (t : CStr) (h1 : s.in_function = false)
    (h2 : is_function_start t = true) :
    (function_start_step s t).in_function = true ∧
    (function_start_step s t).current_function = scan_name t s.current_function ∧
    (function_start_step s t).analysis.total_functions = s.analysis.total_functions + 1 ∧
    (function_start_step s t).analysis.functions s.analysis.total_functions =
      { name := scan_name t s.current_function, is_recursive := false, loop_depth := 0,
        has_recursion := false } := by
  simp [function_start_step, h1, h2, set_function]

theorem function_start_step_total_functions_le (s : ScanState) (t : CStr) :
    s.analysis.total_functions ≤ (function_start_step s t).analysis.total_functions := by
  unfold function_start_step
  split
  · simp [set_function]
  · simp

theorem function_start_step_functions_of_ne (s : ScanState) (t : CStr) (i : Int)
    (h : i ≠ s.analysis.total_functions) :
    (function_start_step s t).analysis.functions i = s.analysis.functions i := by
  unfold function_start_step
  split
  · simp [set_function, h]
  · simp

theorem brace_step_of_outside (s : ScanState) (t : CStr) (h : s.in_function = false) :
    brace_step s t = s := by
  simp [brace_step, h]

theorem brace_step_of_open (s : ScanState) (t : CStr) (h1 : s.in_function = true)
    (h2 : count_braces s.brace_count t ≠ 0) :
    brace_step s t = { s with brace_count := count_braces s.brace_count t } := by
  simp [brace_step, h1, h2]

theorem brace_step_of_close (s : ScanState) (t : CStr) (h1 : s.in_function = true)
    (h2 : count_braces s.brace_count t = 0) :
    brace_step s t = { s with brace_count := 0, in_function := false, current_function := [],
                              loop_stack_depth := 0 } := by
  simp [brace_step, h1, h2]

theorem loop_step_of_not (s : ScanState) (t : CStr)
    (h : (s.in_function && is_loop_start t) = false) : loop_step s t = s := by
  simp [loop_step, h]

theorem loop_step_of_loop (s : ScanState) (t : CStr)
    (h : (s.in_function && is_loop_start t) = true) :
    (loop_step s t).loop_stack_depth = s.loop_stack_depth + 1 ∧
    (loop_step s t).analysis.total_loops = s.analysis.total_loops + 1 ∧
    (loop_step s t).analysis.max_nested_loops =
      max s.analysis.max_nested_loops (s.loop_stack_depth + 1) ∧
    ((loop_step s t).analysis.functions (s.analysis.total_functions - 1)).loop_depth =
      max (s.analysis.functions (s.analysis.total_functions - 1)).loop_depth
        (s.loop_stack_depth + 1) ∧
    ∀ i, i ≠ s.analysis.total_functions - 1 →
      (loop_step s t).analysis.functions i = s.analysis.functions i := by
  unfold loop_step
  by_cases h2 : s.loop_stack_depth + 1 > s.analysis.max_nested_loops <;>
  by_cases h3 : s.loop_stack_depth + 1 >
      (s.analysis.functions (s.analysis.total_functions - 1)).loop_depth
  all_goals
    simp only [h, h2, h3, set_function, if_true, if_false]
    refine ⟨trivial, trivial, ?_, ?_, ?_⟩
  all_goals first
    | (intro i hi; simp [hi])
    | (simp; omega)

theorem loop_end_step_loop_stack_depth (s : ScanState) (t : CStr) :
    (loop_end_step s t).loop_stack_depth =
      if s.in_function = true ∧ RBRACE ∈ t ∧ s.loop_stack_depth > 0
      then s.loop_stack_depth - 1 else s.loop_stack_depth := by
  unfold loop_end_step
  by_cases h1 : s.in_function = true <;> by_cases h2 : RBRACE ∈ t <;>
    by_cases h3 : s.loop_stack_depth > 0 <;>
    simp [h1, h2, h3, (strstr_singleton_isSome t RBRACE)]

theorem recursion_step_of_not (s : ScanState) (t : CStr)
    (h : (s.in_function && is_recursive_call t s.current_function) = false) :
    recursion_step s t = s := by
  simp [recursion_step, h]

theorem recursion_step_of_call (s : ScanState) (t : CStr)
    (h : (s.in_function && is_recursive_call t s.current_function) = true) :
    ((recursion_step s t).analysis.functions (s.analysis.total_functions - 1)).has_recursion
      = true ∧
    ((recursion_step s t).analysis.functions (s.analysis.total_functions - 1)).is_recursive
      = true ∧
    (recursion_step s t).analysis.recursive_functions = s.analysis.recursive_functions +
      (if (s.analysis.functions (s.analysis.total_functions - 1)).is_recursive = true
        then 0 else 1) := by
  unfold recursion_step
  by_cases h2 : (s.analysis.functions (s.analysis.total_functions - 1)).is_recursive = true <;>
    simp [h, h2, set_function]

theorem recursion_step_functions (s : ScanState) (t : CStr) (i : Int) :
    ((recursion_step s t).analysis.functions i).name = (s.analysis.functions i).name ∧
    ((recursion_step s t).analysis.functions i).loop_depth =
      (s.analysis.functions i).loop_depth ∧
    (i ≠ s.analysis.total_functions - 1 →
      (recursion_step s t).analysis.functions i = s.analysis.functions i) := by
  unfold recursion_step
  by_cases h1 : (s.in_function && is_recursive_call t s.current_function) = true
  · by_cases h2 : (s.analysis.functions (s.analysis.total_functions - 1)).is_recursive = true <;>
    by_cases h3 : i = s.analysis.total_functions - 1 <;>
      simp [h1, h2, h3, set_function]
  · simp [h1]

theorem loop_step_functions (s : ScanState) (t : CStr) (i : Int) :
    ((loop_step s t).analysis.functions i).name = (s.analysis.functions i).name ∧
    ((loop_step s t).analysis.functions i).is_recursive =
      (s.analysis.functions i).is_recursive ∧
    ((loop_step s t).analysis.functions i).has_recursion =
      (s.analysis.functions i).has_recursion := by
  unfold loop_step
  by_cases h1 : (s.in_function && is_loop_start t) = true
  · by_cases h2 : s.loop_stack_depth + 1 > s.analysis.max_nested_loops <;>
    by_cases h3 : s.loop_stack_depth + 1 >
        (s.analysis.functions (s.analysis.total_functions - 1)).loop_depth <;>
    by_cases h4 : i = s.analysis.total_functions - 1 <;>
      simp [h1, h2, h3, h4, set_function]
  · simp [h1]

/-! ## One line -/

theorem process_line_of_skipped (s : ScanState) (line : CStr)
    (h : is_skipped (trim line) = true) : process_line s line = s := by
  simp [process_line, h]

theorem process_line_of_not_skipped (s : ScanState) (line : CStr)
    (h : is_skipped (trim line) = false) :
    process_line s line =
      array_step (malloc_step (recursion_step (loop_end_step (loop_step
        (brace_step (function_start_step s (trim line)) (trim line)) (trim line))
        (trim line)) (trim line)) (trim line)) (trim line) := by
  simp [process_line, h]

theorem process_line_malloc_calls (s : ScanState) (line : CStr)
    (h : is_skipped (trim line) = false) :
    (process_line s line).analysis.malloc_calls =
      s.analysis.malloc_calls + (if is_malloc_call line = true then 1 else 0) := by
  rw [process_line_of_not_skipped s line h]
  rw [← is_malloc_call_trim line]
  generalize trim line = t
  have hm : ∀ u : ScanState, (malloc_step u t).analysis.malloc_calls =
      u.analysis.malloc_calls + (if is_malloc_call t = true then 1 else 0) := by
    intro u
    unfold malloc_step
    split <;> simp
  simp only [array_step_malloc_calls, hm, recursion_step_malloc_calls, loop_end_step_analysis,
    loop_step_malloc_calls, brace_step_analysis, function_start_step_malloc_calls]

theorem process_line_total_loops (s : ScanState) (line : CStr)
    (h : is_skipped (trim line) = false) :
    (process_line s line).analysis.total_loops =
      s.analysis.total_loops +
        (if (in_function_at_loop_check s line && is_loop_start (trim line)) = true
          then 1 else 0) := by
  rw [process_line_of_not_skipped s line h]
  unfold in_function_at_loop_check
  generalize trim line = t
  have hl : ∀ u : ScanState, (loop_step u t).analysis.total_loops =
      u.analysis.total_loops + (if (u.in_function && is_loop_start t) = true then 1 else 0) := by
    intro u
    unfold loop_step
    by_cases h1 : (u.in_function && is_loop_start t) = true
    · by_cases h2 : u.loop_stack_depth + 1 > u.analysis.max_nested_loops <;>
      by_cases h3 : u.loop_stack_depth + 1 >
          (u.analysis.functions (u.analysis.total_functions - 1)).loop_depth <;>
      simp [h1, h2, h3, set_function]
    · simp [h1]
  simp only [array_step_total_loops, malloc_step_total_loops, recursion_step_total_loops,
    loop_end_step_analysis, hl, brace_step_analysis, function_start_step_total_loops]

theorem process_line_open (s : ScanState) (line : CStr)
    (hin : s.in_function = true) (hb : 1 ≤ s.brace_count) (hr : RBRACE ∉ line)
    (hsk : is_skipped (trim line) = false) :
    (process_line s line).in_function = true ∧
    1 ≤ (process_line s line).brace_count ∧
    (process_line s line).analysis.total_functions = s.analysis.total_functions ∧
    (process_line s line).current_function = s.current_function ∧
    (is_loop_start (trim line) = false →
      (process_line s line).loop_stack_depth = s.loop_stack_depth ∧
      (process_line s line).analysis.total_loops = s.analysis.total_loops ∧
      (process_line s line).analysis.max_nested_loops = s.analysis.max_nested_loops ∧
      ∀ i, ((process_line s line).analysis.functions i).loop_depth =
        (s.analysis.functions i).loop_depth) ∧
    (is_loop_start (trim line) = true →
      (process_line s line).loop_stack_depth = s.loop_stack_depth + 1 ∧
      (process_line s line).analysis.total_loops = s.analysis.total_loops + 1 ∧
      (process_line s line).analysis.max_nested_loops =
        max s.analysis.max_nested_loops (s.loop_stack_depth + 1) ∧
      ((process_line s line).analysis.functions (s.analysis.total_functions - 1)).loop_depth =
        max (s.analysis.functions (s.analysis.total_functions - 1)).loop_depth
          (s.loop_stack_depth + 1)) := by
  have hrt : RBRACE ∉ trim line := fun h => hr (mem_of_mem_trim _ _ h)
  rw [process_line_of_not_skipped s line hsk]
  generalize trim line = t at hrt
  have hcb : count_braces s.brace_count t ≠ 0 := by
    have := count_braces_ge s.brace_count t hrt
    omega
  rw [function_start_step_of_inside s t hin, brace_step_of_open s t hin hcb]
  refine ⟨by simp [hin], ?_, by simp, by simp, ?_, ?_⟩
  · have := count_braces_ge s.brace_count t hrt
    simp
    omega
  · intro hl
    rw [loop_step_of_not _ t (by simp [hl])]
    simp [loop_end_step_loop_stack_depth, hrt, (recursion_step_functions _ t _).2.1]
  · intro hl
    have h := loop_step_of_loop { s with brace_count := count_braces s.brace_count t } t
      (by simp [hin, hl])
    simp only [array_step_loop_stack_depth, malloc_step_loop_stack_depth,
      recursion_step_loop_stack_depth, loop_end_step_loop_stack_depth, hrt, false_and, and_false,
      if_false, array_step_total_loops, malloc_step_total_loops, recursion_step_total_loops,
      loop_end_step_analysis, array_step_max_nested_loops, malloc_step_max_nested_loops,
      recursion_step_max_nested_loops, array_step_functions, malloc_step_functions,
      (recursion_step_functions _ t _).2.1]
    exact ⟨h.1, h.2.1, h.2.2.1, h.2.2.2.1⟩

theorem process_line_no_loop (s : ScanState) (line : CStr)
    (h : is_skipped (trim line) = true ∨ is_loop_start (trim line) = false) :
    (process_line s line).analysis.total_loops = s.analysis.total_loops ∧
    (process_line s line).analysis.max_nested_loops = s.analysis.max_nested_loops ∧
    s.analysis.total_functions ≤ (process_line s line).analysis.total_functions ∧
    ∀ i, i < s.analysis.total_functions →
      ((process_line s line).analysis.functions i).loop_depth =
        (s.analysis.functions i).loop_depth := by
  by_cases hsk : is_skipped (trim line) = true
  · rw [process_line_of_skipped s line hsk]; simp
  · have hsk' : is_skipped (trim line) = false := by simpa using hsk
    have hl : is_loop_start (trim line) = false := by
      rcases h with h | h
      · exact absurd h hsk
      · exact h
    rw [process_line_of_not_skipped s line hsk']
    generalize trim line = t at hl
    rw [loop_step_of_not _ t (by simp [hl])]
    refine ⟨by simp, by simp, by simpa using function_start_step_total_functions_le s t, ?_⟩
    intro i hi
    simp only [array_step_functions, malloc_step_functions,
      (recursion_step_functions _ t _).2.1, loop_end_step_analysis, brace_step_analysis]
    rw [function_start_step_functions_of_ne s t i (by omega)]

theorem process_line_header (s : ScanState) (line : CStr)
    (hout : s.in_function = false) (hbc : s.brace_count = 0)
    (hsk : is_skipped (trim line) = false) (hfs : is_function_start (trim line) = true)
    (hl : LBRACE ∈ line) (hr : RBRACE ∉ line) :
    (process_line s line).in_function = true ∧
    (process_line s line).brace_count = count_braces 0 (trim line) ∧
    1 ≤ (process_line s line).brace_count ∧
    (process_line s line).analysis.total_functions = s.analysis.total_functions + 1 ∧
    (process_line s line).current_function = scan_name (trim line) s.current_function ∧
    (process_line s line).analysis.recursive_functions = s.analysis.recursive_functions ∧
    ((process_line s line).analysis.functions s.analysis.total_functions).name =
      scan_name (trim line) s.current_function ∧
    ((process_line s line).analysis.functions s.analysis.total_functions).is_recursive = false ∧
    ((process_line s line).analysis.functions s.analysis.total_functions).has_recursion = false ∧
    (is_loop_start (trim line) = false →
      (process_line s line).loop_stack_depth = s.loop_stack_depth ∧
      (process_line s line).analysis.total_loops = s.analysis.total_loops ∧
      (process_line s line).analysis.max_nested_loops = s.analysis.max_nested_loops ∧
      ((process_line s line).analysis.functions s.analysis.total_functions).loop_depth = 0) := by
  have hrt : RBRACE ∉ trim line := fun h => hr (mem_of_mem_trim _ _ h)
  have hlt : LBRACE ∈ trim line := mem_trim_of_mem _ _ (by decide) hl
  rw [process_line_of_not_skipped s line hsk]
  generalize trim line = t at hrt hlt hfs
  obtain ⟨f1, f2, f3, f4⟩ := function_start_step_of_start s t hout hfs
  have hcb : 0 < count_braces (function_start_step s t).brace_count t := by
    have := count_braces_gt 0 t hlt hrt
    simpa [hbc] using this
  rw [brace_step_of_open _ t f1 (by omega)]
  have hrec : ∀ u : ScanState, recursion_step u t = u := fun u =>
    recursion_step_of_not u t (by simp [is_recursive_call_of_brace t _ hlt])
  simp only [hrec]
  simp only [function_start_step_brace_count] at hcb ⊢
  refine ⟨by simp [f1], by simp [hbc], by simp; omega, by simp [f3], by simp [f2], by simp,
    ?_, ?_, ?_, ?_⟩
  · simp [(loop_step_functions _ t _).1, f4]
  · simp [(loop_step_functions _ t _).2.1, f4]
  · simp [(loop_step_functions _ t _).2.2, f4]
  · intro hloop
    rw [loop_step_of_not _ t (by simp [hloop])]
    simp [loop_end_step_loop_stack_depth, hrt, f4]

theorem process_line_inside (s : ScanState) (line : CStr)
    (hin : s.in_function = true) (hsk : is_skipped (trim line) = false)
    (hcb : count_braces s.brace_count (trim line) ≠ 0) :
    (process_line s line).in_function = true ∧
    (process_line s line).brace_count = count_braces s.brace_count (trim line) ∧
    (process_line s line).current_function = s.current_function ∧
    (process_line s line).analysis.total_functions = s.analysis.total_functions ∧
    (∀ i, ((process_line s line).analysis.functions i).name = (s.analysis.functions i).name) ∧
    (is_recursive_call (trim line) s.current_function = true →
      ((process_line s line).analysis.functions (s.analysis.total_functions - 1)).has_recursion
        = true ∧
      ((process_line s line).analysis.functions (s.analysis.total_functions - 1)).is_recursive
        = true ∧
      (process_line s line).analysis.recursive_functions = s.analysis.recursive_functions +
        (if (s.analysis.functions (s.analysis.total_functions - 1)).is_recursive = true
          then 0 else 1)) ∧
    (is_recursive_call (trim line) s.current_function = false →
      ((process_line s line).analysis.functions (s.analysis.total_functions - 1)).has_recursion
        = (s.analysis.functions (s.analysis.total_functions - 1)).has_recursion ∧
      ((process_line s line).analysis.functions (s.analysis.total_functions - 1)).is_recursive
        = (s.analysis.functions (s.analysis.total_functions - 1)).is_recursive ∧
      (process_line s line).analysis.recursive_functions = s.analysis.recursive_functions) := by
  rw [process_line_of_not_skipped s line hsk]
  generalize trim line = t at hcb
  rw [function_start_step_of_inside s t hin, brace_step_of_open s t hin hcb]
  refine ⟨by simp [hin], by simp, by simp, by simp, ?_, ?_, ?_⟩
  · intro i
    simp [(recursion_step_functions _ t i).1, (loop_step_functions _ t i).1]
  · intro hc
    have h := recursion_step_of_call
      (loop_end_step (loop_step { s with brace_count := count_braces s.brace_count t } t) t) t
      (by simp [hin, hc])
    simp only [loop_end_step_analysis, loop_step_total_functions, loop_step_recursive_functions,
      (loop_step_functions _ t _).2.1] at h
    simpa using h
  · intro hc
    rw [recursion_step_of_not _ t (by simp [hc])]
    simp [(loop_step_functions _ t _).2.1, (loop_step_functions _ t _).2.2]

theorem process_line_no_paren (s : ScanState) (line : CStr) (h : '(' ∉ line) :
    (process_line s line).analysis.total_functions = s.analysis.total_functions ∧
    (process_line s line).analysis.recursive_functions = s.analysis.recursive_functions ∧
    ∀ i, ((process_line s line).analysis.functions i).name = (s.analysis.functions i).name ∧
      ((process_line s line).analysis.functions i).is_recursive =
        (s.analysis.functions i).is_recursive ∧
      ((process_line s line).analysis.functions i).has_recursion =
        (s.analysis.functions i).has_recursion := by
  by_cases hsk : is_skipped (trim line) = true
  · rw [process_line_of_skipped s line hsk]; simp
  · have hsk' : is_skipped (trim line) = false := by simpa using hsk
    have ht : '(' ∉ trim line := fun h' => h (mem_of_mem_trim _ _ h')
    rw [process_line_of_not_skipped s line hsk']
    generalize trim line = t at ht
    have hrec : ∀ u : ScanState, recursion_step u t = u := fun u =>
      recursion_step_of_not u t (by simp [is_recursive_call_of_no_paren t _ ht])
    rw [hrec, function_start_step_of_not_start s t (is_function_start_of_no_paren t ht)]
    refine ⟨by simp, by simp, fun i => ?_⟩
    simp [(loop_step_functions _ t i).1, (loop_step_functions _ t i).2.1,
      (loop_step_functions _ t i).2.2]

/-! ## Whole scans -/

theorem scan_from_all_skipped (s : ScanState) (lines : List CStr)
    (h : ∀ l ∈ lines, is_skipped (trim l) = true) : scan_from s lines = s := by
  induction lines generalizing s with
  | nil => rfl
  | cons l ls ih =>
    have h1 := process_line_of_skipped s l (h l (by simp))
    simp only [scan_from, List.foldl_cons, h1]
    exact ih s (fun l' hl' => h l' (by simp [hl']))

theorem scan_from_malloc_calls (s : ScanState) (lines : List CStr) :
    (scan_from s lines).analysis.malloc_calls =
      s.analysis.malloc_calls + (count_lines is_malloc_call lines : Nat) := by
  induction lines generalizing s with
  | nil => simp [scan_from, count_lines]
  | cons l ls ih =>
    have hstep : scan_from s (l :: ls) = scan_from (process_line s l) ls := rfl
    rw [hstep, ih]
    by_cases hsk : is_skipped (trim l) = true
    · rw [process_line_of_skipped s l hsk]
      simp [count_lines, List.filter_cons, hsk]
    · have hsk' : is_skipped (trim l) = false := by simpa using hsk
      rw [process_line_malloc_calls s l hsk', ← is_malloc_call_trim l]
      by_cases hm : is_malloc_call (trim l) = true
      · simp [count_lines, List.filter_cons, hsk', hm]; ring
      · simp [count_lines, List.filter_cons, hsk', hm]

theorem scan_from_total_loops (s : ScanState) (lines : List CStr) :
    (scan_from s lines).analysis.total_loops =
      s.analysis.total_loops + (count_loops_inside s lines : Nat) := by
  induction lines generalizing s with
  | nil => simp [scan_from, count_loops_inside]
  | cons l ls ih =>
    have hstep : scan_from s (l :: ls) = scan_from (process_line s l) ls := rfl
    rw [hstep, ih]
    by_cases hsk : is_skipped (trim l) = true
    · simp [count_loops_inside, hsk, process_line_of_skipped s l hsk]
    · have hsk' : is_skipped (trim l) = false := by simpa using hsk
      rw [process_line_total_loops s l hsk']
      by_cases hm : (in_function_at_loop_check s l && is_loop_start (trim l)) = true
      · have hm' := hm
        simp only [Bool.and_eq_true] at hm'
        simp [count_loops_inside, hsk', hm'.1, hm'.2]; ring
      · have : (!is_skipped (trim l) && in_function_at_loop_check s l &&
            is_loop_start (trim l)) = false := by
          rw [hsk']
          simpa using hm
        simp only [count_loops_inside, this, hm]
        simp

theorem count_loops_inside_le (s : ScanState) (lines : List CStr) :
    count_loops_inside s lines ≤ count_lines is_loop_start lines := by
  induction lines generalizing s with
  | nil => simp [count_loops_inside, count_lines]
  | cons l ls ih =>
    have := ih (process_line s l)
    simp only [count_loops_inside, count_lines, List.filter_cons] at this ⊢
    by_cases h1 : is_skipped (trim l) = true
    · simp [h1]; exact this
    · have h1' : is_skipped (trim l) = false := by simpa using h1
      by_cases h2 : is_loop_start (trim l) = true
      · by_cases h3 : in_function_at_loop_check s l = true
        · simp [h1', h2, h3]; omega
        · simp [h1', h2, h3]; omega
      · simp [h1', h2]; exact this

theorem scan_from_open_lines (mid : List CStr) (hmid : ∀ l ∈ mid, RBRACE ∉ l) :
    ∀ (s : ScanState) (n : Int), s.in_function = true → 1 ≤ s.brace_count →
      s.loop_stack_depth = n → s.analysis.max_nested_loops = n →
      (s.analysis.functions (s.analysis.total_functions - 1)).loop_depth = n →
      (scan_from s mid).analysis.total_functions = s.analysis.total_functions ∧
      (scan_from s mid).analysis.total_loops =
        s.analysis.total_loops + (count_lines is_loop_start mid : Nat) ∧
      (scan_from s mid).analysis.max_nested_loops = n + (count_lines is_loop_start mid : Nat) ∧
      ((scan_from s mid).analysis.functions (s.analysis.total_functions - 1)).loop_depth =
        n + (count_lines is_loop_start mid : Nat) := by
  induction mid with
  | nil => intro s n _ _ _ hm hd; simp [scan_from, count_lines, hm, hd]
  | cons l ls ih =>
    intro s n hin hb hl hm hd
    have hstep : scan_from s (l :: ls) = scan_from (process_line s l) ls := rfl
    have hls : ∀ l' ∈ ls, RBRACE ∉ l' := fun l' h => hmid l' (by simp [h])
    rw [hstep]
    by_cases hsk : is_skipped (trim l) = true
    · rw [process_line_of_skipped s l hsk]
      have := ih hls s n hin hb hl hm hd
      simpa [count_lines, List.filter_cons, hsk] using this
    · have hsk' : is_skipped (trim l) = false := by simpa using hsk
      obtain ⟨h1, h2, h3, _, h5, h6⟩ := process_line_open s l hin hb (hmid l (by simp)) hsk'
      by_cases hloop : is_loop_start (trim l) = true
      · obtain ⟨g1, g2, g3, g4⟩ := h6 hloop
        have := ih hls (process_line s l) (n + 1) h1 h2 (by rw [g1, hl])
          (by rw [g3, hm, hl]; simp) (by rw [h3, g4, hd, hl]; simp)
        rw [h3, g2] at this
        simp only [count_lines, List.filter_cons, hsk', hloop, Bool.not_false, Bool.and_self,
          if_true, List.length_cons, Nat.cast_add, Nat.cast_one] at this ⊢
        refine ⟨this.1, ?_, ?_, ?_⟩
        · rw [this.2.1]; ring
        · rw [this.2.2.1]; ring
        · rw [this.2.2.2]; ring
      · have hloop' : is_loop_start (trim l) = false := by simpa using hloop
        obtain ⟨g1, g2, g3, g4⟩ := h5 hloop'
        have := ih hls (process_line s l) n h1 h2 (by rw [g1, hl])
          (by rw [g3, hm]) (by rw [h3, g4, hd])
        rw [h3, g2] at this
        simpa [count_lines, List.filter_cons, hsk', hloop'] using this

theorem scan_from_no_loop (tail : List CStr)
    (h : ∀ l ∈ tail, is_skipped (trim l) = true ∨ is_loop_start (trim l) = false) :
    ∀ s : ScanState,
      (scan_from s tail).analysis.total_loops = s.analysis.total_loops ∧
      (scan_from s tail).analysis.max_nested_loops = s.analysis.max_nested_loops ∧
      s.analysis.total_functions ≤ (scan_from s tail).analysis.total_functions ∧
      ∀ i, i < s.analysis.total_functions →
        ((scan_from s tail).analysis.functions i).loop_depth =
          (s.analysis.functions i).loop_depth := by
  induction tail with
  | nil => intro s; simp [scan_from]
  | cons l ls ih =>
    intro s
    have hstep : scan_from s (l :: ls) = scan_from (process_line s l) ls := rfl
    obtain ⟨a1, a2, a3, a4⟩ := process_line_no_loop s l (h l (by simp))
    obtain ⟨b1, b2, b3, b4⟩ := ih (fun l' hl' => h l' (by simp [hl'])) (process_line s l)
    rw [hstep]
    refine ⟨by rw [b1, a1], by rw [b2, a2], by omega, ?_⟩
    intro i hi
    rw [b4 i (by omega), a4 i hi]

theorem scan_from_inside (lines : List CStr) :
    ∀ s : ScanState, s.in_function = true → stays_open s.brace_count lines = true →
      (s.analysis.functions (s.analysis.total_functions - 1)).has_recursion =
        (s.analysis.functions (s.analysis.total_functions - 1)).is_recursive →
      (scan_from s lines).in_function = true ∧
      (scan_from s lines).current_function = s.current_function ∧
      (scan_from s lines).analysis.total_functions = s.analysis.total_functions ∧
      (∀ i, ((scan_from s lines).analysis.functions i).name = (s.analysis.functions i).name) ∧
      ((scan_from s lines).analysis.functions (s.analysis.total_functions - 1)).has_recursion =
        ((scan_from s lines).analysis.functions (s.analysis.total_functions - 1)).is_recursive ∧
      ((s.analysis.functions (s.analysis.total_functions - 1)).is_recursive = true ∨
        (∃ l ∈ lines, is_skipped (trim l) = false ∧
          is_recursive_call (trim l) s.current_function = true) →
        ((scan_from s lines).analysis.functions (s.analysis.total_functions - 1)).is_recursive
          = true) ∧
      (scan_from s lines).analysis.recursive_functions = s.analysis.recursive_functions +
        (if ((scan_from s lines).analysis.functions (s.analysis.total_functions - 1)).is_recursive
              = true ∧
            (s.analysis.functions (s.analysis.total_functions - 1)).is_recursive = false
          then 1 else 0) := by
  induction lines with
  | nil =>
    intro s hin _ hflag
    refine ⟨hin, rfl, rfl, fun _ => rfl, hflag, ?_, ?_⟩
    · rintro (h | ⟨l, hl, _⟩)
      · exact h
      · simp at hl
    · simp only [scan_from, List.foldl_nil]
      by_cases h : (s.analysis.functions (s.analysis.total_functions - 1)).is_recursive = true <;>
        simp [h]
  | cons l ls ih =>
    intro s hin hopen hflag
    have hstep : scan_from s (l :: ls) = scan_from (process_line s l) ls := rfl
    rw [hstep]
    by_cases hsk : is_skipped (trim l) = true
    · rw [process_line_of_skipped s l hsk]
      have hopen' : stays_open s.brace_count ls = true := by
        simpa [stays_open, hsk] using hopen
      obtain ⟨a1, a2, a3, a4, a5, a6, a7⟩ := ih s hin hopen' hflag
      refine ⟨a1, a2, a3, a4, a5, ?_, a7⟩
      rintro (h | ⟨l', hl', h1, h2⟩)
      · exact a6 (Or.inl h)
      · rcases List.mem_cons.1 hl' with e | e
        · subst e; rw [hsk] at h1; cases h1
        · exact a6 (Or.inr ⟨l', e, h1, h2⟩)
    · have hsk' : is_skipped (trim l) = false := by simpa using hsk
      have hopen' : count_braces s.brace_count (trim l) ≠ 0 ∧
          stays_open (count_braces s.brace_count (trim l)) ls = true := by
        simpa [stays_open, hsk'] using hopen
      obtain ⟨p1, p2, p3, p4, p5, p6, p7⟩ := process_line_inside s l hin hsk' hopen'.1
      by_cases hc : is_recursive_call (trim l) s.current_function = true
      · obtain ⟨c1, c2, c3⟩ := p6 hc
        obtain ⟨a1, a2, a3, a4, a5, a6, a7⟩ := ih (process_line s l) p1 (by rw [p2]; exact hopen'.2)
          (by rw [p4, c1, c2])
        rw [p4] at a5 a6 a7
        have hrec := a6 (Or.inl c2)
        refine ⟨a1, by rw [a2, p3], by rw [a3, p4], fun i => by rw [a4, p5], a5,
          fun _ => hrec, ?_⟩
        rw [a7, c3, c2, hrec]
        by_cases h : (s.analysis.functions (s.analysis.total_functions - 1)).is_recursive = true <;>
          simp [h]
      · have hc' : is_recursive_call (trim l) s.current_function = false := by simpa using hc
        obtain ⟨c1, c2, c3⟩ := p7 hc'
        obtain ⟨a1, a2, a3, a4, a5, a6, a7⟩ := ih (process_line s l) p1 (by rw [p2]; exact hopen'.2)
          (by rw [p4, c1, c2, hflag])
        rw [p4] at a5 a6 a7
        rw [p3] at a6
        refine ⟨a1, by rw [a2, p3], by rw [a3, p4], fun i => by rw [a4, p5], a5, ?_, ?_⟩
        · rintro (h | ⟨l', hl', h1, h2⟩)
          · exact a6 (Or.inl (by rw [c2]; exact h))
          · rcases List.mem_cons.1 hl' with e | e
            · subst e; rw [hc'] at h2; cases h2
            · exact a6 (Or.inr ⟨l', e, h1, h2⟩)
        · rw [a7, c3, c2]

theorem scan_from_header_call (s : ScanState) (header : CStr) (lines : List CStr)
    (hout : s.in_function = false) (hbc : s.brace_count = 0)
    (hsk : is_skipped (trim header) = false) (hfs : is_function_start (trim header) = true)
    (hl : LBRACE ∈ header) (hr : RBRACE ∉ header)
    (hopen : stays_open (count_braces 0 (trim header)) lines = true)
    (hcall : ∃ l ∈ lines, is_skipped (trim l) = false ∧
      is_recursive_call (trim l) (scan_name (trim header) s.current_function) = true) :
    (scan_from s (header :: lines)).in_function = true ∧
    (scan_from s (header :: lines)).analysis.total_functions = s.analysis.total_functions + 1 ∧
    ((scan_from s (header :: lines)).analysis.functions s.analysis.total_functions).name =
      scan_name (trim header) s.current_function ∧
    ((scan_from s (header :: lines)).analysis.functions s.analysis.total_functions).is_recursive
      = true ∧
    ((scan_from s (header :: lines)).analysis.functions s.analysis.total_functions).has_recursion
      = true ∧
    (scan_from s (header :: lines)).analysis.recursive_functions =
      s.analysis.recursive_functions + 1 := by
  obtain ⟨p1, p2, _, p4, p5, p6, p7, p8, p9, _⟩ := process_line_header s header hout hbc hsk hfs hl hr
  have hstep : scan_from s (header :: lines) = scan_from (process_line s header) lines := rfl
  have hlast : (process_line s header).analysis.total_functions - 1 = s.analysis.total_functions := by
    rw [p4]; ring
  obtain ⟨a1, _, a3, a4, a5, a6, a7⟩ := scan_from_inside lines (process_line s header) p1
    (by rw [p2]; exact hopen) (by rw [hlast, p8, p9])
  rw [hlast] at a5 a6 a7
  rw [p5] at a6
  have hrec := a6 (Or.inr hcall)
  rw [hstep]
  refine ⟨a1, by rw [a3, p4], by rw [a4, p7], hrec, by rw [a5, hrec], ?_⟩
  rw [a7, hrec, p8, p6]
  simp

/-! ## Reading the file into records -/

theorem fgets_append (n : Nat) (content : CStr) :
    (fgets n content).1 ++ (fgets n content).2 = content := by
  induction content generalizing n with
  | nil => cases n <;> simp [fgets]
  | cons c cs ih =>
    cases n with
    | zero => simp [fgets]
    | succ n =>
      simp only [fgets]
      split
      · simp
      · split
        · simp
        · simp [ih n]

theorem fgets_length_le (n : Nat) (content : CStr) : (fgets n content).1.length ≤ n - 1 := by
  induction content generalizing n with
  | nil => cases n <;> simp [fgets]
  | cons c cs ih =>
    cases n with
    | zero => simp [fgets]
    | succ n =>
      simp only [fgets]
      split
      · simp
      · split
        · simp; omega
        · have := ih n
          simp; omega

theorem fgets_ne_nil (n : Nat) (content : CStr) (hn : 2 ≤ n) (hc : content ≠ []) :
    (fgets n content).1 ≠ [] := by
  cases content with
  | nil => exact absurd rfl hc
  | cons c cs =>
    cases n with
    | zero => omega
    | succ n =>
      simp only [fgets]
      split
      · omega
      · split <;> simp

theorem read_lines_fuel_join (fuel : Nat) (content : CStr) (h : content.length ≤ fuel) :
    (read_lines_fuel fuel content).flatten = content := by
  induction fuel generalizing content with
  | zero =>
    have : content = [] := List.length_eq_zero.1 (by omega)
    simp [read_lines_fuel, this]
  | succ fuel ih =>
    cases hc : content with
    | nil => simp [read_lines_fuel]
    | cons c cs =>
      have hne : (fgets MAX_LINE_LENGTH (c :: cs)).1 ≠ [] :=
        fgets_ne_nil _ _ (by decide) (by simp)
      have happ := fgets_append MAX_LINE_LENGTH (c :: cs)
      have hlen : (fgets MAX_LINE_LENGTH (c :: cs)).2.length ≤ fuel := by
        have h1 := congrArg List.length happ
        have h2 : 0 < (fgets MAX_LINE_LENGTH (c :: cs)).1.length :=
          List.length_pos.2 hne
        rw [hc] at h
        simp only [List.length_append, List.length_cons] at h1 h
        omega
      simp only [read_lines_fuel, List.isEmpty_cons, Bool.false_eq_true, if_false,
        List.flatten_cons, ih _ hlen]
      exact happ

theorem read_lines_join (content : CStr) : (read_lines content).flatten = content :=
  read_lines_fuel_join _ _ (le_refl _)

theorem read_lines_length_le (content line : CStr) (h : line ∈ read_lines content) :
    line ≠ [] ∧ line.length ≤ MAX_LINE_LENGTH - 1 := by
  unfold read_lines at h
  generalize content.length = fuel at h
  induction fuel generalizing content with
  | zero => simp [read_lines_fuel] at h
  | succ fuel ih =>
    cases hc : content with
    | nil => simp [read_lines_fuel, hc] at h
    | cons c cs =>
      rw [hc] at h
      simp only [read_lines_fuel, List.isEmpty_cons, Bool.false_eq_true, if_false,
        List.mem_cons] at h
      rcases h with rfl | h
      · exact ⟨fgets_ne_nil _ _ (by decide) (by simp), fgets_length_le _ _⟩
      · exact ih _ h

/-! ## The estimator -/

theorem estimate_complexity_shape (a : CodeAnalysis) :
    ∃ t sp, estimate_complexity a =
        timeHeader :: ((if a.recursive_functions > 0 then [exponentialLine] else []) ++
          [t, spaceHeader, sp]) ∧
      is_loop_line t = true ∧ is_space_line sp = true ∧
      (a.max_nested_loops ≥ 3 → t = polynomialLine a.max_nested_loops) ∧
      (a.max_nested_loops = 2 → t = quadraticLine) ∧
      (a.max_nested_loops < 2 → a.total_loops > 0 → t = linearLine) ∧
      (a.max_nested_loops < 2 → ¬ a.total_loops > 0 → t = constantLine) ∧
      ((a.malloc_calls > 0 ∨ a.array_declarations > 0) → a.recursive_functions > 0 →
        sp = spaceWorseLine) ∧
      ((a.malloc_calls > 0 ∨ a.array_declarations > 0) → ¬ a.recursive_functions > 0 →
        sp = spaceLinearLine) ∧
      (¬ a.malloc_calls > 0 → ¬ a.array_declarations > 0 → sp = spaceConstantLine) := by
  refine ⟨if a.max_nested_loops ≥ 3 then polynomialLine a.max_nested_loops
      else if a.max_nested_loops = 2 then quadraticLine
      else if a.total_loops > 0 then linearLine else constantLine,
    if a.malloc_calls > 0 ∨ a.array_declarations > 0 then
      (if a.recursive_functions > 0 then spaceWorseLine else spaceLinearLine)
    else spaceConstantLine, ?_, ?_, ?_, ?_, ?_, ?_, ?_, ?_, ?_, ?_⟩
  · unfold estimate_complexity
    split_ifs <;> rfl
  · split_ifs <;> rfl
  · split_ifs <;> decide
  · intro h; simp [h]
  · intro h; simp [h]
  · intro h1 h2
    have : ¬ a.max_nested_loops ≥ 3 := by omega
    have : ¬ a.max_nested_loops = 2 := by omega
    simp [*]
  · intro h1 h2
    have : ¬ a.max_nested_loops ≥ 3 := by omega
    have : ¬ a.max_nested_loops = 2 := by omega
    simp [*]
  · intro h1 h2; simp [h1, h2]
  · intro h1 h2; simp [h1, h2]
  · intro h1 h2; simp [h1, h2]

theorem estimate_complexity_loop_lines (a : CodeAnalysis) :
    (estimate_complexity a).filter is_loop_line =
      [if a.max_nested_loops ≥ 3 then polynomialLine a.max_nested_loops
       else if a.max_nested_loops = 2 then quadraticLine
       else if a.total_loops > 0 then linearLine else constantLine] := by
  unfold estimate_complexity
  by_cases h0 : a.recursive_functions > 0 <;>
  by_cases h1 : a.max_nested_loops ≥ 3 <;>
  by_cases h2 : a.max_nested_loops = 2 <;>
  by_cases h3 : a.total_loops > 0 <;>
  by_cases h4 : a.malloc_calls > 0 ∨ a.array_declarations > 0 <;>
  simp only [h0, h1, h2, h3, h4, if_true, if_false] <;> rfl

theorem loop_line_not_space (p : Printf) (h : is_loop_line p = true) :
    is_space_line p = false := by
  obtain ⟨f, args⟩ := p
  simp only [is_loop_line, Bool.or_eq_true, beq_iff_eq] at h
  rcases h with ((h | h) | h) | h
  · simp only [polynomialLine] at h
    subst h
    simp [is_space_line, spaceWorseLine, spaceLinearLine, spaceConstantLine]
  all_goals rw [h]; decide

theorem space_line_not_loop (p : Printf) (h : is_space_line p = true) :
    is_loop_line p = false := by
  cases h' : is_loop_line p
  · rfl
  · rw [loop_line_not_space p h'] at h; cases h

/-! ## The invariant of the scan -/

theorem count_recursive_succ (f : Int → FunctionInfo) (n : Nat) :
    count_recursive f (n + 1) =
      count_recursive f n + (if (f (n : Int)).is_recursive = true then 1 else 0) := by
  unfold count_recursive
  rw [List.range_succ, List.filter_append, List.length_append]
  by_cases h : (f (n : Int)).is_recursive = true <;> simp [h]

theorem count_recursive_congr (f g : Int → FunctionInfo) (n : Nat)
    (h : ∀ i : Nat, i < n → (g (i : Int)).is_recursive = (f (i : Int)).is_recursive) :
    count_recursive g n = count_recursive f n := by
  induction n with
  | zero => rfl
  | succ n ih =>
    rw [count_recursive_succ, count_recursive_succ,
      ih (fun i hi => h i (by omega)), h n (by omega)]

theorem count_recursive_set (f g : Int → FunctionInfo) (n j : Nat) (hj : j < n)
    (hf : (f (j : Int)).is_recursive = false) (hg : (g (j : Int)).is_recursive = true)
    (h : ∀ i : Nat, i ≠ j → (g (i : Int)).is_recursive = (f (i : Int)).is_recursive) :
    count_recursive g n = count_recursive f n + 1 := by
  induction n with
  | zero => omega
  | succ n ih =>
    rw [count_recursive_succ, count_recursive_succ]
    by_cases hjn : j = n
    · subst hjn
      rw [count_recursive_congr f g j (fun i hi => h i (by omega)), hf, hg]
      simp
    · rw [ih (by omega), h n (fun e => hjn e.symm)]
      omega

theorem count_recursive_le (f : Int → FunctionInfo) (n : Nat) : count_recursive f n ≤ n := by
  unfold count_recursive
  exact (List.length_filter_le _ _).trans (by simp)

theorem ScanInv_init : ScanInv ScanState.init := by
  constructor <;> simp [ScanState.init, CodeAnalysis.zero, count_recursive]

theorem function_start_step_inv (s : ScanState) (t : CStr) (h : ScanInv s) :
    ScanInv (function_start_step s t) := by
  by_cases hin : s.in_function = true
  · rw [function_start_step_of_inside s t hin]; exact h
  by_cases hfs : is_function_start t = true
  swap
  · rw [function_start_step_of_not_start s t (by simpa using hfs)]; exact h
  have hout : s.in_function = false := by simpa using hin
  obtain ⟨f1, _, f3, f4⟩ := function_start_step_of_start s t hout hfs
  have hne := function_start_step_functions_of_ne s t
  have htf := h.total_functions_nonneg
  have hcast : ((s.analysis.total_functions.toNat : Nat) : Int) = s.analysis.total_functions :=
    Int.toNat_of_nonneg htf
  refine
    { total_functions_nonneg := by rw [f3]; omega
      total_functions_pos := fun _ => by rw [f3]; omega
      outside := fun hf => by rw [f1] at hf; cases hf
      depth_nonneg := by simpa using h.depth_nonneg
      depth_le := by simpa using h.depth_le
      max_nonneg := by simpa using h.max_nonneg
      max_le := by simpa using h.max_le
      max_pos := by simpa using h.max_pos
      flags := ?_
      recursive_count := ?_
      loops_need_function := fun h0 => by rw [f3] at h0; omega
      loop_depth_nonneg := ?_
      loop_depth_le := ?_
      loop_depth_max := ?_ }
  · intro i
    by_cases hi : i = s.analysis.total_functions
    · rw [hi, f4]
    · rw [hne i hi]; exact h.flags i
  · rw [function_start_step_recursive_functions, h.recursive_count, f3,
      Int.toNat_add htf (by decide)]
    rw [show Int.toNat 1 = 1 from rfl, count_recursive_succ, hcast, f4]
    simp only [Bool.false_eq_true, if_false, Nat.add_zero]
    congr 1
    refine (count_recursive_congr _ _ _ (fun i hi => ?_)).symm
    rw [hne (i : Int) (by omega)]
  · intro i
    by_cases hi : i = s.analysis.total_functions
    · rw [hi, f4]
    · rw [hne i hi]; exact h.loop_depth_nonneg i
  · intro i
    rw [function_start_step_max_nested_loops]
    by_cases hi : i = s.analysis.total_functions
    · rw [hi, f4]; exact h.max_nonneg
    · rw [hne i hi]; exact h.loop_depth_le i
  · intro _
    rw [function_start_step_max_nested_loops, f3]
    by_cases h0 : s.analysis.total_functions = 0
    · refine ⟨s.analysis.total_functions, htf, by omega, ?_⟩
      rw [f4]
      have h1 := h.loops_need_function h0
      have h2 := h.max_le
      have h3 := h.max_nonneg
      show (0 : Int) = _
      omega
    · obtain ⟨i, i0, i1, i2⟩ := h.loop_depth_max (by omega)
      exact ⟨i, i0, by omega, by rw [hne i (by omega)]; exact i2⟩

theorem brace_step_inv (s : ScanState) (t : CStr) (h : ScanInv s) :
    ScanInv (brace_step s t) := by
  by_cases hin : s.in_function = true
  swap
  · rw [brace_step_of_outside s t (by simpa using hin)]; exact h
  by_cases hc : count_braces s.brace_count t = 0
  · rw [brace_step_of_close s t hin hc]
    have h1 := h.max_le
    have h2 := h.max_nonneg
    exact
      { total_functions_nonneg := h.total_functions_nonneg
        total_functions_pos := fun hf => by cases hf
        outside := fun _ => ⟨rfl, rfl, rfl⟩
        depth_nonneg := le_refl _
        depth_le := by show (0 : Int) ≤ s.analysis.total_loops; omega
        max_nonneg := h.max_nonneg
        max_le := h.max_le
        max_pos := h.max_pos
        flags := h.flags
        recursive_count := h.recursive_count
        loops_need_function := h.loops_need_function
        loop_depth_nonneg := h.loop_depth_nonneg
        loop_depth_le := h.loop_depth_le
        loop_depth_max := h.loop_depth_max }
  · rw [brace_step_of_open s t hin hc]
    exact
      { total_functions_nonneg := h.total_functions_nonneg
        total_functions_pos := h.total_functions_pos
        outside := fun hf => by rw [show s.in_function = true from hin] at hf; cases hf
        depth_nonneg := h.depth_nonneg
        depth_le := h.depth_le
        max_nonneg := h.max_nonneg
        max_le := h.max_le
        max_pos := h.max_pos
        flags := h.flags
        recursive_count := h.recursive_count
        loops_need_function := h.loops_need_function
        loop_depth_nonneg := h.loop_depth_nonneg
        loop_depth_le := h.loop_depth_le
        loop_depth_max := h.loop_depth_max }

theorem loop_step_inv (s : ScanState) (t : CStr) (h : ScanInv s) :
    ScanInv (loop_step s t) := by
  by_cases hc : (s.in_function && is_loop_start t) = true
  swap
  · rw [loop_step_of_not s t (by simpa using hc)]; exact h
  have hin : s.in_function = true := by
    simp only [Bool.and_eq_true] at hc; exact hc.1
  obtain ⟨l1, l2, l3, l4, l5⟩ := loop_step_of_loop s t hc
  have hfun := loop_step_functions s t
  have htf := h.total_functions_pos hin
  have d0 := h.depth_nonneg
  have d1 := h.depth_le
  have m0 := h.max_nonneg
  have m1 := h.max_le
  refine
    { total_functions_nonneg := by simpa using h.total_functions_nonneg
      total_functions_pos := fun _ => by simpa using htf
      outside := fun hf => by rw [loop_step_in_function, hin] at hf; cases hf
      depth_nonneg := by rw [l1]; omega
      depth_le := by rw [l1, l2]; omega
      max_nonneg := by rw [l3]; exact le_max_of_le_left m0
      max_le := by rw [l3, l2]; exact max_le (by omega) (by omega)
      max_pos := fun _ => by rw [l3]; exact lt_max_of_lt_right (by omega)
      flags := fun i => by rw [(hfun i).2.1, (hfun i).2.2]; exact h.flags i
      recursive_count := ?_
      loops_need_function := fun h0 => by rw [loop_step_total_functions] at h0; omega
      loop_depth_nonneg := ?_
      loop_depth_le := ?_
      loop_depth_max := ?_ }
  · rw [loop_step_recursive_functions, loop_step_total_functions, h.recursive_count]
    congr 1
    exact (count_recursive_congr _ _ _ (fun i _ => (hfun i).2.1)).symm
  · intro i
    by_cases hi : i = s.analysis.total_functions - 1
    · rw [hi, l4]; exact le_max_of_le_left (h.loop_depth_nonneg _)
    · rw [l5 i hi]; exact h.loop_depth_nonneg i
  · intro i
    rw [l3]
    by_cases hi : i = s.analysis.total_functions - 1
    · rw [hi, l4]; exact max_le_max (h.loop_depth_le _) (le_refl _)
    · rw [l5 i hi]; exact le_max_of_le_left (h.loop_depth_le i)
  · intro _
    rw [loop_step_total_functions, l3]
    by_cases hgt : s.analysis.max_nested_loops < s.loop_stack_depth + 1
    · refine ⟨s.analysis.total_functions - 1, by omega, by omega, ?_⟩
      have := h.loop_depth_le (s.analysis.total_functions - 1)
      rw [l4, max_eq_right (by omega), max_eq_right (by omega)]
    · obtain ⟨i, i0, i1, i2⟩ := h.loop_depth_max (by omega)
      refine ⟨i, i0, i1, ?_⟩
      rw [max_eq_left (by omega)]
      by_cases hi : i = s.analysis.total_functions - 1
      · rw [hi, l4, ← hi, i2, max_eq_left (by omega)]
      · rw [l5 i hi, i2]

theorem loop_end_step_inv (s : ScanState) (t : CStr) (h : ScanInv s) :
    ScanInv (loop_end_step s t) := by
  have hl := loop_end_step_loop_stack_depth s t
  have d0 := h.depth_nonneg
  have d1 := h.depth_le
  exact
    { total_functions_nonneg := by simpa using h.total_functions_nonneg
      total_functions_pos := by simpa using h.total_functions_pos
      outside := fun hf => by
        rw [loop_end_step_in_function] at hf
        obtain ⟨a, b, c⟩ := h.outside hf
        refine ⟨by simpa using a, ?_, by simpa using c⟩
        rw [hl, if_neg (by simp [hf]), b]
      depth_nonneg := by rw [hl]; split <;> omega
      depth_le := by rw [hl, loop_end_step_analysis]; split <;> omega
      max_nonneg := by simpa using h.max_nonneg
      max_le := by simpa using h.max_le
      max_pos := by simpa using h.max_pos
      flags := by simpa using h.flags
      recursive_count := by simpa using h.recursive_count
      loops_need_function := by simpa using h.loops_need_function
      loop_depth_nonneg := by simpa using h.loop_depth_nonneg
      loop_depth_le := by simpa using h.loop_depth_le
      loop_depth_max := by simpa using h.loop_depth_max }

theorem recursion_step_inv (s : ScanState) (t : CStr) (h : ScanInv s) :
    ScanInv (recursion_step s t) := by
  by_cases hc : (s.in_function && is_recursive_call t s.current_function) = true
  swap
  · rw [recursion_step_of_not s t (by simpa using hc)]; exact h
  have hin : s.in_function = true := by
    simp only [Bool.and_eq_true] at hc; exact hc.1
  obtain ⟨r1, r2, r3⟩ := recursion_step_of_call s t hc
  have hfun := recursion_step_functions s t
  have htf := h.total_functions_pos hin
  have hcast : (((s.analysis.total_functions - 1).toNat : Nat) : Int) =
      s.analysis.total_functions - 1 := Int.toNat_of_nonneg (by omega)
  refine
    { total_functions_nonneg := by simpa using h.total_functions_nonneg
      total_functions_pos := fun _ => by simpa using htf
      outside := fun hf => by rw [recursion_step_in_function, hin] at hf; cases hf
      depth_nonneg := by simpa using h.depth_nonneg
      depth_le := by simpa using h.depth_le
      max_nonneg := by simpa using h.max_nonneg
      max_le := by simpa using h.max_le
      max_pos := by simpa using h.max_pos
      flags := ?_
      recursive_count := ?_
      loops_need_function := by simpa using h.loops_need_function
      loop_depth_nonneg := fun i => by rw [(hfun i).2.1]; exact h.loop_depth_nonneg i
      loop_depth_le := fun i => by
        rw [(hfun i).2.1, recursion_step_max_nested_loops]; exact h.loop_depth_le i
      loop_depth_max := fun h0 => by
        rw [recursion_step_total_functions] at h0 ⊢
        obtain ⟨i, i0, i1, i2⟩ := h.loop_depth_max h0
        exact ⟨i, i0, i1, by rw [(hfun i).2.1, recursion_step_max_nested_loops]; exact i2⟩ }
  · intro i
    by_cases hi : i = s.analysis.total_functions - 1
    · rw [hi, r1, r2]
    · rw [(hfun i).2.2 hi]; exact h.flags i
  · rw [r3, recursion_step_total_functions, h.recursive_count]
    by_cases hr : (s.analysis.functions (s.analysis.total_functions - 1)).is_recursive = true
    · rw [if_pos hr, add_zero]
      congr 1
      refine (count_recursive_congr _ _ _ (fun i _ => ?_)).symm
      by_cases hi : (i : Int) = s.analysis.total_functions - 1
      · rw [hi, r2, hr]
      · rw [(hfun i).2.2 hi]
    · rw [if_neg hr]
      have hset := count_recursive_set s.analysis.functions
        (recursion_step s t).analysis.functions s.analysis.total_functions.toNat
        (s.analysis.total_functions - 1).toNat (by omega)
        (by rw [hcast]; simpa using hr) (by rw [hcast]; exact r2)
        (fun i hi => by rw [(hfun i).2.2 (by omega)])
      rw [hset]
      push_cast
      ring

theorem malloc_step_inv (s : ScanState) (t : CStr) (h : ScanInv s) :
    ScanInv (malloc_step s t) :=
  { total_functions_nonneg := by simpa using h.total_functions_nonneg
    total_functions_pos := by simpa using h.total_functions_pos
    outside := by simpa using h.outside
    depth_nonneg := by simpa using h.depth_nonneg
    depth_le := by simpa using h.depth_le
    max_nonneg := by simpa using h.max_nonneg
    max_le := by simpa using h.max_le
    max_pos := by simpa using h.max_pos
    flags := by simpa using h.flags
    recursive_count := by simpa using h.recursive_count
    loops_need_function := by simpa using h.loops_need_function
    loop_depth_nonneg := by simpa using h.loop_depth_nonneg
    loop_depth_le := by simpa using h.loop_depth_le
    loop_depth_max := by simpa using h.loop_depth_max }

theorem array_step_inv (s : ScanState) (t : CStr) (h : ScanInv s) :
    ScanInv (array_step s t) :=
  { total_functions_nonneg := by simpa using h.total_functions_nonneg
    total_functions_pos := by simpa using h.total_functions_pos
    outside := by simpa using h.outside
    depth_nonneg := by simpa using h.depth_nonneg
    depth_le := by simpa using h.depth_le
    max_nonneg := by simpa using h.max_nonneg
    max_le := by simpa using h.max_le
    max_pos := by simpa using h.max_pos
    flags := by simpa using h.flags
    recursive_count := by simpa using h.recursive_count
    loops_need_function := by simpa using h.loops_need_function
    loop_depth_nonneg := by simpa using h.loop_depth_nonneg
    loop_depth_le := by simpa using h.loop_depth_le
    loop_depth_max := by simpa using h.loop_depth_max }

theorem process_line_inv (s : ScanState) (line : CStr) (h : ScanInv s) :
    ScanInv (process_line s line) := by
  by_cases hsk : is_skipped (trim line) = true
  · rw [process_line_of_skipped s line hsk]; exact h
  · rw [process_line_of_not_skipped s line (by simpa using hsk)]
    exact array_step_inv _ _ (malloc_step_inv _ _ (recursion_step_inv _ _
      (loop_end_step_inv _ _ (loop_step_inv _ _ (brace_step_inv _ _
        (function_start_step_inv _ _ h))))))

theorem scan_from_inv (lines : List CStr) :
    ∀ s : ScanState, ScanInv s → ScanInv (scan_from s lines) := by
  induction lines with
  | nil => intro s h; exact h
  | cons l ls ih => intro s h; exact ih _ (process_line_inv s l h)

/-! ## Which entries of `functions` a line can change -/

theorem loop_step_functions_of_ne (s : ScanState) (t : CStr) (i : Int)
    (h : i ≠ s.analysis.total_functions - 1) :
    (loop_step s t).analysis.functions i = s.analysis.functions i := by
  by_cases hc : (s.in_function && is_loop_start t) = true
  · exact (loop_step_of_loop s t hc).2.2.2.2 i h
  · rw [loop_step_of_not s t (by simpa using hc)]

theorem loop_step_loop_depth_le (s : ScanState) (t : CStr) (i : Int) :
    (s.analysis.functions i).loop_depth ≤ ((loop_step s t).analysis.functions i).loop_depth := by
  by_cases hc : (s.in_function && is_loop_start t) = true
  · by_cases hi : i = s.analysis.total_functions - 1
    · rw [hi, (loop_step_of_loop s t hc).2.2.2.1]; exact le_max_left _ _
    · rw [(loop_step_of_loop s t hc).2.2.2.2 i hi]
  · rw [loop_step_of_not s t (by simpa using hc)]

theorem recursion_step_flags_mono (s : ScanState) (t : CStr) (i : Int) :
    ((s.analysis.functions i).is_recursive = true →
      ((recursion_step s t).analysis.functions i).is_recursive = true) ∧
    ((s.analysis.functions i).has_recursion = true →
      ((recursion_step s t).analysis.functions i).has_recursion = true) := by
  by_cases hc : (s.in_function && is_recursive_call t s.current_function) = true
  · by_cases hi : i = s.analysis.total_functions - 1
    · obtain ⟨r1, r2, _⟩ := recursion_step_of_call s t hc
      rw [hi]; exact ⟨fun _ => r2, fun _ => r1⟩
    · rw [(recursion_step_functions s t i).2.2 hi]; exact ⟨id, id⟩
  · rw [recursion_step_of_not s t (by simpa using hc)]; exact ⟨id, id⟩

theorem process_line_outside (s : ScanState) (line : CStr) (hout : s.in_function = false) :
    ((process_line s line).analysis.total_functions = s.analysis.total_functions ∧
      (process_line s line).in_function = false ∧
      (process_line s line).analysis.functions = s.analysis.functions ∧
      (process_line s line).analysis.total_loops = s.analysis.total_loops ∧
      (process_line s line).analysis.max_nested_loops = s.analysis.max_nested_loops ∧
      (process_line s line).analysis.recursive_functions = s.analysis.recursive_functions) ∨
    ((process_line s line).analysis.total_functions = s.analysis.total_functions + 1 ∧
      is_skipped (trim line) = false ∧ is_function_start (trim line) = true ∧
      ((process_line s line).analysis.functions s.analysis.total_functions).name =
        scan_name (trim line) s.current_function ∧
      ∀ i, i ≠ s.analysis.total_functions →
        (process_line s line).analysis.functions i = s.analysis.functions i) := by
  by_cases hsk : is_skipped (trim line) = true
  · rw [process_line_of_skipped s line hsk]
    exact Or.inl ⟨rfl, hout, rfl, rfl, rfl, rfl⟩
  have hsk' : is_skipped (trim line) = false := by simpa using hsk
  rw [process_line_of_not_skipped s line hsk']
  generalize trim line = t at hsk'
  by_cases hfs : is_function_start t = true
  · right
    obtain ⟨f1, f2, f3, f4⟩ := function_start_step_of_start s t hout hfs
    refine ⟨by simp [f3], hsk', hfs, ?_, ?_⟩
    · simp [(recursion_step_functions _ t _).1, (loop_step_functions _ t _).1, f4]
    · intro i hi
      simp only [array_step_functions, malloc_step_functions]
      rw [(recursion_step_functions _ t i).2.2 (by simp [f3]; omega)]
      simp only [loop_end_step_analysis]
      rw [loop_step_functions_of_ne _ t i (by simp [f3]; omega)]
      simp only [brace_step_analysis]
      exact function_start_step_functions_of_ne s t i hi
  · left
    rw [function_start_step_of_not_start s t (by simpa using hfs),
      brace_step_of_outside s t hout, loop_step_of_not s t (by simp [hout])]
    have hr : recursion_step (loop_end_step s t) t = loop_end_step s t :=
      recursion_step_of_not _ t (by simp [hout])
    rw [hr]
    simp [hout]

theorem process_line_inside_frame (s : ScanState) (line : CStr) (hin : s.in_function = true) :
    (process_line s line).analysis.total_functions = s.analysis.total_functions ∧
    (∀ i, i ≠ s.analysis.total_functions - 1 →
      (process_line s line).analysis.functions i = s.analysis.functions i) ∧
    ((process_line s line).analysis.functions (s.analysis.total_functions - 1)).name =
      (s.analysis.functions (s.analysis.total_functions - 1)).name ∧
    (s.analysis.functions (s.analysis.total_functions - 1)).loop_depth ≤
      ((process_line s line).analysis.functions (s.analysis.total_functions - 1)).loop_depth ∧
    ((s.analysis.functions (s.analysis.total_functions - 1)).is_recursive = true →
      ((process_line s line).analysis.functions
        (s.analysis.total_functions - 1)).is_recursive = true) ∧
    ((s.analysis.functions (s.analysis.total_functions - 1)).has_recursion = true →
      ((process_line s line).analysis.functions
        (s.analysis.total_functions - 1)).has_recursion = true) := by
  by_cases hsk : is_skipped (trim line) = true
  · rw [process_line_of_skipped s line hsk]
    exact ⟨rfl, fun _ _ => rfl, rfl, le_refl _, id, id⟩
  have hsk' : is_skipped (trim line) = false := by simpa using hsk
  rw [process_line_of_not_skipped s line hsk']
  generalize trim line = t
  rw [function_start_step_of_inside s t hin]
  refine ⟨by simp, ?_, ?_, ?_, ?_, ?_⟩
  · intro i hi
    simp only [array_step_functions, malloc_step_functions]
    rw [(recursion_step_functions _ t i).2.2 (by simpa using hi)]
    simp only [loop_end_step_analysis]
    rw [loop_step_functions_of_ne _ t i (by simpa using hi)]
    simp
  · simp [(recursion_step_functions _ t _).1, (loop_step_functions _ t _).1]
  · simp only [array_step_functions, malloc_step_functions,
      (recursion_step_functions _ t _).2.1, loop_end_step_analysis]
    have := loop_step_loop_depth_le (brace_step s t) t (s.analysis.total_functions - 1)
    simpa using this
  · intro h
    simp only [array_step_functions, malloc_step_functions]
    refine (recursion_step_flags_mono _ t _).1 ?_
    simp only [loop_end_step_analysis, (loop_step_functions _ t _).2.1, brace_step_analysis]
    exact h
  · intro h
    simp only [array_step_functions, malloc_step_functions]
    refine (recursion_step_flags_mono _ t _).2 ?_
    simp only [loop_end_step_analysis, (loop_step_functions _ t _).2.2, brace_step_analysis]
    exact h

theorem process_line_total_functions_le (s : ScanState) (line : CStr) :
    s.analysis.total_functions ≤ (process_line s line).analysis.total_functions := by
  by_cases hin : s.in_function = true
  · rw [(process_line_inside_frame s line hin).1]
  · rcases process_line_outside s line (by simpa using hin) with h | h
    · rw [h.1]
    · rw [h.1]; omega

theorem process_line_frozen (s : ScanState) (line : CStr) (i : Int)
    (h : i < s.analysis.total_functions - 1 ∨
      (i < s.analysis.total_functions ∧ s.in_function = false)) :
    (process_line s line).analysis.functions i = s.analysis.functions i ∧
    (i < (process_line s line).analysis.total_functions - 1 ∨
      (i < (process_line s line).analysis.total_functions ∧
        (process_line s line).in_function = false)) := by
  by_cases hin : s.in_function = true
  · have hi : i < s.analysis.total_functions - 1 := by
      rcases h with h | h
      · exact h
      · rw [hin] at h; cases h.2
    obtain ⟨a1, a2, _⟩ := process_line_inside_frame s line hin
    exact ⟨a2 i (by omega), Or.inl (by rw [a1]; exact hi)⟩
  · have hout : s.in_function = false := by simpa using hin
    have hi : i < s.analysis.total_functions := by
      rcases h with h | h
      · omega
      · exact h.1
    rcases process_line_outside s line hout with ⟨b1, b2, b3, _⟩ | ⟨b1, _, _, _, b5⟩
    · exact ⟨by rw [b3], Or.inr ⟨by rw [b1]; exact hi, b2⟩⟩
    · exact ⟨b5 i (by omega), Or.inl (by rw [b1]; omega)⟩

theorem scan_from_frozen (lines : List CStr) :
    ∀ (s : ScanState) (i : Int),
      (i < s.analysis.total_functions - 1 ∨
        (i < s.analysis.total_functions ∧ s.in_function = false)) →
      (scan_from s lines).analysis.functions i = s.analysis.functions i := by
  induction lines with
  | nil => intro s i _; rfl
  | cons l ls ih =>
    intro s i h
    obtain ⟨h1, h2⟩ := process_line_frozen s l i h
    exact (ih (process_line s l) i h2).trans h1

/-! ## Lines that start a function and balance their braces -/

theorem count_braces_eq_count (b : Int) (t : CStr) :
    count_braces b t = b + t.count LBRACE - t.count RBRACE := by
  induction t generalizing b with
  | nil => simp [count_braces]
  | cons c cs ih =>
    simp only [count_braces, ih, List.count_cons]
    by_cases h1 : c = LBRACE
    · have h2 : c ≠ RBRACE := by rw [h1]; decide
      simp [h1, h2]
      have : ¬ (LBRACE = RBRACE) := by decide
      simp [this]
      ring
    · by_cases h2 : c = RBRACE
      · simp [h1, h2]
        have : ¬ (RBRACE = LBRACE) := by decide
        simp [this]
        ring
      · simp [h1, h2]

theorem count_trim (c : Char) (line : CStr) (hc : isspace c = false) :
    (trim line).count c = line.count c := by
  induction line with
  | nil => rfl
  | cons x xs ih =>
    by_cases hx : isspace x = true
    · have h1 : trim (x :: xs) = trim xs := by simp [trim, List.dropWhile, hx]
      have hne : x ≠ c := by rintro rfl; rw [hc] at hx; cases hx
      rw [h1, ih, List.count_cons]
      simp [hne]
    · have h1 : trim (x :: xs) = x :: xs := by simp [trim, List.dropWhile, hx]
      rw [h1]

theorem process_line_balanced_start (s : ScanState) (line : CStr)
    (hout : s.in_function = false) (hbc : s.brace_count = 0)
    (hsk : is_skipped (trim line) = false) (hfs : is_function_start (trim line) = true)
    (hbal : line.count LBRACE = line.count RBRACE) :
    (process_line s line).in_function = false ∧
    (process_line s line).brace_count = 0 ∧
    (process_line s line).loop_stack_depth = 0 ∧
    (process_line s line).current_function = [] ∧
    (process_line s line).analysis.total_functions = s.analysis.total_functions + 1 ∧
    (process_line s line).analysis.total_loops = s.analysis.total_loops ∧
    (process_line s line).analysis.max_nested_loops = s.analysis.max_nested_loops ∧
    (process_line s line).analysis.recursive_functions = s.analysis.recursive_functions ∧
    (process_line s line).analysis.functions s.analysis.total_functions =
      { name := scan_name (trim line) s.current_function, is_recursive := false,
        loop_depth := 0, has_recursion := false } ∧
    ∀ i, i ≠ s.analysis.total_functions →
      (process_line s line).analysis.functions i = s.analysis.functions i := by
  have hcb : count_braces 0 (trim line) = 0 := by
    rw [count_braces_eq_count, count_trim _ _ (by decide), count_trim _ _ (by decide), hbal]
    ring
  rw [process_line_of_not_skipped s line hsk]
  generalize trim line = t at hfs hcb
  obtain ⟨f1, _, f3, f4⟩ := function_start_step_of_start s t hout hfs
  have hne := function_start_step_functions_of_ne s t
  have hclose : count_braces (function_start_step s t).brace_count t = 0 := by
    rw [function_start_step_brace_count, hbc]; exact hcb
  rw [brace_step_of_close _ t f1 hclose, loop_step_of_not _ t (by simp)]
  have hr : ∀ u : ScanState, u.in_function = false → recursion_step u t = u :=
    fun u hu => recursion_step_of_not u t (by simp [hu])
  rw [hr _ (by simp)]
  refine ⟨by simp, by simp, ?_, by simp, by simp [f3], by simp, by simp, by simp,
    by simp [f4], fun i hi => by simp [hne i hi]⟩
  simp [loop_end_step_loop_stack_depth]

theorem scan_from_replicate_balanced_start (line : CStr)
    (hsk : is_skipped (trim line) = false) (hfs : is_function_start (trim line) = true)
    (hbal : line.count LBRACE = line.count RBRACE) (n : Nat) :
    ∀ s : ScanState, s.in_function = false → s.brace_count = 0 →
      (scan_from s (List.replicate n line)).in_function = false ∧
      (scan_from s (List.replicate n line)).brace_count = 0 ∧
      (scan_from s (List.replicate n line)).analysis.total_functions =
        s.analysis.total_functions + n := by
  induction n with
  | zero => intro s h1 h2; simp [scan_from, h1, h2]
  | succ n ih =>
    intro s h1 h2
    obtain ⟨a1, a2, _, _, a5, _⟩ := process_line_balanced_start s line h1 h2 hsk hfs hbal
    obtain ⟨b1, b2, b3⟩ := ih (process_line s line) a1 a2
    have hstep : scan_from s (List.replicate (n + 1) line) =
        scan_from (process_line s line) (List.replicate n line) := rfl
    rw [hstep]
    refine ⟨b1, b2, ?_⟩
    rw [b3, a5]
    push_cast
    ring

/-! ## Loop checks on lines that keep the function open -/

theorem process_line_stays_inside (s : ScanState) (line : CStr)
    (hin : s.in_function = true) (hsk : is_skipped (trim line) = false)
    (hcb : count_braces s.brace_count (trim line) ≠ 0) :
    depth_at_loop_check s line =
      s.loop_stack_depth + (if is_loop_start (trim line) = true then 1 else 0) ∧
    (process_line s line).analysis.total_loops =
      s.analysis.total_loops + (if is_loop_start (trim line) = true then 1 else 0) ∧
    (process_line s line).analysis.max_nested_loops =
      (if is_loop_start (trim line) = true
        then max s.analysis.max_nested_loops (s.loop_stack_depth + 1)
        else s.analysis.max_nested_loops) ∧
    ((process_line s line).analysis.functions (s.analysis.total_functions - 1)).loop_depth =
      (if is_loop_start (trim line) = true
        then max (s.analysis.functions (s.analysis.total_functions - 1)).loop_depth
          (s.loop_stack_depth + 1)
        else (s.analysis.functions (s.analysis.total_functions - 1)).loop_depth) ∧
    (process_line s line).loop_stack_depth =
      (if RBRACE ∈ trim line ∧ depth_at_loop_check s line > 0
        then depth_at_loop_check s line - 1 else depth_at_loop_check s line) := by
  unfold depth_at_loop_check
  rw [process_line_of_not_skipped s line hsk]
  generalize trim line = t at hcb
  rw [function_start_step_of_inside s t hin, brace_step_of_open s t hin hcb]
  have hfin : (loop_step { s with brace_count := count_braces s.brace_count t } t).in_function
      = true := by rw [loop_step_in_function]; exact hin
  simp only [array_step_total_loops, malloc_step_total_loops, recursion_step_total_loops,
    loop_end_step_analysis, array_step_max_nested_loops, malloc_step_max_nested_loops,
    recursion_step_max_nested_loops, array_step_functions, malloc_step_functions,
    (recursion_step_functions _ t _).2.1, array_step_loop_stack_depth,
    malloc_step_loop_stack_depth, recursion_step_loop_stack_depth,
    loop_end_step_loop_stack_depth, hfin, true_and]
  by_cases hl : is_loop_start t = true
  · obtain ⟨l1, l2, l3, l4, _⟩ :=
      loop_step_of_loop { s with brace_count := count_braces s.brace_count t } t
        (by simp [hin, hl])
    simp only [hl, if_true]
    exact ⟨l1, l2, l3, l4, trivial⟩
  · rw [loop_step_of_not _ t (by simp [hl])]
    simp [hl]

theorem scan_from_plain_open_lines (mid : List CStr)
    (hmid : ∀ l ∈ mid, RBRACE ∉ l ∧
      (is_skipped (trim l) = true ∨ is_loop_start (trim l) = false)) :
    ∀ (s : ScanState) (b : Int), s.in_function = true → 1 ≤ b → b ≤ s.brace_count →
      (scan_from s mid).in_function = true ∧
      b ≤ (scan_from s mid).brace_count ∧
      (scan_from s mid).loop_stack_depth = s.loop_stack_depth ∧
      (scan_from s mid).analysis.total_loops = s.analysis.total_loops ∧
      (scan_from s mid).analysis.max_nested_loops = s.analysis.max_nested_loops ∧
      (scan_from s mid).analysis.total_functions = s.analysis.total_functions ∧
      ∀ i, ((scan_from s mid).analysis.functions i).loop_depth =
        (s.analysis.functions i).loop_depth := by
  induction mid with
  | nil => intro s b hin _ hb; exact ⟨hin, hb, rfl, rfl, rfl, rfl, fun _ => rfl⟩
  | cons l ls ih =>
    intro s b hin h1 hb
    have hstep : scan_from s (l :: ls) = scan_from (process_line s l) ls := rfl
    have hls := fun l' (h : l' ∈ ls) => hmid l' (by simp [h])
    rw [hstep]
    by_cases hsk : is_skipped (trim l) = true
    · rw [process_line_of_skipped s l hsk]
      exact ih hls s b hin h1 hb
    · have hsk' : is_skipped (trim l) = false := by simpa using hsk
      obtain ⟨hr, hnl⟩ := hmid l (by simp)
      have hnl' : is_loop_start (trim l) = false := by
        rcases hnl with h | h
        · exact absurd h hsk
        · exact h
      have hrt : RBRACE ∉ trim l := fun h => hr (mem_of_mem_trim _ _ h)
      have hge := count_braces_ge s.brace_count (trim l) hrt
      obtain ⟨p1, _, p3, _, p5, _⟩ := process_line_open s l hin (by omega) hr hsk'
      obtain ⟨q1, q2, _⟩ := process_line_inside s l hin hsk' (by omega)
      obtain ⟨g1, g2, g3, g4⟩ := p5 hnl'
      obtain ⟨a1, a2, a3, a4, a5, a6, a7⟩ := ih hls (process_line s l) b p1 h1
        (by rw [q2]; omega)
      exact ⟨a1, a2, by rw [a3, g1], by rw [a4, g2], by rw [a5, g3], by rw [a6, p3],
        fun i => by rw [a7, g4]⟩

theorem do_while_general (s : ScanState) (d w : CStr) (mid : List CStr)
    (hin : s.in_function = true) (hb : 1 ≤ s.brace_count) (hl : 0 ≤ s.loop_stack_depth)
    (hd1 : is_skipped (trim d) = false) (hd2 : is_loop_start (trim d) = true)
    (hd3 : LBRACE ∈ d) (hd4 : RBRACE ∉ d)
    (hmid : ∀ l ∈ mid, RBRACE ∉ l ∧
      (is_skipped (trim l) = true ∨ is_loop_start (trim l) = false))
    (hw1 : is_skipped (trim w) = false) (hw2 : is_loop_start (trim w) = true)
    (hw3 : RBRACE ∈ w) (hw4 : -1 ≤ count_braces 0 (trim w)) :
    (scan_from s (d :: (mid ++ [w]))).analysis.total_loops = s.analysis.total_loops + 2 ∧
    depth_at_loop_check s d = s.loop_stack_depth + 1 ∧
    depth_at_loop_check (scan_from s (d :: mid)) w = depth_at_loop_check s d + 1 ∧
    (scan_from s (d :: (mid ++ [w]))).analysis.max_nested_loops =
      max s.analysis.max_nested_loops (s.loop_stack_depth + 2) ∧
    ((scan_from s (d :: (mid ++ [w]))).analysis.functions
      (s.analysis.total_functions - 1)).loop_depth =
      max (s.analysis.functions (s.analysis.total_functions - 1)).loop_depth
        (s.loop_stack_depth + 2) ∧
    (scan_from s (d :: (mid ++ [w]))).loop_stack_depth = s.loop_stack_depth + 1 ∧
    (scan_from s (d :: (mid ++ [w]))).in_function = true := by
  have hdr : RBRACE ∉ trim d := fun h => hd4 (mem_of_mem_trim _ _ h)
  have hdl : LBRACE ∈ trim d := mem_trim_of_mem _ _ (by decide) hd3
  have hgt := count_braces_gt s.brace_count (trim d) hdl hdr
  obtain ⟨d1, d2, d3, d4, d5⟩ := process_line_stays_inside s d hin hd1 (by omega)
  obtain ⟨e1, e2, _, e4, _⟩ := process_line_inside s d hin hd1 (by omega)
  simp only [hd2, if_true] at d1 d2 d3 d4
  rw [d1, if_neg (fun h => hdr h.1)] at d5
  obtain ⟨m1, m2, m3, m4, m5, m6, m7⟩ :=
    scan_from_plain_open_lines mid hmid (process_line s d) 2 e1 (by decide) (by rw [e2]; omega)
  have hsplit : scan_from s (d :: (mid ++ [w])) =
      process_line (scan_from (process_line s d) mid) w := by
    simp [scan_from, List.foldl_append]
  have hsplit2 : scan_from s (d :: mid) = scan_from (process_line s d) mid := rfl
  have hcw : count_braces (scan_from (process_line s d) mid).brace_count (trim w) ≠ 0 := by
    rw [count_braces_add]; omega
  obtain ⟨w1, w2, w3, w4, w5⟩ :=
    process_line_stays_inside (scan_from (process_line s d) mid) w m1 hw1 hcw
  simp only [hw2, if_true] at w1 w2 w3 w4
  have hwr : RBRACE ∈ trim w := mem_trim_of_mem _ _ (by decide) hw3
  rw [hsplit, hsplit2]
  refine ⟨by rw [w2, m4, d2]; ring, d1, by rw [w1, m3, d5, d1], ?_, ?_, ?_, ?_⟩
  · rw [w3, m5, m3, d3, d5, max_assoc]
    congr 1
    rw [max_eq_right (by omega)]; ring
  · rw [m6, e4] at w4
    rw [w4, m7, d4, m3, d5, max_assoc]
    congr 1
    rw [max_eq_right (by omega)]; ring
  · rw [w5, w1, m3, d5, if_pos ⟨hwr, by omega⟩]; ring
  · exact (process_line_inside _ w m1 hw1 hcw).1

/-! ## The order of the function exit and the checks -/

theorem brace_step_eq_exit_step (s : ScanState) (t : CStr) :
    brace_step s t = exit_step (brace_count_step s t) := by
  by_cases hin : s.in_function = true
  · by_cases hc : count_braces s.brace_count t = 0 <;>
      simp [brace_step, exit_step, brace_count_step, hin, hc]
  · simp [brace_step, exit_step, brace_count_step, hin]

theorem loop_end_step_of_outside (s : ScanState) (t : CStr) (h : s.in_function = false) :
    loop_end_step s t = s := by
  simp [loop_end_step, h]

theorem exit_step_of_outside (s : ScanState) (h : s.in_function = false) : exit_step s = s := by
  simp [exit_step, h]

theorem exit_step_of_open (s : ScanState) (h : s.brace_count ≠ 0) : exit_step s = s := by
  simp [exit_step, h]

theorem process_line_closing (s : ScanState) (line : CStr)
    (hin : s.in_function = true) (hsk : is_skipped (trim line) = false)
    (hcb : count_braces s.brace_count (trim line) = 0) :
    process_line s line =
      array_step
        (malloc_step
          { s with brace_count := 0, in_function := false, current_function := [],
                   loop_stack_depth := 0 }
          (trim line))
        (trim line) := by
  rw [process_line_of_not_skipped s line hsk]
  generalize trim line = t at hcb
  rw [function_start_step_of_inside s t hin, brace_step_of_close s t hin hcb,
    loop_step_of_not _ t (by simp), loop_end_step_of_outside _ t (by simp),
    recursion_step_of_not _ t (by simp)]

theorem exit_step_malloc_array (s : ScanState) (t : CStr) (hin : s.in_function = true)
    (hbc : s.brace_count = 0) :
    exit_step (array_step (malloc_step s t) t) =
      array_step
        (malloc_step
          { s with brace_count := 0, in_function := false, current_function := [],
                   loop_stack_depth := 0 }
          t)
        t := by
  by_cases h1 : is_malloc_call t = true <;> by_cases h2 : is_array_declaration t = true <;>
    simp [exit_step, array_step, malloc_step, h1, h2, hin, hbc]

theorem spec_process_line_eq (s : ScanState) (line : CStr)
    (h : (function_start_step s (trim line)).in_function = true →
      count_braces (function_start_step s (trim line)).brace_count (trim line) = 0 →
      is_loop_start (trim line) = false ∧
      is_recursive_call (trim line) (function_start_step s (trim line)).current_function
        = false) :
    spec_process_line s line = process_line s line := by
  by_cases hsk : is_skipped (trim line) = true
  · simp [spec_process_line, process_line, hsk]
  have hsk' : is_skipped (trim line) = false := by simpa using hsk
  rw [process_line_of_not_skipped s line hsk']
  simp only [spec_process_line, hsk', Bool.false_eq_true, if_false]
  generalize trim line = t at h
  generalize function_start_step s t = s1 at h
  by_cases hin : s1.in_function = true
  swap
  · have hout : s1.in_function = false := by simpa using hin
    have e1 : brace_count_step s1 t = s1 := by simp [brace_count_step, hout]
    rw [e1, brace_step_of_outside s1 t hout]
    exact exit_step_of_outside _ (by simp [hout])
  by_cases hc : count_braces s1.brace_count t = 0
  swap
  · have e1 : brace_count_step s1 t = { s1 with brace_count := count_braces s1.brace_count t } := by
      simp [brace_count_step, hin]
    rw [e1, brace_step_of_open s1 t hin hc]
    exact exit_step_of_open _ (by simpa using hc)
  obtain ⟨hl, hr⟩ := h hin hc
  have e1 : brace_count_step s1 t = { s1 with brace_count := 0 } := by
    simp [brace_count_step, hin, hc]
  rw [e1, brace_step_of_close s1 t hin hc]
  have hB1 : loop_step { s1 with brace_count := 0 } t = { s1 with brace_count := 0 } :=
    loop_step_of_not _ t (by simp [hl])
  have hB3 : recursion_step (loop_end_step { s1 with brace_count := 0 } t) t =
      loop_end_step { s1 with brace_count := 0 } t :=
    recursion_step_of_not _ t (by simp [hr])
  have hE1 : loop_step
      { s1 with brace_count := 0, in_function := false, current_function := [],
                loop_stack_depth := 0 } t =
      { s1 with brace_count := 0, in_function := false, current_function := [],
                loop_stack_depth := 0 } :=
    loop_step_of_not _ t rfl
  have hE2 : loop_end_step
      { s1 with brace_count := 0, in_function := false, current_function := [],
                loop_stack_depth := 0 } t =
      { s1 with brace_count := 0, in_function := false, current_function := [],
                loop_stack_depth := 0 } :=
    loop_end_step_of_outside _ t rfl
  have hE3 : recursion_step
      { s1 with brace_count := 0, in_function := false, current_function := [],
                loop_stack_depth := 0 } t =
      { s1 with brace_count := 0, in_function := false, current_function := [],
                loop_stack_depth := 0 } :=
    recursion_step_of_not _ t rfl
  rw [hB1, hB3, hE1, hE2, hE3, exit_step_malloc_array _ t (by simp [hin]) (by simp)]
  simp only [loop_end_step_analysis, loop_end_step_current_function,
    loop_end_step_in_function, loop_end_step_brace_count]

/-! ## The name taken from a function-start line -/

theorem run_split (p : Char → Bool) (l : CStr) :
    l = l.takeWhile p ++ l.dropWhile p ∧
    (∀ c ∈ l.takeWhile p, p c = true) ∧
    (∀ c, (l.dropWhile p).head? = some c → p c = false) := by
  refine ⟨(List.takeWhile_append_dropWhile p l).symm, fun c hc => List.mem_takeWhile_imp hc, ?_⟩
  intro c hc
  have := List.head?_dropWhile_not p l
  rw [hc] at this
  exact this

theorem takeWhile_ne_nil (p : Char → Bool) (l : CStr) (c : Char) (h : l.head? = some c)
    (hp : p c = true) : l.takeWhile p ≠ [] := by
  cases l with
  | nil => cases h
  | cons x xs =>
    simp only [List.head?_cons, Option.some.injEq] at h
    subst h
    simp [List.takeWhile, hp]

theorem dropWhile_ne_nil (p : Char → Bool) (l : CStr) (c : Char) (h : c ∈ l)
    (hp : p c = false) : l.dropWhile p ≠ [] := by
  intro e
  have := (List.dropWhile_eq_nil_iff.1 e) c h
  rw [hp] at this
  cases this

theorem head_of_ne_nil (l : CStr) (h : l ≠ []) : ∃ c, l.head? = some c := by
  cases l with
  | nil => exact absurd rfl h
  | cons x xs => exact ⟨x, rfl⟩

theorem mem_dropWhile_of_mem (p : Char → Bool) (l : CStr) (c : Char) (h : c ∈ l)
    (hp : p c = false) : c ∈ l.dropWhile p := by
  induction l with
  | nil => cases h
  | cons x xs ih =>
    by_cases hx : p x = true
    · rw [List.dropWhile_cons_of_pos hx]
      rcases List.mem_cons.1 h with e | e
      · subst e; rw [hp] at hx; cases hx
      · exact ih e
    · rw [List.dropWhile_cons_of_neg hx]; exact h

theorem trim_head_not_space (line : CStr) (c : Char) (h : (trim line).head? = some c) :
    isspace c = false :=
  (run_split isspace line).2.2 c h

theorem sscanf_second_token_of_function_start (line : CStr)
    (hfs : is_function_start (trim line) = true) :
    ∃ first ws token rest,
      trim line = first ++ ws ++ token ++ rest ∧
      first ≠ [] ∧ (∀ c ∈ first, isspace c = false) ∧
      ws ≠ [] ∧ (∀ c ∈ ws, isspace c = true) ∧
      token ≠ [] ∧ (∀ c ∈ token, isspace c = false) ∧
      (∀ c, rest.head? = some c → isspace c = true) ∧
      sscanf_second_token (trim line) = some token := by
  obtain ⟨pre, post, e, _, sp, hsp, hspace⟩ := (is_function_start_iff _).1 hfs
  have hparen : '(' ∈ trim line := by rw [e]; simp
  have hspm : sp ∈ trim line := by rw [e]; simp [hsp]
  have hne : trim line ≠ [] := List.ne_nil_of_mem hparen
  obtain ⟨c0, hc0⟩ := head_of_ne_nil _ hne
  have hc0s := trim_head_not_space line c0 hc0
  have hidem : (trim line).dropWhile isspace = trim line := by
    unfold trim; exact List.dropWhile_idempotent _ _
  generalize trim line = t at *
  obtain ⟨s1, s2, s3⟩ := run_split (fun c => !isspace c) t
  obtain ⟨u1, u2, u3⟩ := run_split isspace (t.dropWhile (fun c => !isspace c))
  obtain ⟨v1, v2, v3⟩ := run_split (fun c => !isspace c)
    ((t.dropWhile (fun c => !isspace c)).dropWhile isspace)
  have hfirst : t.takeWhile (fun c => !isspace c) ≠ [] :=
    takeWhile_ne_nil _ t c0 hc0 (by simp [hc0s])
  have hr1 : t.dropWhile (fun c => !isspace c) ≠ [] :=
    dropWhile_ne_nil _ t sp hspm (by simp [hspace])
  obtain ⟨c1, hc1⟩ := head_of_ne_nil _ hr1
  have hc1s : isspace c1 = true := by simpa using s3 c1 hc1
  have hws : (t.dropWhile (fun c => !isspace c)).takeWhile isspace ≠ [] :=
    takeWhile_ne_nil _ _ c1 hc1 hc1s
  have hp1 : '(' ∈ t.dropWhile (fun c => !isspace c) := by
    -- the first space of `t` stands before its first parenthesis
    rw [e]
    have hd : (pre ++ '(' :: post).dropWhile (fun c => !isspace c) =
        pre.dropWhile (fun c => !isspace c) ++ '(' :: post := by
      rw [List.dropWhile_append]
      have : pre.dropWhile (fun c => !isspace c) ≠ [] :=
        dropWhile_ne_nil _ pre sp hsp (by simp [hspace])
      simp [this]
    rw [hd]; simp
  have hr2 : (t.dropWhile (fun c => !isspace c)).dropWhile isspace ≠ [] :=
    dropWhile_ne_nil _ _ '(' hp1 (by decide)
  obtain ⟨c2, hc2⟩ := head_of_ne_nil _ hr2
  have hc2s : isspace c2 = false := u3 c2 hc2
  have htok : ((t.dropWhile (fun c => !isspace c)).dropWhile isspace).takeWhile
      (fun c => !isspace c) ≠ [] :=
    takeWhile_ne_nil _ _ c2 hc2 (by simp [hc2s])
  refine ⟨_, _, _, _, ?_, hfirst, fun c hc => by simpa using s2 c hc, hws, u2, htok,
    fun c hc => by simpa using v2 c hc, fun c hc => by simpa using v3 c hc, ?_⟩
  · rw [List.append_assoc, List.append_assoc, ← v1, ← u1, ← s1]
  · unfold sscanf_second_token
    rw [hidem]
    simp [hne, htok]

theorem strtok_paren_split (token : CStr) (hne : token ≠ []) :
    ∃ parens body tail,
      token = parens ++ body ++ tail ∧ (∀ c ∈ parens, c = '(') ∧ '(' ∉ body ∧
      (∀ c, tail.head? = some c → c = '(') ∧ (body = [] → tail = []) ∧
      strtok_paren token = parens ++ body ∧ parens ++ body ≠ [] := by
  obtain ⟨a1, a2, a3⟩ := run_split (fun c => c == '(') token
  obtain ⟨b1, b2, b3⟩ := run_split (fun c => c != '(') (token.dropWhile (fun c => c == '('))
  have hbody : (token.dropWhile (fun c => c == '(')).takeWhile (fun c => c != '(') = [] →
      token.dropWhile (fun c => c == '(') = [] := by
    intro h
    by_contra hn
    obtain ⟨c, hc⟩ := head_of_ne_nil _ hn
    have : (fun c => c != '(') c = true := by
      have := a3 c hc
      simpa using this
    exact takeWhile_ne_nil _ _ c hc this h
  refine ⟨_, _, _, ?_, fun c hc => by simpa using a2 c hc, fun hm => by simpa using b2 _ hm,
    fun c hc => by simpa using b3 c hc, ?_, rfl, ?_⟩
  · rw [List.append_assoc, ← b1, ← a1]
  · intro h
    have h0 := hbody h
    rw [h0]
    rfl
  · intro h
    obtain ⟨h1, h2⟩ := List.append_eq_nil.1 h
    have h3 := hbody h2
    rw [h1, h3] at a1
    exact hne (by simpa using a1)

/-! ## Facts used by single claims -/

theorem analyze_lines_inv (lines : List CStr) : ScanInv (scan_from ScanState.init lines) :=
  scan_from_inv lines ScanState.init ScanInv_init

set_option maxRecDepth 8000 in
theorem fib_counted_once :
    (analyze_lines ["int fib(int n) \x7b\n".toList, "    if (n < 2) return n;\n".toList,
      "    int a = fib(n - 1);\n".toList, "    int b = fib(n - 2);\n".toList,
      "    return a + b;\n".toList, "\x7d\n".toList]).recursive_functions = 1 := by
  decide

theorem polynomialLine_ne (d : Int) :
    polynomialLine d ≠ constantLine ∧ polynomialLine d ≠ linearLine := by
  constructor <;> simp [polynomialLine, constantLine, linearLine]

theorem scan_from_append_cons (s : ScanState) (before rest : List CStr) (line : CStr) :
    scan_from s (before ++ line :: rest) =
      scan_from (process_line (scan_from s before) line) rest := by
  simp [scan_from, List.foldl_append]

set_option maxRecDepth 100000 in
theorem fifty_one_prototypes :
    ((analyze_lines (List.replicate 51 "int f(int n);\n".toList)).functions 50) =
      { name := "f".toList, is_recursive := false, loop_depth := 0, has_recursion := false } ∧
    ((analyze_lines (List.replicate 50 "int f(int n);\n".toList)).functions 50) =
      { name := [], is_recursive := false, loop_depth := 0, has_recursion := false } := by
  decide

theorem process_line_start_name (s : ScanState) (line : CStr)
    (hout : s.in_function = false) (hsk : is_skipped (trim line) = false)
    (hfs : is_function_start (trim line) = true) :
    (process_line s line).analysis.total_functions = s.analysis.total_functions + 1 ∧
    ((process_line s line).analysis.functions s.analysis.total_functions).name =
      scan_name (trim line) s.current_function ∧
    (function_start_step s (trim line)).current_function =
      scan_name (trim line) s.current_function ∧
    (count_braces s.brace_count (trim line) ≠ 0 →
      (process_line s line).current_function = scan_name (trim line) s.current_function) := by
  rw [process_line_of_not_skipped s line hsk]
  generalize trim line = t at hfs
  obtain ⟨f1, f2, f3, f4⟩ := function_start_step_of_start s t hout hfs
  refine ⟨by simp [f3], ?_, f2, fun hc => ?_⟩
  · simp [(recursion_step_functions _ t _).1, (loop_step_functions _ t _).1, f4]
  · simp only [array_step_current_function, malloc_step_current_function,
      recursion_step_current_function, loop_end_step_current_function,
      loop_step_current_function]
    rw [brace_step_of_open _ t f1 (by rw [function_start_step_brace_count]; exact hc)]
    exact f2

theorem scan_from_append (s : ScanState) (before rest : List CStr) :
    scan_from s (before ++ rest) = scan_from (scan_from s before) rest := by
  simp [scan_from, List.foldl_append]

theorem scan_name_ne_nil (line cur : CStr) (hfs : is_function_start (trim line) = true) :
    scan_name (trim line) cur ≠ [] := by
  obtain ⟨_, _, token, _, _, _, _, _, _, a5, _, _, a8⟩ :=
    sscanf_second_token_of_function_start line hfs
  obtain ⟨_, _, _, _, _, _, _, _, b6, b7⟩ := strtok_paren_split token a5
  unfold scan_name
  rw [a8]
  show strtok_paren token ≠ []
  rw [b6]
  exact b7

theorem process_line_open_header (s : ScanState) (line : CStr)
    (hout : s.in_function = false) (hbc : s.brace_count = 0)
    (hsk : is_skipped (trim line) = false) (hfs : is_function_start (trim line) = true)
    (hl : LBRACE ∈ line) (hcb : count_braces 0 (trim line) ≠ 0) :
    (process_line s line).in_function = true ∧
    (process_line s line).brace_count = count_braces 0 (trim line) ∧
    (process_line s line).analysis.total_functions = s.analysis.total_functions + 1 ∧
    (process_line s line).current_function = scan_name (trim line) s.current_function ∧
    (process_line s line).analysis.recursive_functions = s.analysis.recursive_functions ∧
    ((process_line s line).analysis.functions s.analysis.total_functions).name =
      scan_name (trim line) s.current_function ∧
    ((process_line s line).analysis.functions s.analysis.total_functions).is_recursive = false ∧
    ((process_line s line).analysis.functions s.analysis.total_functions).has_recursion
      = false := by
  have hlt : LBRACE ∈ trim line := mem_trim_of_mem _ _ (by decide) hl
  rw [process_line_of_not_skipped s line hsk]
  generalize trim line = t at hlt hfs hcb
  obtain ⟨f1, f2, f3, f4⟩ := function_start_step_of_start s t hout hfs
  have hcb1 : count_braces (function_start_step s t).brace_count t ≠ 0 := by
    simpa [hbc] using hcb
  rw [brace_step_of_open _ t f1 hcb1]
  have hrec : ∀ u : ScanState, recursion_step u t = u := fun u =>
    recursion_step_of_not u t (by simp [is_recursive_call_of_brace t _ hlt])
  simp only [hrec]
  simp only [function_start_step_brace_count]
  refine ⟨by simp [f1], by simp [hbc], by simp [f3], by simp [f2], by simp, ?_, ?_, ?_⟩
  · simp [(loop_step_functions _ t _).1, f4]
  · simp [(loop_step_functions _ t _).2.1, f4]
  · simp [(loop_step_functions _ t _).2.2, f4]

theorem scan_from_open_header_call (s : ScanState) (header : CStr) (lines : List CStr)
    (hout : s.in_function = false) (hbc : s.brace_count = 0)
    (hsk : is_skipped (trim header) = false) (hfs : is_function_start (trim header) = true)
    (hl : LBRACE ∈ header)
    (hopen : stays_open 0 (header :: lines) = true)
    (hcall : ∃ l ∈ lines, is_skipped (trim l) = false ∧
      is_recursive_call (trim l) (scan_name (trim header) s.current_function) = true) :
    (scan_from s (header :: lines)).in_function = true ∧
    (scan_from s (header :: lines)).analysis.total_functions = s.analysis.total_functions + 1 ∧
    ((scan_from s (header :: lines)).analysis.functions s.analysis.total_functions).name =
      scan_name (trim header) s.current_function ∧
    ((scan_from s (header :: lines)).analysis.functions s.analysis.total_functions).is_recursive
      = true ∧
    ((scan_from s (header :: lines)).analysis.functions s.analysis.total_functions).has_recursion
      = true ∧
    (scan_from s (header :: lines)).analysis.recursive_functions =
      s.analysis.recursive_functions + 1 := by
  have hopen1 : count_braces 0 (trim header) ≠ 0 ∧
      stays_open (count_braces 0 (trim header)) lines = true := by
    simpa [stays_open, hsk] using hopen
  obtain ⟨p1, p2, p4, p5, p6, p7, p8, p9⟩ :=
    process_line_open_header s header hout hbc hsk hfs hl hopen1.1
  have hstep : scan_from s (header :: lines) = scan_from (process_line s header) lines := rfl
  have hlast : (process_line s header).analysis.total_functions - 1 =
      s.analysis.total_functions := by
    rw [p4]; ring
  obtain ⟨a1, _, a3, a4, a5, a6, a7⟩ := scan_from_inside lines (process_line s header) p1
    (by rw [p2]; exact hopen1.2) (by rw [hlast, p8, p9])
  rw [hlast] at a5 a6 a7
  rw [p5] at a6
  have hrec := a6 (Or.inr hcall)
  rw [hstep]
  refine ⟨a1, by rw [a3, p4], by rw [a4, p7], hrec, by rw [a5, hrec], ?_⟩
  rw [a7, hrec, p8, p6]
  simp

theorem self_call_in_scan (pre : List CStr) (header call : CStr) (body : List CStr)
    (hout : (scan_from ScanState.init pre).in_function = false)
    (hsk : is_skipped (trim header) = false) (hfs : is_function_start (trim header) = true)
    (hl : LBRACE ∈ header)
    (hopen : stays_open 0 (header :: (body ++ [call])) = true)
    (hcsk : is_skipped (trim call) = false) (hcb : LBRACE ∉ call)
    (hocc : ∃ before ws after,
      trim call = before ++ scan_name (trim header) [] ++ ws ++ '(' :: after ∧
      (∀ c ∈ ws, isspace c = true) ∧
      ∀ before1 after1, trim call = before1 ++ scan_name (trim header) [] ++ after1 →
        before.length ≤ before1.length) :
    (scan_from ScanState.init (pre ++ header :: (body ++ [call]))).analysis.total_functions =
      (scan_from ScanState.init pre).analysis.total_functions + 1 ∧
    ((scan_from ScanState.init (pre ++ header :: (body ++ [call]))).analysis.functions
      (scan_from ScanState.init pre).analysis.total_functions).name =
        scan_name (trim header) [] ∧
    ((scan_from ScanState.init (pre ++ header :: (body ++ [call]))).analysis.functions
      (scan_from ScanState.init pre).analysis.total_functions).is_recursive = true ∧
    ((scan_from ScanState.init (pre ++ header :: (body ++ [call]))).analysis.functions
      (scan_from ScanState.init pre).analysis.total_functions).has_recursion = true ∧
    (scan_from ScanState.init (pre ++ header :: (body ++ [call]))).analysis.recursive_functions =
      (scan_from ScanState.init pre).analysis.recursive_functions + 1 := by
  obtain ⟨hbc, _, hcur⟩ := (analyze_lines_inv pre).outside hout
  have hcall : is_recursive_call (trim call)
      (scan_name (trim header) (scan_from ScanState.init pre).current_function) = true := by
    rw [hcur]
    exact (is_recursive_call_iff _ _).2
      ⟨scan_name_ne_nil header [] hfs, hocc, fun h => hcb (mem_of_mem_trim _ _ h)⟩
  obtain ⟨_, g2, g3, g4, g5, g6⟩ := scan_from_open_header_call (scan_from ScanState.init pre)
    header (body ++ [call]) hout hbc hsk hfs hl hopen ⟨call, by simp, hcsk, hcall⟩
  rw [hcur] at g3
  rw [scan_from_append]
  exact ⟨g2, g3, g4, g5, g6⟩

theorem do_while_in_scan (pre : List CStr) (d w : CStr) (mid : List CStr)
    (hin : (scan_from ScanState.init pre).in_function = true)
    (hb : 1 ≤ (scan_from ScanState.init pre).brace_count)
    (hd1 : is_skipped (trim d) = false) (hd2 : is_loop_start (trim d) = true)
    (hd3 : LBRACE ∈ d) (hd4 : RBRACE ∉ d)
    (hmid : ∀ l ∈ mid, RBRACE ∉ l ∧
      (is_skipped (trim l) = true ∨ is_loop_start (trim l) = false))
    (hw1 : is_skipped (trim w) = false) (hw2 : is_loop_start (trim w) = true)
    (hw3 : RBRACE ∈ w) (hw4 : -1 ≤ count_braces 0 (trim w)) :
    (scan_from ScanState.init (pre ++ d :: (mid ++ [w]))).analysis.total_loops =
      (scan_from ScanState.init pre).analysis.total_loops + 2 ∧
    depth_at_loop_check (scan_from ScanState.init pre) d =
      (scan_from ScanState.init pre).loop_stack_depth + 1 ∧
    depth_at_loop_check (scan_from ScanState.init (pre ++ d :: mid)) w =
      depth_at_loop_check (scan_from ScanState.init pre) d + 1 ∧
    (scan_from ScanState.init (pre ++ d :: (mid ++ [w]))).analysis.max_nested_loops =
      max (scan_from ScanState.init pre).analysis.max_nested_loops
        ((scan_from ScanState.init pre).loop_stack_depth + 2) ∧
    ((scan_from ScanState.init (pre ++ d :: (mid ++ [w]))).analysis.functions
      ((scan_from ScanState.init pre).analysis.total_functions - 1)).loop_depth =
      max ((scan_from ScanState.init pre).analysis.functions
          ((scan_from ScanState.init pre).analysis.total_functions - 1)).loop_depth
        ((scan_from ScanState.init pre).loop_stack_depth + 2) ∧
    (scan_from ScanState.init (pre ++ d :: (mid ++ [w]))).loop_stack_depth =
      (scan_from ScanState.init pre).loop_stack_depth + 1 ∧
    (scan_from ScanState.init (pre ++ d :: (mid ++ [w]))).in_function = true := by
  obtain ⟨g1, g2, g3, g4, g5, g6, g7⟩ := do_while_general (scan_from ScanState.init pre) d w mid
    hin hb (analyze_lines_inv pre).depth_nonneg hd1 hd2 hd3 hd4 hmid hw1 hw2 hw3 hw4
  rw [scan_from_append, scan_from_append]
  exact ⟨g1, g2, g3, g4, g5, g6, g7⟩

/-! ## The claims -/

/-- Claim C1. `estimate_complexity` is a decision table over the counters. The
recursion line is printed exactly when `recursive_functions > 0`. The output is
the time header, the recursion line when due, one loop-based line `t`, the
space header and one space line `sp`, and these are the only loop-based and
space lines printed. The line `t` is polynomial of degree `max_nested_loops`
when `max_nested_loops >= 3`, quadratic when it is 2, linear when it is below 2
and `total_loops > 0`, constant otherwise. The line `sp` is "O(n) or worse"
when there is an allocation or array and recursion, "O(n)" when there is an
allocation or array and no recursion, "O(1)" when there is neither. The stored
`functions` play no part. -/
theorem estimate_complexity_decision_table (a : CodeAnalysis) :
    (exponentialLine ∈ estimate_complexity a ↔ a.recursive_functions > 0) ∧
    (∃ t sp,
      estimate_complexity a = timeHeader ::
        ((if a.recursive_functions > 0 then [exponentialLine] else []) ++
          [t, spaceHeader, sp]) ∧
      (estimate_complexity a).filter is_loop_line = [t] ∧
      (estimate_complexity a).filter is_space_line = [sp] ∧
      (a.max_nested_loops ≥ 3 → t = polynomialLine a.max_nested_loops) ∧
      (a.max_nested_loops = 2 → t = quadraticLine) ∧
      (a.max_nested_loops < 2 → a.total_loops > 0 → t = linearLine) ∧
      (a.max_nested_loops < 2 → ¬ a.total_loops > 0 → t = constantLine) ∧
      ((a.malloc_calls > 0 ∨ a.array_declarations > 0) → a.recursive_functions > 0 →
        sp = spaceWorseLine) ∧
      ((a.malloc_calls > 0 ∨ a.array_declarations > 0) → ¬ a.recursive_functions > 0 →
        sp = spaceLinearLine) ∧
      (¬ a.malloc_calls > 0 → ¬ a.array_declarations > 0 → sp = spaceConstantLine)) ∧
    (∀ f, estimate_complexity { a with functions := f } = estimate_complexity a) := by
  obtain ⟨t, sp, he, ht, hs, h1, h2, h3, h4, h5, h6, h7⟩ := estimate_complexity_shape a
  have hte : t ≠ exponentialLine := by rintro rfl; revert ht; decide
  have hspe : sp ≠ exponentialLine := by rintro rfl; revert hs; decide
  have hts : is_space_line t = false := loop_line_not_space t ht
  have hst : is_loop_line sp = false := space_line_not_loop sp hs
  refine ⟨?_, ⟨t, sp, he, ?_, ?_, h1, h2, h3, h4, h5, h6, h7⟩, fun _ => rfl⟩
  · rw [he]
    by_cases hr : a.recursive_functions > 0
    · simp [hr]
    · simp only [hr, if_false, List.nil_append, List.mem_cons, List.mem_singleton, iff_false]
      have : exponentialLine ≠ timeHeader := by decide
      have : exponentialLine ≠ spaceHeader := by decide
      simp [*, Ne.symm hte, Ne.symm hspe]
  · rw [he]
    by_cases hr : a.recursive_functions > 0 <;>
      simp [hr, List.filter_cons, ht, hst, show is_loop_line timeHeader = false by decide,
        show is_loop_line spaceHeader = false by decide,
        show is_loop_line exponentialLine = false by decide]
  · rw [he]
    by_cases hr : a.recursive_functions > 0 <;>
      simp [hr, List.filter_cons, hs, hts, show is_space_line timeHeader = false by decide,
        show is_space_line spaceHeader = false by decide,
        show is_space_line exponentialLine = false by decide]

/-- Claim C2, as the code has it. `is_recursive_call line name` is true exactly
when the name is non-empty, the FIRST occurrence of the name in the line is
followed, after optional whitespace, by an opening parenthesis, and the line
contains no opening brace. For the empty name it is false. -/
theorem is_recursive_call_first_occurrence (line func_name : CStr) :
    (is_recursive_call line func_name = true ↔
      func_name ≠ [] ∧
      (∃ before ws after, line = before ++ func_name ++ ws ++ '(' :: after ∧
        (∀ c ∈ ws, isspace c = true) ∧
        ∀ before1 after1, line = before1 ++ func_name ++ after1 →
          before.length ≤ before1.length) ∧
      LBRACE ∉ line) ∧
    is_recursive_call line [] = false :=
  ⟨is_recursive_call_iff line func_name, rfl⟩

/-- Claim C2 fails as stated. In `int factor = n * fact(n - 1);` the name
`fact` occurs followed by an opening parenthesis and the line has no opening
brace, yet `is_recursive_call` is false: it only looks at the first occurrence
of `fact`, the one inside `factor`. -/
theorem is_recursive_call_misses_later_occurrence :
    is_recursive_call "int factor = n * fact(n - 1);\n".toList "fact".toList = false ∧
    "fact".toList ≠ [] ∧
    (∃ before ws after,
      "int factor = n * fact(n - 1);\n".toList = before ++ "fact".toList ++ ws ++ '(' :: after ∧
      ∀ c ∈ ws, isspace c = true) ∧
    LBRACE ∉ "int factor = n * fact(n - 1);\n".toList :=
  ⟨by decide, by decide,
    ⟨"int factor = n * ".toList, [], "n - 1);\n".toList, by decide, by simp⟩, by decide⟩

/-- Claim C3. `is_function_start line` is true exactly when the line contains
an opening parenthesis and a whitespace character occurs before the first
one. It is true for `int foo(` and `if (x)`, false for `foo(` and for every line
without an opening parenthesis. -/
theorem is_function_start_spec :
    (∀ line : CStr, is_function_start line = true ↔
      ∃ before after, line = before ++ '(' :: after ∧ '(' ∉ before ∧
        ∃ c ∈ before, isspace c = true) ∧
    is_function_start "int foo(".toList = true ∧
    is_function_start "if (x)".toList = true ∧
    is_function_start "foo(".toList = false ∧
    (∀ line : CStr, '(' ∉ line → is_function_start line = false) :=
  ⟨is_function_start_iff, by decide, by decide, by decide, is_function_start_of_no_paren⟩

/-- Claim C4, as the code has it. `is_array_declaration line` is true exactly
when the line contains a `[`, a `]` follows it, and at least one non-whitespace
character stands between the line's FIRST `[` and the first `]` after it. It is
true for `int arr[10];` and `int x = a[i];`, false for `int a[];` and
`int a[  ];`. -/
theorem is_array_declaration_first_brackets :
    (∀ line : CStr, is_array_declaration line = true ↔
      ∃ before mid after, line = before ++ '[' :: mid ++ ']' :: after ∧
        '[' ∉ before ∧ ']' ∉ mid ∧ ∃ c ∈ mid, isspace c = false) ∧
    is_array_declaration "int arr[10];".toList = true ∧
    is_array_declaration "int x = a[i];".toList = true ∧
    is_array_declaration "int a[];".toList = false ∧
    is_array_declaration "int a[  ];".toList = false :=
  ⟨is_array_declaration_iff, by decide, by decide, by decide, by decide⟩

/-- Claim C4 fails as stated. The line `void f(int a[], int b[10]);` contains
a `[` and a later `]` with the non-whitespace characters `10` between them, yet
`is_array_declaration` is false: it only looks at the first `[` and the first
`]` after it, which enclose nothing. -/
theorem is_array_declaration_misses_later_brackets :
    is_array_declaration "void f(int a[], int b[10]);\n".toList = false ∧
    ∃ before mid after,
      "void f(int a[], int b[10]);\n".toList = before ++ '[' :: mid ++ ']' :: after ∧
      ∃ c ∈ mid, isspace c = false :=
  ⟨by decide, "void f(int a[], int b".toList, "10".toList, ");\n".toList, by decide,
    '1', by decide, by decide⟩

/-- Claim C5. `is_loop_start line` is true exactly when the line contains one
of the six substrings `for(`, `for (`, `while(`, `while (`, `do` + brace,
`do ` + brace. An identifier or a string literal that contains one of them
matches as well. -/
theorem is_loop_start_spec :
    (∀ line : CStr, is_loop_start line = true ↔
      ∃ needle ∈ loop_start_substrings, Contains line needle) ∧
    is_loop_start "x = wait_for(ready);\n".toList = true ∧
    is_loop_start "puts(\x22while (\x22);\n".toList = true ∧
    is_loop_start "x = format(y);\n".toList = false := by
  refine ⟨fun line => ?_, by decide, by decide, by decide⟩
  simp only [is_loop_start, Bool.or_eq_true, strstr_isSome_iff, loop_start_substrings,
    Contains, List.mem_cons, List.mem_singleton, List.not_mem_nil, or_false, exists_eq_or_imp,
    exists_eq_left, or_assoc]

/-- Claim C6, as the code has it. Scan, from a zeroed analysis, a file made of
a header line, then lines `mid` without a closing brace, then lines `tail` none
of which is a non-skipped loop-start line. The header is a non-skipped
function-start line with an opening brace and no closing brace, and is not
itself matched by the loop-start test. With `k` the number of non-skipped
loop-start lines of `mid` (the loop headers, nested `k` deep), the scan ends
with `total_loops = k`, `max_nested_loops = k` and `loop_depth = k` for the
function, and the loop-based line is linear for `k = 1`, quadratic for `k = 2`
and polynomial of degree `k` for `k >= 3`. -/
theorem nested_loops_counted (header : CStr) (mid tail : List CStr)
    (hsk : is_skipped (trim header) = false)
    (hfs : is_function_start (trim header) = true)
    (hlb : LBRACE ∈ header) (hrb : RBRACE ∉ header)
    (hnl : is_loop_start (trim header) = false)
    (hmid : ∀ l ∈ mid, RBRACE ∉ l)
    (htail : ∀ l ∈ tail, is_skipped (trim l) = true ∨ is_loop_start (trim l) = false) :
    (analyze_lines (header :: (mid ++ tail))).total_loops = count_lines is_loop_start mid ∧
    (analyze_lines (header :: (mid ++ tail))).max_nested_loops = count_lines is_loop_start mid ∧
    ((analyze_lines (header :: (mid ++ tail))).functions 0).loop_depth =
      count_lines is_loop_start mid ∧
    (count_lines is_loop_start mid = 1 →
      (estimate_complexity (analyze_lines (header :: (mid ++ tail)))).filter is_loop_line =
        [linearLine]) ∧
    (count_lines is_loop_start mid = 2 →
      (estimate_complexity (analyze_lines (header :: (mid ++ tail)))).filter is_loop_line =
        [quadraticLine]) ∧
    (3 ≤ count_lines is_loop_start mid →
      (estimate_complexity (analyze_lines (header :: (mid ++ tail)))).filter is_loop_line =
        [polynomialLine (count_lines is_loop_start mid)]) := by
  have hsplit : analyze_lines (header :: (mid ++ tail)) =
      (scan_from (scan_from (process_line ScanState.init header) mid) tail).analysis := by
    simp [analyze_lines, scan_from, List.foldl_append]
  obtain ⟨p1, _, p2, p3, _, _, _, _, _, p6⟩ :=
    process_line_header ScanState.init header rfl rfl hsk hfs hlb hrb
  obtain ⟨q1, q2, q3, q4⟩ := p6 hnl
  have htf : (process_line ScanState.init header).analysis.total_functions = 1 := by
    rw [p3]; rfl
  obtain ⟨m1, m2, m3, m4⟩ := scan_from_open_lines mid hmid (process_line ScanState.init header) 0
    p1 p2 (by rw [q1]; rfl) (by rw [q3]; rfl) (by rw [htf]; exact q4)
  obtain ⟨t1, t2, t3, t4⟩ := scan_from_no_loop tail htail
    (scan_from (process_line ScanState.init header) mid)
  rw [htf] at m1 m4
  have e1 : (analyze_lines (header :: (mid ++ tail))).total_loops =
      count_lines is_loop_start mid := by
    rw [hsplit, t1, m2, q2]; simp [ScanState.init, CodeAnalysis.zero]
  have e2 : (analyze_lines (header :: (mid ++ tail))).max_nested_loops =
      count_lines is_loop_start mid := by
    rw [hsplit, t2, m3]; simp
  have e3 : ((analyze_lines (header :: (mid ++ tail))).functions 0).loop_depth =
      count_lines is_loop_start mid := by
    rw [hsplit, t4 0 (by rw [m1]; decide)]
    simpa using m4
  refine ⟨e1, e2, e3, ?_, ?_, ?_⟩
  · intro hk
    rw [estimate_complexity_loop_lines, e1, e2, hk]
    rfl
  · intro hk
    rw [estimate_complexity_loop_lines, e2, hk]
    rfl
  · intro hk
    rw [estimate_complexity_loop_lines, e2]
    have : ((count_lines is_loop_start mid : Nat) : Int) ≥ 3 := by exact_mod_cast hk
    rw [if_pos this]

/-- Claim C6 at `k = 1` and at `k = 3`: one `for` loop gives `total_loops = 1`,
`max_nested_loops = 1`, `loop_depth = 1` and the linear line; three nested `for`
loops give `max_nested_loops = 3` and the polynomial line of degree 3. -/
theorem nested_loops_counted_witness :
    ((analyze_lines ["void f(int n) \x7b\n".toList,
        "    for (int i = 0; i < n; i++) \x7b\n".toList,
        "        n--;\n".toList, "    \x7d\n".toList, "\x7d\n".toList]).total_loops = 1 ∧
      (analyze_lines ["void f(int n) \x7b\n".toList,
        "    for (int i = 0; i < n; i++) \x7b\n".toList,
        "        n--;\n".toList, "    \x7d\n".toList, "\x7d\n".toList]).max_nested_loops = 1 ∧
      ((analyze_lines ["void f(int n) \x7b\n".toList,
        "    for (int i = 0; i < n; i++) \x7b\n".toList,
        "        n--;\n".toList, "    \x7d\n".toList, "\x7d\n".toList]).functions 0).loop_depth
          = 1 ∧
      (estimate_complexity (analyze_lines ["void f(int n) \x7b\n".toList,
        "    for (int i = 0; i < n; i++) \x7b\n".toList,
        "        n--;\n".toList, "    \x7d\n".toList, "\x7d\n".toList])).filter is_loop_line =
          [linearLine]) ∧
    ((analyze_lines ["void g(int n) \x7b\n".toList,
        "for (int i = 0; i < n; i++) \x7b\n".toList, "for (int j = 0; j < n; j++) \x7b\n".toList,
        "for (int k = 0; k < n; k++) \x7b\n".toList, "n--;\n".toList, "\x7d\n".toList,
        "\x7d\n".toList, "\x7d\n".toList, "\x7d\n".toList]).max_nested_loops = 3 ∧
      (estimate_complexity (analyze_lines ["void g(int n) \x7b\n".toList,
        "for (int i = 0; i < n; i++) \x7b\n".toList, "for (int j = 0; j < n; j++) \x7b\n".toList,
        "for (int k = 0; k < n; k++) \x7b\n".toList, "n--;\n".toList, "\x7d\n".toList,
        "\x7d\n".toList, "\x7d\n".toList, "\x7d\n".toList])).filter is_loop_line =
          [polynomialLine 3]) := by
  have h1 := nested_loops_counted "void f(int n) \x7b\n".toList
    ["    for (int i = 0; i < n; i++) \x7b\n".toList]
    ["        n--;\n".toList, "    \x7d\n".toList, "\x7d\n".toList]
    (by decide) (by decide) (by decide) (by decide) (by decide) (by decide) (by decide)
  have h3 := nested_loops_counted "void g(int n) \x7b\n".toList
    ["for (int i = 0; i < n; i++) \x7b\n".toList, "for (int j = 0; j < n; j++) \x7b\n".toList,
      "for (int k = 0; k < n; k++) \x7b\n".toList]
    ["n--;\n".toList, "\x7d\n".toList, "\x7d\n".toList, "\x7d\n".toList, "\x7d\n".toList]
    (by decide) (by decide) (by decide) (by decide) (by decide) (by decide) (by decide)
  exact ⟨⟨h1.1, h1.2.1, h1.2.2.1, h1.2.2.2.1 (by decide)⟩,
    ⟨h3.2.1, h3.2.2.2.2.2 (by decide)⟩⟩

/-- Claim C6 fails as stated. First file: the header `void wait_for(int n)` +
brace is a function-start line with the opening brace and no closing brace, it
is followed by one `for` loop header without closing brace and by lines
without loop start, so `k = 1`; but the header holds `for(` and is counted as a
loop start itself, and the scan ends with `total_loops = 2`,
`max_nested_loops = 2`, `loop_depth = 2` and the quadratic line. Second file:
the header of `f` holds its opening brace and, in a comment, a closing brace;
the function is left on the header line, the `for` line is then taken for a
second function start, and the scan ends with `loop_depth = 0` for `f` and
`total_functions = 2`. -/
theorem nested_loops_miscounted_by_header :
    (is_skipped (trim "void wait_for(int n) \x7b\n".toList) = false ∧
      is_function_start (trim "void wait_for(int n) \x7b\n".toList) = true ∧
      LBRACE ∈ "void wait_for(int n) \x7b\n".toList ∧
      RBRACE ∉ "void wait_for(int n) \x7b\n".toList ∧
      is_loop_start (trim "void wait_for(int n) \x7b\n".toList) = true ∧
      count_lines is_loop_start ["    for (int i = 0; i < n; i++) \x7b\n".toList] = 1 ∧
      RBRACE ∉ "    for (int i = 0; i < n; i++) \x7b\n".toList ∧
      count_lines is_loop_start
        ["        n--;\n".toList, "    \x7d\n".toList, "\x7d\n".toList] = 0 ∧
      (analyze_lines wait_for_file).total_functions = 1 ∧
      (analyze_lines wait_for_file).total_loops = 2 ∧
      (analyze_lines wait_for_file).max_nested_loops = 2 ∧
      ((analyze_lines wait_for_file).functions 0).loop_depth = 2 ∧
      (estimate_complexity (analyze_lines wait_for_file)).filter is_loop_line =
        [quadraticLine]) ∧
    (is_function_start (trim "void f(int n) \x7b // \x7d\n".toList) = true ∧
      LBRACE ∈ "void f(int n) \x7b // \x7d\n".toList ∧
      is_loop_start (trim "void f(int n) \x7b // \x7d\n".toList) = false ∧
      (scan_from ScanState.init ["void f(int n) \x7b // \x7d\n".toList]).in_function = false ∧
      ((analyze_lines commented_header_file).functions 0).name = "f".toList ∧
      ((analyze_lines commented_header_file).functions 0).loop_depth = 0 ∧
      (analyze_lines commented_header_file).total_functions = 2) := by
  decide

/-- Claim C7, as the code has it. First part: scan, from a zeroed analysis,
the function `fact` with header `int fact(int n)` + brace, a body without
non-skipped loop-start line that contains the line `return n * fact(n-1);` and
whose non-skipped lines never bring the brace count to zero, and the
closing-brace line. The scan ends with `recursive_functions = 1`,
`total_functions = 1`, the name `fact` with `has_recursion` set,
`max_nested_loops = 0`, and the time verdict is the recursion line followed by
the constant line. Second part: let the scan, from a zeroed analysis, of the
lines `pre` end outside a function, and let a non-skipped function-start line
`header` with an opening brace follow, then lines `body` and a line `call`. Let
the brace count, taken from zero at the header, be non-zero after the header,
after every non-skipped line of `body` and after `call`. If `call` is not
skipped, has no opening brace, and the FIRST occurrence in it of the name
captured from the header is followed, after optional whitespace, by an opening
parenthesis, then after `call` the function is stored under the captured name
with `is_recursive` and `has_recursion` set, and `recursive_functions` is one
more than after `pre`. -/
theorem self_call_detected :
    (∀ before after : List CStr,
      (∀ l ∈ before ++ after, is_skipped (trim l) = true ∨ is_loop_start (trim l) = false) →
      stays_open 1 (before ++ ["return n * fact(n-1);\n".toList] ++ after) = true →
      (analyze_lines (fact_file before after)).recursive_functions = 1 ∧
      (analyze_lines (fact_file before after)).total_functions = 1 ∧
      ((analyze_lines (fact_file before after)).functions 0).name = "fact".toList ∧
      ((analyze_lines (fact_file before after)).functions 0).has_recursion = true ∧
      (analyze_lines (fact_file before after)).max_nested_loops = 0 ∧
      ∃ sp, estimate_complexity (analyze_lines (fact_file before after)) =
        [timeHeader, exponentialLine, constantLine, spaceHeader, sp]) ∧
    (∀ (pre : List CStr) (header call : CStr) (body : List CStr),
      (scan_from ScanState.init pre).in_function = false →
      is_skipped (trim header) = false → is_function_start (trim header) = true →
      LBRACE ∈ header →
      stays_open 0 (header :: (body ++ [call])) = true →
      is_skipped (trim call) = false → LBRACE ∉ call →
      (∃ before ws after,
        trim call = before ++ scan_name (trim header) [] ++ ws ++ '(' :: after ∧
        (∀ c ∈ ws, isspace c = true) ∧
        ∀ before1 after1, trim call = before1 ++ scan_name (trim header) [] ++ after1 →
          before.length ≤ before1.length) →
      (scan_from ScanState.init (pre ++ header :: (body ++ [call]))).analysis.total_functions =
        (scan_from ScanState.init pre).analysis.total_functions + 1 ∧
      ((scan_from ScanState.init (pre ++ header :: (body ++ [call]))).analysis.functions
        (scan_from ScanState.init pre).analysis.total_functions).name =
          scan_name (trim header) [] ∧
      ((scan_from ScanState.init (pre ++ header :: (body ++ [call]))).analysis.functions
        (scan_from ScanState.init pre).analysis.total_functions).is_recursive = true ∧
      ((scan_from ScanState.init (pre ++ header :: (body ++ [call]))).analysis.functions
        (scan_from ScanState.init pre).analysis.total_functions).has_recursion = true ∧
      (scan_from ScanState.init
        (pre ++ header :: (body ++ [call]))).analysis.recursive_functions =
        (scan_from ScanState.init pre).analysis.recursive_functions + 1) := by
  constructor
  · intro before after hbody hopen
    have hsplit : analyze_lines (fact_file before after) =
        (process_line (scan_from ScanState.init ("int fact(int n) \x7b\n".toList ::
          (before ++ ["return n * fact(n-1);\n".toList] ++ after))) "\x7d\n".toList).analysis := by
      simp [analyze_lines, fact_file, scan_from, List.foldl_append]
    obtain ⟨_, g2, g3, g4, g5, g6⟩ := scan_from_header_call ScanState.init
      "int fact(int n) \x7b\n".toList (before ++ ["return n * fact(n-1);\n".toList] ++ after)
      rfl rfl (by decide) (by decide) (by decide) (by decide) hopen
      ⟨"return n * fact(n-1);\n".toList, by simp, by decide, by decide⟩
    obtain ⟨c1, c2, c3⟩ := process_line_no_paren (scan_from ScanState.init
      ("int fact(int n) \x7b\n".toList ::
        (before ++ ["return n * fact(n-1);\n".toList] ++ after))) "\x7d\n".toList (by decide)
    have hloops : ∀ l ∈ fact_file before after,
        is_skipped (trim l) = true ∨ is_loop_start (trim l) = false := by
      intro l hl
      simp only [fact_file, List.cons_append, List.mem_cons, List.mem_append,
        List.mem_singleton, List.not_mem_nil, or_false] at hl
      rcases hl with rfl | (((h | rfl) | h) | rfl)
      · exact Or.inr (by decide)
      · exact hbody l (by simp [h])
      · exact Or.inr (by decide)
      · exact hbody l (by simp [h])
      · exact Or.inr (by decide)
    obtain ⟨n1, n2, _, _⟩ := scan_from_no_loop _ hloops ScanState.init
    have e1 := hsplit ▸ c2.trans g6
    have e2 := hsplit ▸ c1.trans g2
    have e3 := hsplit ▸ (c3 0).1.trans g3
    have e4 := hsplit ▸ (c3 0).2.2.trans g5
    have e5 : (analyze_lines (fact_file before after)).max_nested_loops = 0 := n2
    have e6 : (analyze_lines (fact_file before after)).total_loops = 0 := n1
    refine ⟨e1, e2, e3, e4, e5, ?_⟩
    obtain ⟨t, sp, he, _, _, _, _, _, h4, _⟩ :=
      estimate_complexity_shape (analyze_lines (fact_file before after))
    refine ⟨sp, ?_⟩
    rw [he, h4 (by rw [e5]; decide) (by rw [e6]; decide), e1]
    rfl
  · intro pre header call body hout hsk hfs hl hopen hcsk hcb hocc
    exact self_call_in_scan pre header call body hout hsk hfs hl hopen hcsk hcb hocc

/-- Claim C7 on the four-line file of `fact`: one recursive function, named
`fact`, with `has_recursion` set, no loop nesting, and the verdict lines for
recursion and constant time. The second part on a file that holds the function
`one` and then `fact`: after the self-call line the second function is stored
as `fact`, is marked recursive, and is the only recursive function. -/
theorem self_call_detected_witness :
    ((analyze_lines ["int fact(int n) \x7b\n".toList, "    if (n <= 1) return 1;\n".toList,
        "return n * fact(n-1);\n".toList, "\x7d\n".toList]).recursive_functions = 1 ∧
      (analyze_lines ["int fact(int n) \x7b\n".toList, "    if (n <= 1) return 1;\n".toList,
        "return n * fact(n-1);\n".toList, "\x7d\n".toList]).total_functions = 1 ∧
      ((analyze_lines ["int fact(int n) \x7b\n".toList, "    if (n <= 1) return 1;\n".toList,
        "return n * fact(n-1);\n".toList, "\x7d\n".toList]).functions 0).name = "fact".toList ∧
      ((analyze_lines ["int fact(int n) \x7b\n".toList, "    if (n <= 1) return 1;\n".toList,
        "return n * fact(n-1);\n".toList, "\x7d\n".toList]).functions 0).has_recursion = true ∧
      (analyze_lines ["int fact(int n) \x7b\n".toList, "    if (n <= 1) return 1;\n".toList,
        "return n * fact(n-1);\n".toList, "\x7d\n".toList]).max_nested_loops = 0 ∧
      estimate_complexity (analyze_lines ["int fact(int n) \x7b\n".toList,
        "    if (n <= 1) return 1;\n".toList, "return n * fact(n-1);\n".toList,
        "\x7d\n".toList]) =
          [timeHeader, exponentialLine, constantLine, spaceHeader, spaceConstantLine]) ∧
    ((scan_from ScanState.init ["int one(void) \x7b\n".toList, "    return 1;\n".toList,
        "\x7d\n".toList, "int fact(int n) \x7b\n".toList, "    if (n <= 1) return one();\n".toList,
        "    return n * fact(n-1);\n".toList]).analysis.total_functions = 2 ∧
      ((scan_from ScanState.init ["int one(void) \x7b\n".toList, "    return 1;\n".toList,
        "\x7d\n".toList, "int fact(int n) \x7b\n".toList, "    if (n <= 1) return one();\n".toList,
        "    return n * fact(n-1);\n".toList]).analysis.functions 1).name = "fact".toList ∧
      ((scan_from ScanState.init ["int one(void) \x7b\n".toList, "    return 1;\n".toList,
        "\x7d\n".toList, "int fact(int n) \x7b\n".toList, "    if (n <= 1) return one();\n".toList,
        "    return n * fact(n-1);\n".toList]).analysis.functions 1).is_recursive = true ∧
      ((scan_from ScanState.init ["int one(void) \x7b\n".toList, "    return 1;\n".toList,
        "\x7d\n".toList, "int fact(int n) \x7b\n".toList, "    if (n <= 1) return one();\n".toList,
        "    return n * fact(n-1);\n".toList]).analysis.functions 1).has_recursion = true ∧
      (scan_from ScanState.init ["int one(void) \x7b\n".toList, "    return 1;\n".toList,
        "\x7d\n".toList, "int fact(int n) \x7b\n".toList, "    if (n <= 1) return one();\n".toList,
        "    return n * fact(n-1);\n".toList]).analysis.recursive_functions = 1) := by
  obtain ⟨h1, h2, h3, h4, h5, _⟩ :=
    self_call_detected.1 ["    if (n <= 1) return 1;\n".toList] [] (by decide) (by decide)
  have htf : (scan_from ScanState.init ["int one(void) \x7b\n".toList,
      "    return 1;\n".toList, "\x7d\n".toList]).analysis.total_functions = 1 := by decide
  have hrf : (scan_from ScanState.init ["int one(void) \x7b\n".toList,
      "    return 1;\n".toList, "\x7d\n".toList]).analysis.recursive_functions = 0 := by decide
  have hname : scan_name (trim "int fact(int n) \x7b\n".toList) [] = "fact".toList := by decide
  obtain ⟨g1, g2, g3, g4, g5⟩ := self_call_detected.2
    ["int one(void) \x7b\n".toList, "    return 1;\n".toList, "\x7d\n".toList]
    "int fact(int n) \x7b\n".toList "    return n * fact(n-1);\n".toList
    ["    if (n <= 1) return one();\n".toList]
    (by decide) (by decide) (by decide) (by decide) (by decide) (by decide) (by decide)
    ((is_recursive_call_iff (trim "    return n * fact(n-1);\n".toList)
      (scan_name (trim "int fact(int n) \x7b\n".toList) [])).1 (by decide)).2.1
  rw [htf] at g1 g2 g3 g4
  rw [hrf] at g5
  rw [hname] at g2
  exact ⟨⟨h1, h2, h3, h4, h5, by decide⟩, g1, g2, g3, g4, g5⟩

/-- Claim C7 fails as stated. (a) In the function `fact` the body line
`int factor = n * fact(n - 1);` has no opening brace and has the name `fact`
followed by an opening parenthesis, yet the scan ends with no recursive
function: the first occurrence of `fact` on that line is inside `factor`.
(b) In `closing_call_file` the line with the self-call of `f` has no opening
brace and passes the test `is_recursive_call`, but it also holds the closing
brace of `f`; the function is left before the recursion check and nothing is
recorded. (c) In `static_fact_file` the name captured from the header is `int`,
and the self-call of `fact` is not recorded. (d) In `unclosed_g_file` the
scanner is still inside `g` when it reads the header of `f`; `f` is not stored
and its self-call is not recorded. (e) For the first part: with the body line
`puts` of a closing brace before the self-call line, the function `fact` is
left on that body line, and the scan ends with no recursive function and two
stored functions. -/
theorem self_call_not_always_detected :
    ((analyze_lines ["int fact(int n) \x7b\n".toList,
        "    int factor = n * fact(n - 1);\n".toList, "    return factor;\n".toList,
        "\x7d\n".toList]).recursive_functions = 0 ∧
      ((analyze_lines ["int fact(int n) \x7b\n".toList,
        "    int factor = n * fact(n - 1);\n".toList, "    return factor;\n".toList,
        "\x7d\n".toList]).functions 0).name = "fact".toList ∧
      ((analyze_lines ["int fact(int n) \x7b\n".toList,
        "    int factor = n * fact(n - 1);\n".toList, "    return factor;\n".toList,
        "\x7d\n".toList]).functions 0).has_recursion = false ∧
      LBRACE ∉ "    int factor = n * fact(n - 1);\n".toList ∧
      ∃ before ws after, "    int factor = n * fact(n - 1);\n".toList =
        before ++ "fact".toList ++ ws ++ '(' :: after ∧ ∀ c ∈ ws, isspace c = true) ∧
    ((analyze_lines closing_call_file).recursive_functions = 0 ∧
      ((analyze_lines closing_call_file).functions 0).name = "f".toList ∧
      ((analyze_lines closing_call_file).functions 0).is_recursive = false ∧
      ((analyze_lines closing_call_file).functions 0).has_recursion = false ∧
      LBRACE ∉ "    return f(n - 1); \x7d\n".toList ∧
      is_recursive_call (trim "    return f(n - 1); \x7d\n".toList) "f".toList = true) ∧
    ((analyze_lines static_fact_file).total_functions = 1 ∧
      ((analyze_lines static_fact_file).functions 0).name = "int".toList ∧
      (analyze_lines static_fact_file).recursive_functions = 0) ∧
    ((scan_from ScanState.init ["void g(void) \x7b\n".toList,
        "    putchar(\x27\x7b\x27);\n".toList, "\x7d\n".toList]).in_function = true ∧
      (analyze_lines unclosed_g_file).total_functions = 1 ∧
      (analyze_lines unclosed_g_file).recursive_functions = 0) ∧
    (is_loop_start (trim "    puts(\x22\x7d\x22);\n".toList) = false ∧
      (analyze_lines (fact_file ["    puts(\x22\x7d\x22);\n".toList] [])).recursive_functions
        = 0 ∧
      (analyze_lines (fact_file ["    puts(\x22\x7d\x22);\n".toList] [])).total_functions
        = 2) := by
  refine ⟨⟨by decide, by decide, by decide, by decide,
    "    int factor = n * ".toList, [], "n - 1);\n".toList, by decide, by simp⟩,
    by decide, by decide, by decide, by decide⟩

/-- Claim C8. When every line is empty after stripping leading whitespace or
begins, after stripping, with `//`, the scan from a zeroed analysis leaves the
analysis zeroed: all six counters are zero and no function is stored. The
verdict is then the constant-time line only and O(1) space. -/
theorem skipped_lines_leave_zero (lines : List CStr)
    (h : ∀ l ∈ lines, trim l = [] ∨ ∃ rest, trim l = '/' :: '/' :: rest) :
    analyze_lines lines = CodeAnalysis.zero ∧
    (analyze_lines lines).total_loops = 0 ∧ (analyze_lines lines).max_nested_loops = 0 ∧
    (analyze_lines lines).recursive_functions = 0 ∧ (analyze_lines lines).total_functions = 0 ∧
    (analyze_lines lines).malloc_calls = 0 ∧ (analyze_lines lines).array_declarations = 0 ∧
    estimate_complexity (analyze_lines lines) =
      [timeHeader, constantLine, spaceHeader, spaceConstantLine] := by
  have h0 : analyze_lines lines = CodeAnalysis.zero := by
    unfold analyze_lines
    rw [scan_from_all_skipped _ _ (fun l hl => (is_skipped_iff _).2 (h l hl))]
    rfl
  rw [h0]
  exact ⟨rfl, rfl, rfl, rfl, rfl, rfl, rfl, by decide⟩

/-- Claim C8 on a blank line and two comment lines, and on the input with zero
lines (also as the empty file). -/
theorem skipped_lines_leave_zero_witness :
    analyze_lines ["\n".toList, "   // int f(int n) \x7b for (;;) f(n);\n".toList,
      "//\n".toList] = CodeAnalysis.zero ∧
    analyze_lines [] = CodeAnalysis.zero ∧
    analyze_file [] = CodeAnalysis.zero ∧
    estimate_complexity (analyze_lines []) =
      [timeHeader, constantLine, spaceHeader, spaceConstantLine] := by
  refine ⟨(skipped_lines_leave_zero _ ?_).1, (skipped_lines_leave_zero [] (by simp)).1,
    (skipped_lines_leave_zero [] (by simp)).1,
    (skipped_lines_leave_zero [] (by simp)).2.2.2.2.2.2.2⟩
  intro l hl
  simp only [List.mem_cons, List.mem_singleton, List.not_mem_nil, or_false] at hl
  rcases hl with rfl | rfl | rfl
  · exact Or.inl (by decide)
  · exact Or.inr ⟨_, rfl⟩
  · exact Or.inr ⟨_, rfl⟩

/-- Claim C9. For every scanner state and every non-skipped line, processing
the line adds exactly one to `malloc_calls` when the line contains `malloc(` or
`malloc (` and leaves it unchanged otherwise. Hence after a scan `malloc_calls`
is the number of non-skipped lines that pass the allocation test. The line
`int *p = malloc(sizeof(int) * 10);` adds exactly one in every state, inside or
outside a function. -/
theorem malloc_calls_counted :
    (∀ (s : ScanState) (line : CStr), is_skipped (trim line) = false →
      (Contains line "malloc(".toList ∨ Contains line "malloc (".toList) →
      (process_line s line).analysis.malloc_calls = s.analysis.malloc_calls + 1) ∧
    (∀ (s : ScanState) (line : CStr), is_skipped (trim line) = false →
      ¬ (Contains line "malloc(".toList ∨ Contains line "malloc (".toList) →
      (process_line s line).analysis.malloc_calls = s.analysis.malloc_calls) ∧
    (∀ lines : List CStr,
      (analyze_lines lines).malloc_calls = (count_lines is_malloc_call lines : Nat)) ∧
    (∀ s : ScanState,
      (process_line s "int *p = malloc(sizeof(int) * 10);\n".toList).analysis.malloc_calls =
        s.analysis.malloc_calls + 1) := by
  refine ⟨?_, ?_, ?_, ?_⟩
  · intro s line hsk hc
    rw [process_line_malloc_calls s line hsk, if_pos ((is_malloc_call_iff line).2 hc)]
  · intro s line hsk hc
    rw [process_line_malloc_calls s line hsk,
      if_neg (fun h => hc ((is_malloc_call_iff line).1 h))]
    simp
  · intro lines
    unfold analyze_lines
    rw [scan_from_malloc_calls]
    simp [ScanState.init, CodeAnalysis.zero]
  · intro s
    rw [process_line_malloc_calls s _ (by decide), if_pos (by decide)]

/-- Claim C9 on the line `int *p = malloc(sizeof(int) * 10);`, outside a
function and inside `main`, and on a line without allocation. -/
theorem malloc_calls_counted_witness :
    (process_line ScanState.init
      "int *p = malloc(sizeof(int) * 10);\n".toList).analysis.malloc_calls = 1 ∧
    (process_line (process_line ScanState.init "int main(void) \x7b\n".toList)
      "    int *p = malloc(sizeof(int) * 10);\n".toList).analysis.malloc_calls = 1 ∧
    (process_line (process_line ScanState.init "int main(void) \x7b\n".toList)
      "    int x = 0;\n".toList).analysis.malloc_calls = 0 :=
  ⟨malloc_calls_counted.1 ScanState.init "int *p = malloc(sizeof(int) * 10);\n".toList
      (by decide) ((is_malloc_call_iff _).1 (by decide)),
    malloc_calls_counted.1 (process_line ScanState.init "int main(void) \x7b\n".toList)
      "    int *p = malloc(sizeof(int) * 10);\n".toList
      (by decide) ((is_malloc_call_iff _).1 (by decide)),
    malloc_calls_counted.2.1 (process_line ScanState.init "int main(void) \x7b\n".toList)
      "    int x = 0;\n".toList (by decide)
      (fun h => absurd ((is_malloc_call_iff _).2 h) (by decide))⟩

/-- Claim C10, as the code has it. After a scan from a zeroed analysis,
`total_loops` is the number of non-skipped lines that pass the loop-start test
AND whose loop check runs while the scanner is inside a function (after the
function-start check and the brace tracking of that same line). It is at most
the number of non-skipped loop-start lines of the whole file. -/
theorem total_loops_counts_inside_only (lines : List CStr) :
    (analyze_lines lines).total_loops = (count_loops_inside ScanState.init lines : Nat) ∧
    count_loops_inside ScanState.init lines ≤ count_lines is_loop_start lines := by
  refine ⟨?_, count_loops_inside_le _ _⟩
  unfold analyze_lines
  rw [scan_from_total_loops]
  simp [ScanState.init, CodeAnalysis.zero]

/-- Claim C10 fails as stated. The one-line function
`void f(int n) { while (n > 0) { n--; } }` is a non-skipped line that passes
the loop-start test, yet the scan ends with `total_loops = 0`: its braces
balance, so the function is left before the loop check runs. -/
theorem total_loops_misses_one_line_function :
    (analyze_lines
      ["void f(int n) \x7b while (n > 0) \x7b n--; \x7d \x7d\n".toList]).total_loops = 0 ∧
    count_lines is_loop_start
      ["void f(int n) \x7b while (n > 0) \x7b n--; \x7d \x7d\n".toList] = 1 := by
  decide

/-- Claim C11. After every processed line of a scan from a zeroed analysis,
`recursive_functions` is the number of entries among
`functions[0 .. total_functions-1]` whose `is_recursive` flag is set, every
entry has `has_recursion` equal to `is_recursive`, and
`recursive_functions <= total_functions`. A function with two self-call lines
is counted once. -/
theorem recursive_functions_counts_flags :
    (∀ lines : List CStr,
      (analyze_lines lines).recursive_functions =
        count_recursive (analyze_lines lines).functions
          (analyze_lines lines).total_functions.toNat ∧
      (∀ i, ((analyze_lines lines).functions i).has_recursion =
        ((analyze_lines lines).functions i).is_recursive) ∧
      0 ≤ (analyze_lines lines).total_functions ∧
      (analyze_lines lines).recursive_functions ≤ (analyze_lines lines).total_functions) ∧
    (analyze_lines ["int fib(int n) \x7b\n".toList, "    if (n < 2) return n;\n".toList,
      "    int a = fib(n - 1);\n".toList, "    int b = fib(n - 2);\n".toList,
      "    return a + b;\n".toList, "\x7d\n".toList]).recursive_functions = 1 := by
  refine ⟨fun lines => ?_, fib_counted_once⟩
  have h := analyze_lines_inv lines
  refine ⟨h.recursive_count, h.flags, h.total_functions_nonneg, ?_⟩
  show (scan_from ScanState.init lines).analysis.recursive_functions ≤
    (scan_from ScanState.init lines).analysis.total_functions
  rw [h.recursive_count]
  have h1 := count_recursive_le (scan_from ScanState.init lines).analysis.functions
    (scan_from ScanState.init lines).analysis.total_functions.toNat
  have h2 := Int.toNat_of_nonneg h.total_functions_nonneg
  omega

/-- Claim C12. After every processed line of a scan from a zeroed analysis,
the `loop_depth` of every detected function is at most `max_nested_loops`, and
`max_nested_loops` is the maximum of `loop_depth` over the detected functions:
it is 0 when no function has been detected, and otherwise some detected
function has exactly that `loop_depth`. -/
theorem max_nested_loops_is_max_loop_depth (lines : List CStr) :
    (∀ i, 0 ≤ i → i < (analyze_lines lines).total_functions →
      ((analyze_lines lines).functions i).loop_depth ≤
        (analyze_lines lines).max_nested_loops) ∧
    ((analyze_lines lines).total_functions = 0 → (analyze_lines lines).max_nested_loops = 0) ∧
    (0 < (analyze_lines lines).total_functions →
      ∃ i, 0 ≤ i ∧ i < (analyze_lines lines).total_functions ∧
        ((analyze_lines lines).functions i).loop_depth =
          (analyze_lines lines).max_nested_loops) := by
  have h := analyze_lines_inv lines
  refine ⟨fun i _ _ => h.loop_depth_le i, fun h0 => ?_, h.loop_depth_max⟩
  have h1 := h.loops_need_function h0
  have h2 := h.max_le
  have h3 := h.max_nonneg
  show (scan_from ScanState.init lines).analysis.max_nested_loops = 0
  omega

/-- Claim C13 fails on the code. A file of `n` lines `int f(int n);` ends
with `total_functions = n`, whatever `n` is: there is no capacity check. With
51 such lines `total_functions` is 51, above `MAX_FUNCTIONS`, and the
`FunctionInfo` of the 51st line is stored at index 50, past the last cell
`functions[49]` (the index is untouched after 50 lines). -/
theorem capacity_not_enforced :
    (∀ n : Nat,
      (analyze_lines (List.replicate n "int f(int n);\n".toList)).total_functions = n) ∧
    (analyze_lines (List.replicate 51 "int f(int n);\n".toList)).total_functions = 51 ∧
    (MAX_FUNCTIONS : Int) <
      (analyze_lines (List.replicate 51 "int f(int n);\n".toList)).total_functions ∧
    ((analyze_lines (List.replicate 51 "int f(int n);\n".toList)).functions 50) =
      { name := "f".toList, is_recursive := false, loop_depth := 0, has_recursion := false } ∧
    ((analyze_lines (List.replicate 50 "int f(int n);\n".toList)).functions 50) =
      { name := [], is_recursive := false, loop_depth := 0, has_recursion := false } := by
  have hn : ∀ n : Nat,
      (analyze_lines (List.replicate n "int f(int n);\n".toList)).total_functions = n := by
    intro n
    have := (scan_from_replicate_balanced_start "int f(int n);\n".toList (by decide) (by decide)
      (by decide) n ScanState.init rfl rfl).2.2
    simpa [analyze_lines, ScanState.init, CodeAnalysis.zero] using this
  refine ⟨hn, hn 51, ?_, fifty_one_prototypes.1, fifty_one_prototypes.2⟩
  rw [hn 51]
  decide

/-- Claim C14, as the code has it. For every non-skipped line recognised as a
function start while the scanner is outside a function, the name stored in the
new `FunctionInfo` (and set as `current_function`, kept after the line when the
function stays open) is taken from the line's second whitespace-delimited
token, the run of non-whitespace characters `token` that begins immediately
after the line's first whitespace run: the leading opening parentheses
`parens` of the token are kept and the rest `body` is cut just before its next
opening parenthesis. The name is non-empty and contains no whitespace; when
the token does not begin with an opening parenthesis the name is `body`, which
contains none and ends just before the token's first one. -/
theorem function_name_is_second_token (s : ScanState) (line : CStr)
    (hout : s.in_function = false) (hsk : is_skipped (trim line) = false)
    (hfs : is_function_start (trim line) = true) :
    ((process_line s line).analysis.functions s.analysis.total_functions).name =
      scan_name (trim line) s.current_function ∧
    (function_start_step s (trim line)).current_function =
      scan_name (trim line) s.current_function ∧
    (count_braces s.brace_count (trim line) ≠ 0 →
      (process_line s line).current_function = scan_name (trim line) s.current_function) ∧
    scan_name (trim line) s.current_function ≠ [] ∧
    (∀ c ∈ scan_name (trim line) s.current_function, isspace c = false) ∧
    ∃ first ws token rest parens body tail,
      trim line = first ++ ws ++ token ++ rest ∧
      first ≠ [] ∧ (∀ c ∈ first, isspace c = false) ∧
      ws ≠ [] ∧ (∀ c ∈ ws, isspace c = true) ∧
      token ≠ [] ∧ (∀ c ∈ token, isspace c = false) ∧
      (∀ c, rest.head? = some c → isspace c = true) ∧
      token = parens ++ body ++ tail ∧ (∀ c ∈ parens, c = '(') ∧ '(' ∉ body ∧
      (∀ c, tail.head? = some c → c = '(') ∧ (body = [] → tail = []) ∧
      scan_name (trim line) s.current_function = parens ++ body := by
  obtain ⟨_, n2, n3, n4⟩ := process_line_start_name s line hout hsk hfs
  obtain ⟨first, ws, token, rest, e, a1, a2, a3, a4, a5, a6, a7, a8⟩ :=
    sscanf_second_token_of_function_start line hfs
  obtain ⟨parens, body, tail, b1, b2, b3, b4, b5, b6, b7⟩ := strtok_paren_split token a5
  have hname : scan_name (trim line) s.current_function = parens ++ body := by
    unfold scan_name
    rw [a8]
    exact b6
  refine ⟨n2, n3, n4, by rw [hname]; exact b7, ?_,
    first, ws, token, rest, parens, body, tail, e, a1, a2, a3, a4, a5, a6, a7, b1, b2, b3,
    b4, b5, hname⟩
  intro c hc
  rw [hname] at hc
  exact a6 c (by rw [b1]; simp only [List.mem_append] at hc ⊢; exact Or.inl hc)

/-- Claim C14 on `int fact(int n)` + brace: the stored name and
`current_function` are `fact`. -/
theorem function_name_is_second_token_witness :
    ((process_line ScanState.init "int fact(int n) \x7b\n".toList).analysis.functions 0).name =
      "fact".toList ∧
    (process_line ScanState.init "int fact(int n) \x7b\n".toList).current_function =
      "fact".toList := by
  obtain ⟨h1, _, h3, _⟩ := function_name_is_second_token ScanState.init
    "int fact(int n) \x7b\n".toList rfl (by decide) (by decide)
  exact ⟨h1, h3 (by decide)⟩

/-- Claim C14 fails as stated. The file-scope declaration `int (*fp)(int);`
is a function-start line whose stored name `(*fp)` contains an opening
parenthesis, and the header `static int fact(int n)` + brace stores the name
`int`, which does not end just before the opening parenthesis: the text before
the parenthesis is `fact`. -/
theorem function_name_can_hold_parenthesis :
    is_function_start (trim "int (*fp)(int);\n".toList) = true ∧
    ((process_line ScanState.init "int (*fp)(int);\n".toList).analysis.functions 0).name =
      "(*fp)".toList ∧
    '(' ∈ ((process_line ScanState.init "int (*fp)(int);\n".toList).analysis.functions 0).name ∧
    is_function_start (trim "static int fact(int n) \x7b\n".toList) = true ∧
    ((process_line ScanState.init
      "static int fact(int n) \x7b\n".toList).analysis.functions 0).name = "int".toList ∧
    (process_line ScanState.init "static int fact(int n) \x7b\n".toList).current_function =
      "int".toList ∧
    "static int fact(int n) \x7b\n".toList =
      "static int ".toList ++ "fact".toList ++ '(' :: "int n) \x7b\n".toList := by
  decide

/-- Claim C15, as the code has it. For every line processed inside a function
whose braces bring `brace_count` back to zero, the function exit takes effect
BEFORE the loop-start and recursive-call checks of that line: the scanner is
outside afterwards and `total_loops`, `max_nested_loops`, `recursive_functions`
and every `FunctionInfo` are unchanged, whatever the line holds. Making the exit
after the checks, as the specification words it, gives the same state for every
line except a line that closes the function and is also a loop start or a
self-call. -/
theorem exit_precedes_checks :
    (∀ (s : ScanState) (line : CStr), s.in_function = true →
      is_skipped (trim line) = false → count_braces s.brace_count (trim line) = 0 →
      (process_line s line).in_function = false ∧
      (process_line s line).analysis.total_loops = s.analysis.total_loops ∧
      (process_line s line).analysis.max_nested_loops = s.analysis.max_nested_loops ∧
      (process_line s line).analysis.recursive_functions = s.analysis.recursive_functions ∧
      (process_line s line).analysis.total_functions = s.analysis.total_functions ∧
      (process_line s line).analysis.functions = s.analysis.functions) ∧
    (∀ (s : ScanState) (line : CStr),
      ((function_start_step s (trim line)).in_function = true →
        count_braces (function_start_step s (trim line)).brace_count (trim line) = 0 →
        is_loop_start (trim line) = false ∧
        is_recursive_call (trim line) (function_start_step s (trim line)).current_function
          = false) →
      spec_process_line s line = process_line s line) := by
  refine ⟨fun s line hin hsk hcb => ?_, spec_process_line_eq⟩
  rw [process_line_closing s line hin hsk hcb]
  simp

/-- Claim C15 on a closing line with a loop inside the function `f`: the
scanner is outside afterwards and `total_loops` is unchanged. -/
theorem exit_precedes_checks_witness :
    (process_line (process_line ScanState.init "void f(int n) \x7b\n".toList)
      "    while (n > 0) \x7b n--; \x7d \x7d\n".toList).in_function = false ∧
    (process_line (process_line ScanState.init "void f(int n) \x7b\n".toList)
      "    while (n > 0) \x7b n--; \x7d \x7d\n".toList).analysis.total_loops = 0 ∧
    spec_process_line (process_line ScanState.init "void f(int n) \x7b\n".toList)
        "    n--;\n".toList =
      process_line (process_line ScanState.init "void f(int n) \x7b\n".toList)
        "    n--;\n".toList := by
  obtain ⟨h1, h2, _⟩ := exit_precedes_checks.1
    (process_line ScanState.init "void f(int n) \x7b\n".toList)
    "    while (n > 0) \x7b n--; \x7d \x7d\n".toList (by decide) (by decide) (by decide)
  exact ⟨h1, h2, exit_precedes_checks.2 _ _ (fun _ _ => ⟨by decide, by decide⟩)⟩

/-- Claim C15 fails as stated. On the closing line `while (n > 0) { n--; } }`
of a function, on the one-line function
`void f(int n) { while (n > 0) { n--; } }` and on the closing line
`return f(n - 1); }` the code records no loop and no recursion, while the scan
that makes the exit after the checks records them: the two orders give
different analyses. -/
theorem exit_order_changes_result :
    (analyze_lines ["void f(int n) \x7b\n".toList,
      "    while (n > 0) \x7b n--; \x7d \x7d\n".toList]).total_loops = 0 ∧
    (spec_analyze_lines ["void f(int n) \x7b\n".toList,
      "    while (n > 0) \x7b n--; \x7d \x7d\n".toList]).total_loops = 1 ∧
    (analyze_lines
      ["void f(int n) \x7b while (n > 0) \x7b n--; \x7d \x7d\n".toList]).total_loops = 0 ∧
    (spec_analyze_lines
      ["void f(int n) \x7b while (n > 0) \x7b n--; \x7d \x7d\n".toList]).total_loops = 1 ∧
    (analyze_lines ["int f(int n) \x7b\n".toList,
      "    return f(n - 1); \x7d\n".toList]).recursive_functions = 0 ∧
    (spec_analyze_lines ["int f(int n) \x7b\n".toList,
      "    return f(n - 1); \x7d\n".toList]).recursive_functions = 1 := by
  decide

/-- Claim C16. After every processed line of any input, a scanner that is
outside a function has `brace_count = 0`, `loop_stack_depth = 0` and an empty
`current_function`. Hence when a function-start line is recognised,
`brace_count` is 0 at the moment the function is entered, and after that line
`brace_count` is the brace balance of the line counted from zero. -/
theorem outside_function_state_is_reset (lines : List CStr) :
    ((scan_from ScanState.init lines).in_function = false →
      (scan_from ScanState.init lines).brace_count = 0 ∧
      (scan_from ScanState.init lines).loop_stack_depth = 0 ∧
      (scan_from ScanState.init lines).current_function = []) ∧
    (∀ line : CStr, (scan_from ScanState.init lines).in_function = false →
      is_skipped (trim line) = false → is_function_start (trim line) = true →
      (function_start_step (scan_from ScanState.init lines) (trim line)).in_function = true ∧
      (function_start_step (scan_from ScanState.init lines) (trim line)).brace_count = 0 ∧
      (scan_from ScanState.init (lines ++ [line])).brace_count =
        count_braces 0 (trim line)) := by
  have h := analyze_lines_inv lines
  refine ⟨h.outside, fun line hout hsk hfs => ?_⟩
  obtain ⟨f1, _, _, _⟩ := function_start_step_of_start _ (trim line) hout hfs
  have hb : (function_start_step (scan_from ScanState.init lines) (trim line)).brace_count = 0 := by
    rw [function_start_step_brace_count]; exact (h.outside hout).1
  refine ⟨f1, hb, ?_⟩
  have hstep : scan_from ScanState.init (lines ++ [line]) =
      process_line (scan_from ScanState.init lines) line := by
    simp [scan_from, List.foldl_append]
  rw [hstep, process_line_of_not_skipped _ line hsk]
  simp only [array_step_brace_count, malloc_step_brace_count, recursion_step_brace_count,
    loop_end_step_brace_count, loop_step_brace_count]
  by_cases hc : count_braces 0 (trim line) = 0
  · rw [brace_step_of_close _ _ f1 (by rw [hb]; exact hc), hc]
  · rw [brace_step_of_open _ _ f1 (by rw [hb]; exact hc), hb]

/-- Claim C17. For every scanner state and every line, processing the line
leaves every `FunctionInfo` below the last one unchanged, and the last one as
well when the scanner was outside a function before the line. From outside,
the line either changes no entry or appends one at index `total_functions`.
From inside, only the last entry can change: its name stays, its `loop_depth`
can only rise and its recursion flags can only be set. The same entries stay
unchanged over any further lines, so a `FunctionInfo` is frozen once its
function has been exited. -/
theorem function_info_frozen_after_exit (s : ScanState) (line : CStr) :
    (∀ i, i < s.analysis.total_functions - 1 →
      (process_line s line).analysis.functions i = s.analysis.functions i) ∧
    (s.in_function = false → ∀ i, i < s.analysis.total_functions →
      (process_line s line).analysis.functions i = s.analysis.functions i) ∧
    (s.in_function = false →
      ((process_line s line).analysis.total_functions = s.analysis.total_functions ∧
        (process_line s line).analysis.functions = s.analysis.functions) ∨
      ((process_line s line).analysis.total_functions = s.analysis.total_functions + 1 ∧
        ∀ i, i ≠ s.analysis.total_functions →
          (process_line s line).analysis.functions i = s.analysis.functions i)) ∧
    (s.in_function = true →
      (process_line s line).analysis.total_functions = s.analysis.total_functions ∧
      (∀ i, i ≠ s.analysis.total_functions - 1 →
        (process_line s line).analysis.functions i = s.analysis.functions i) ∧
      ((process_line s line).analysis.functions (s.analysis.total_functions - 1)).name =
        (s.analysis.functions (s.analysis.total_functions - 1)).name ∧
      (s.analysis.functions (s.analysis.total_functions - 1)).loop_depth ≤
        ((process_line s line).analysis.functions
          (s.analysis.total_functions - 1)).loop_depth ∧
      ((s.analysis.functions (s.analysis.total_functions - 1)).is_recursive = true →
        ((process_line s line).analysis.functions
          (s.analysis.total_functions - 1)).is_recursive = true) ∧
      ((s.analysis.functions (s.analysis.total_functions - 1)).has_recursion = true →
        ((process_line s line).analysis.functions
          (s.analysis.total_functions - 1)).has_recursion = true)) ∧
    (∀ (rest : List CStr) (i : Int),
      (i < s.analysis.total_functions - 1 ∨
        (i < s.analysis.total_functions ∧ s.in_function = false)) →
      (scan_from s (line :: rest)).analysis.functions i = s.analysis.functions i) := by
  refine ⟨fun i hi => (process_line_frozen s line i (Or.inl hi)).1,
    fun hout i hi => (process_line_frozen s line i (Or.inr ⟨hi, hout⟩)).1,
    fun hout => ?_, fun hin => process_line_inside_frame s line hin,
    fun rest i hi => scan_from_frozen (line :: rest) s i hi⟩
  rcases process_line_outside s line hout with ⟨b1, _, b3, _⟩ | ⟨b1, _, _, _, b5⟩
  · exact Or.inl ⟨b1, b3⟩
  · exact Or.inr ⟨b1, b5⟩

/-- Claim C18. Let a line be processed while the scanner, after the lines
`before`, is outside a function; let it be non-skipped, pass the function-start
test and hold as many opening as closing braces. Then `total_functions` grows
by one, the new `FunctionInfo` has `loop_depth = 0` and both recursion flags
clear, `total_loops`, `max_nested_loops` and `recursive_functions` are unchanged,
the scanner is outside a function again, and no following line changes that
entry. -/
theorem balanced_function_start_is_left_at_once (before rest : List CStr) (line : CStr)
    (hout : (scan_from ScanState.init before).in_function = false)
    (hsk : is_skipped (trim line) = false)
    (hfs : is_function_start (trim line) = true)
    (hbal : line.count LBRACE = line.count RBRACE) :
    (analyze_lines (before ++ [line])).total_functions =
      (analyze_lines before).total_functions + 1 ∧
    (analyze_lines (before ++ [line])).functions (analyze_lines before).total_functions =
      { name := scan_name (trim line) [], is_recursive := false, loop_depth := 0,
        has_recursion := false } ∧
    (analyze_lines (before ++ [line])).total_loops = (analyze_lines before).total_loops ∧
    (analyze_lines (before ++ [line])).max_nested_loops =
      (analyze_lines before).max_nested_loops ∧
    (analyze_lines (before ++ [line])).recursive_functions =
      (analyze_lines before).recursive_functions ∧
    (scan_from ScanState.init (before ++ [line])).in_function = false ∧
    (analyze_lines (before ++ line :: rest)).functions (analyze_lines before).total_functions =
      (analyze_lines (before ++ [line])).functions (analyze_lines before).total_functions := by
  have hinv := analyze_lines_inv before
  obtain ⟨hb, _, hcur⟩ := hinv.outside hout
  obtain ⟨a1, _, _, _, a5, a6, a7, a8, a9, _⟩ :=
    process_line_balanced_start (scan_from ScanState.init before) line hout hb hsk hfs hbal
  have h1 : scan_from ScanState.init (before ++ [line]) =
      process_line (scan_from ScanState.init before) line :=
    scan_from_append_cons ScanState.init before [] line
  have h2 : scan_from ScanState.init (before ++ line :: rest) =
      scan_from (process_line (scan_from ScanState.init before) line) rest :=
    scan_from_append_cons ScanState.init before rest line
  rw [hcur] at a9
  unfold analyze_lines
  rw [h1, h2]
  refine ⟨a5, a9, a6, a7, a8, a1, ?_⟩
  exact scan_from_frozen rest _ _ (Or.inr ⟨by rw [a5]; omega, a1⟩)

/-- Claim C18 on a prototype, on a header whose brace is on the next line (the
loop and the self-call that follow are not recorded in its entry), and on a
file-scope statement. -/
theorem balanced_function_start_is_left_at_once_witness :
    ((analyze_lines ["int f(int n);\n".toList]).total_functions = 1 ∧
      (scan_from ScanState.init ["int f(int n);\n".toList]).in_function = false) ∧
    ((analyze_lines ["int f(int n)\n".toList]).total_functions = 1 ∧
      (analyze_lines ["int f(int n)\n".toList, "\x7b\n".toList,
        "    while (n > 0) \x7b\n".toList, "        f(n - 1);\n".toList, "    \x7d\n".toList,
        "\x7d\n".toList]).functions 0 =
        { name := "f".toList, is_recursive := false, loop_depth := 0,
          has_recursion := false }) ∧
    ((analyze_lines ["int *p = malloc(sizeof(int) * 10);\n".toList]).total_functions = 1 ∧
      (analyze_lines ["int *p = malloc(sizeof(int) * 10);\n".toList]).total_loops = 0) := by
  have h1 := balanced_function_start_is_left_at_once [] [] "int f(int n);\n".toList
    rfl (by decide) (by decide) (by decide)
  have h2 := balanced_function_start_is_left_at_once [] ["\x7b\n".toList,
    "    while (n > 0) \x7b\n".toList, "        f(n - 1);\n".toList, "    \x7d\n".toList,
    "\x7d\n".toList] "int f(int n)\n".toList rfl (by decide) (by decide) (by decide)
  have h3 := balanced_function_start_is_left_at_once [] []
    "int *p = malloc(sizeof(int) * 10);\n".toList rfl (by decide) (by decide) (by decide)
  exact ⟨⟨h1.1, h1.2.2.2.2.2.1⟩, ⟨h2.1, h2.2.2.2.2.2.2.trans h2.2.1⟩, ⟨h3.1, h3.2.2.1⟩⟩

/-- Claim C19. After every processed line of a scan from a zeroed analysis,
`0 <= loop_stack_depth <= total_loops`, `0 <= max_nested_loops <= total_loops`,
and `max_nested_loops = 0` exactly when `total_loops = 0`. Hence for every
analysis produced by a scan the loop-based line is the constant line exactly
when `max_nested_loops = 0` and the linear line exactly when
`max_nested_loops = 1`. -/
theorem loop_counters_bounded (lines : List CStr) :
    0 ≤ (scan_from ScanState.init lines).loop_stack_depth ∧
    (scan_from ScanState.init lines).loop_stack_depth ≤ (analyze_lines lines).total_loops ∧
    0 ≤ (analyze_lines lines).max_nested_loops ∧
    (analyze_lines lines).max_nested_loops ≤ (analyze_lines lines).total_loops ∧
    ((analyze_lines lines).max_nested_loops = 0 ↔ (analyze_lines lines).total_loops = 0) ∧
    ((estimate_complexity (analyze_lines lines)).filter is_loop_line = [constantLine] ↔
      (analyze_lines lines).max_nested_loops = 0) ∧
    ((estimate_complexity (analyze_lines lines)).filter is_loop_line = [linearLine] ↔
      (analyze_lines lines).max_nested_loops = 1) := by
  have h := analyze_lines_inv lines
  have m0 : 0 ≤ (analyze_lines lines).max_nested_loops := h.max_nonneg
  have m1 : (analyze_lines lines).max_nested_loops ≤ (analyze_lines lines).total_loops := h.max_le
  have m2 : 0 < (analyze_lines lines).total_loops → 0 < (analyze_lines lines).max_nested_loops :=
    h.max_pos
  refine ⟨h.depth_nonneg, h.depth_le, m0, m1, ⟨fun e => by omega, fun e => by omega⟩, ?_, ?_⟩
  · rw [estimate_complexity_loop_lines]
    by_cases h3 : (analyze_lines lines).max_nested_loops ≥ 3
    · simp only [h3, if_true, List.cons.injEq, and_true]
      exact ⟨fun e => absurd e (polynomialLine_ne _).1, fun e => by omega⟩
    by_cases h2 : (analyze_lines lines).max_nested_loops = 2
    · simp only [h3, h2, if_true, if_false, List.cons.injEq, and_true]
      exact ⟨fun e => absurd e (by decide), fun e => by omega⟩
    by_cases ht : (analyze_lines lines).total_loops > 0
    · simp only [h3, h2, ht, if_true, if_false, List.cons.injEq, and_true]
      exact ⟨fun e => absurd e (by decide), fun e => by omega⟩
    · simp only [h3, h2, ht, if_false, true_iff]
      omega
  · rw [estimate_complexity_loop_lines]
    by_cases h3 : (analyze_lines lines).max_nested_loops ≥ 3
    · simp only [h3, if_true, List.cons.injEq, and_true]
      exact ⟨fun e => absurd e (polynomialLine_ne _).2, fun e => by omega⟩
    by_cases h2 : (analyze_lines lines).max_nested_loops = 2
    · simp only [h3, h2, if_true, if_false, List.cons.injEq, and_true]
      exact ⟨fun e => absurd e (by decide), fun e => by omega⟩
    by_cases ht : (analyze_lines lines).total_loops > 0
    · simp only [h3, h2, ht, if_true, if_false, true_iff]
      omega
    · simp only [h3, h2, ht, if_false, List.cons.injEq, and_true]
      exact ⟨fun e => absurd e (by decide), fun e => by omega⟩

/-- Claim C20, as the code has it. Scanning the five lines of a function with
one do-while loop ends with `total_functions = 1`, `total_loops = 2`,
`max_nested_loops = 2` and `loop_depth = 2`, and the time verdict is quadratic.
In general, let the scan, from a zeroed analysis, of the lines `pre` end inside
a function with `brace_count` at least 1. Let a non-skipped loop-start line `d`
with an opening brace and no closing brace follow, then lines `mid` without
closing brace and without non-skipped loop-start line, then a non-skipped
loop-start line `w` that holds a closing brace and at most one more closing
than opening braces. Then `total_loops` after `w` is 2 more than after `pre`,
and the depth at the loop check of `w` is one more than at the loop check of
`d`, which is one more than `loop_stack_depth` after `pre`. -/
theorem do_while_counts_twice :
    ((analyze_lines ["void f(int n) \x7b\n".toList, "do \x7b\n".toList, "n--;\n".toList,
        "\x7d while (n > 0);\n".toList, "\x7d\n".toList]).total_functions = 1 ∧
      (analyze_lines ["void f(int n) \x7b\n".toList, "do \x7b\n".toList, "n--;\n".toList,
        "\x7d while (n > 0);\n".toList, "\x7d\n".toList]).total_loops = 2 ∧
      (analyze_lines ["void f(int n) \x7b\n".toList, "do \x7b\n".toList, "n--;\n".toList,
        "\x7d while (n > 0);\n".toList, "\x7d\n".toList]).max_nested_loops = 2 ∧
      ((analyze_lines ["void f(int n) \x7b\n".toList, "do \x7b\n".toList, "n--;\n".toList,
        "\x7d while (n > 0);\n".toList, "\x7d\n".toList]).functions 0).loop_depth = 2 ∧
      (estimate_complexity (analyze_lines ["void f(int n) \x7b\n".toList, "do \x7b\n".toList,
        "n--;\n".toList, "\x7d while (n > 0);\n".toList,
        "\x7d\n".toList])).filter is_loop_line = [quadraticLine]) ∧
    (∀ (pre : List CStr) (d w : CStr) (mid : List CStr),
      (scan_from ScanState.init pre).in_function = true →
      1 ≤ (scan_from ScanState.init pre).brace_count →
      is_skipped (trim d) = false → is_loop_start (trim d) = true →
      LBRACE ∈ d → RBRACE ∉ d →
      (∀ l ∈ mid, RBRACE ∉ l ∧
        (is_skipped (trim l) = true ∨ is_loop_start (trim l) = false)) →
      is_skipped (trim w) = false → is_loop_start (trim w) = true →
      RBRACE ∈ w → -1 ≤ count_braces 0 (trim w) →
      (scan_from ScanState.init (pre ++ d :: (mid ++ [w]))).analysis.total_loops =
        (scan_from ScanState.init pre).analysis.total_loops + 2 ∧
      depth_at_loop_check (scan_from ScanState.init pre) d =
        (scan_from ScanState.init pre).loop_stack_depth + 1 ∧
      depth_at_loop_check (scan_from ScanState.init (pre ++ d :: mid)) w =
        depth_at_loop_check (scan_from ScanState.init pre) d + 1 ∧
      (scan_from ScanState.init (pre ++ d :: (mid ++ [w]))).analysis.max_nested_loops =
        max (scan_from ScanState.init pre).analysis.max_nested_loops
          ((scan_from ScanState.init pre).loop_stack_depth + 2) ∧
      ((scan_from ScanState.init (pre ++ d :: (mid ++ [w]))).analysis.functions
        ((scan_from ScanState.init pre).analysis.total_functions - 1)).loop_depth =
        max ((scan_from ScanState.init pre).analysis.functions
            ((scan_from ScanState.init pre).analysis.total_functions - 1)).loop_depth
          ((scan_from ScanState.init pre).loop_stack_depth + 2) ∧
      (scan_from ScanState.init (pre ++ d :: (mid ++ [w]))).loop_stack_depth =
        (scan_from ScanState.init pre).loop_stack_depth + 1 ∧
      (scan_from ScanState.init (pre ++ d :: (mid ++ [w]))).in_function = true) :=
  ⟨by decide, do_while_in_scan⟩

/-- Claim C20, general part, on the do-while of the five-line file: after the
header of `f`, the lines `do` + brace, `n--;` and the closing `while` line add 2
to `total_loops`, the depth at the loop check is 1 at the `do` line and 2 at the
`while` line. -/
theorem do_while_counts_twice_witness :
    (scan_from ScanState.init ["void f(int n) \x7b\n".toList, "do \x7b\n".toList,
      "n--;\n".toList, "\x7d while (n > 0);\n".toList]).analysis.total_loops = 2 ∧
    depth_at_loop_check (scan_from ScanState.init ["void f(int n) \x7b\n".toList])
      "do \x7b\n".toList = 1 ∧
    depth_at_loop_check (scan_from ScanState.init ["void f(int n) \x7b\n".toList,
      "do \x7b\n".toList, "n--;\n".toList]) "\x7d while (n > 0);\n".toList = 2 := by
  obtain ⟨h1, h2, h3, _⟩ := do_while_counts_twice.2
    ["void f(int n) \x7b\n".toList]
    "do \x7b\n".toList "\x7d while (n > 0);\n".toList ["n--;\n".toList]
    (by decide) (by decide) (by decide) (by decide) (by decide) (by decide) (by decide)
    (by decide) (by decide) (by decide) (by decide)
  have h0 : (scan_from ScanState.init ["void f(int n) \x7b\n".toList]).analysis.total_loops
      = 0 := by decide
  have hd : (scan_from ScanState.init ["void f(int n) \x7b\n".toList]).loop_stack_depth
      = 0 := by decide
  rw [h0] at h1
  rw [hd] at h2
  rw [h2] at h3
  exact ⟨h1, h2, h3⟩

/-- Claim C20 fails as stated. (a) In `next_line_brace_file` the opening brace
of `f` stands on the line after the header; the only loop-start lines are the
`do` line and the closing `while` line, with no closing brace between them.
The function is left on its header line, the `do` line is read outside a
function and is not counted, the `while` line is taken for the start of a
second function named `while` and is counted: the scan ends with
`total_loops = 1` and `total_functions = 2`. (b) In `negative_count_file` a
string literal with two closing braces leaves `brace_count` at -1; the `do`
line brings it to zero and ends the function before the loop check, and the
scan ends with `total_loops = 1`. (c) In `brace_in_condition_file` the closing
`while` line holds two closing braces; it ends the function before the loop
check, and the scan ends with `total_loops = 1` and `max_nested_loops = 1`. -/
theorem do_while_not_always_counted_twice :
    (next_line_brace_file.map (fun l => is_loop_start (trim l)) =
        [false, false, true, false, true, false] ∧
      (scan_from ScanState.init ["void f(int n)\n".toList, "\x7b\n".toList]).in_function
        = false ∧
      (analyze_lines next_line_brace_file).total_loops = 1 ∧
      (analyze_lines next_line_brace_file).max_nested_loops = 1 ∧
      (analyze_lines next_line_brace_file).total_functions = 2 ∧
      ((analyze_lines next_line_brace_file).functions 0).name = "f".toList ∧
      ((analyze_lines next_line_brace_file).functions 0).loop_depth = 0 ∧
      ((analyze_lines next_line_brace_file).functions 1).name = "while".toList) ∧
    (negative_count_file.map (fun l => is_loop_start (trim l)) =
        [false, false, true, false, true, false] ∧
      (scan_from ScanState.init ["void f(int n) \x7b\n".toList,
        "printf(\x22\x7d\x7d\x22);\n".toList]).in_function = true ∧
      (scan_from ScanState.init ["void f(int n) \x7b\n".toList,
        "printf(\x22\x7d\x7d\x22);\n".toList]).brace_count = -1 ∧
      (scan_from ScanState.init ["void f(int n) \x7b\n".toList,
        "printf(\x22\x7d\x7d\x22);\n".toList, "do \x7b\n".toList]).in_function = false ∧
      (analyze_lines negative_count_file).total_loops = 1) ∧
    (brace_in_condition_file.map (fun l => is_loop_start (trim l)) =
        [false, true, false, true, false] ∧
      count_braces 0 (trim "\x7d while (*s != \x27\x7d\x27);\n".toList) = -2 ∧
      (scan_from ScanState.init ["void f(char *s) \x7b\n".toList, "do \x7b\n".toList,
        "s++;\n".toList, "\x7d while (*s != \x27\x7d\x27);\n".toList]).in_function = false ∧
      (analyze_lines brace_in_condition_file).total_functions = 1 ∧
      (analyze_lines brace_in_condition_file).total_loops = 1 ∧
      (analyze_lines brace_in_condition_file).max_nested_loops = 1) := by
  decide

end ComplexityAnalyzer
